import Mathlib

/-! Stock ledger of `api-metalurgicas` (`src/server.js`).

A shallow embedding of the two handlers that move stock, `POST /api/ventas`
and `DELETE /api/ventas/:id`, together with the numeric parser `parseNumAny`
they rely on.

Conventions of the embedding:

* A JavaScript number is `NaN`, an infinity or a finite double, the last given
  by its exact rational value (`JsNum`); `toDouble` rounds the value of a
  literal to the nearest double, so a literal overflows, underflows and
  rounds as in the engine. The sign of zero is not kept.
* The numeric columns of the store hold exact rationals, its arithmetic is
  exact and a value read back from it is used as it is: the schema is not
  among the sources.
* A request field is absent or one of the JSON values `null`, a boolean, a
  number or a string (`JsVal`); JSON arrays and objects are not represented.
* A connection carries the committed database, which the other connections
  read, the rows it holds itself and whether a transaction is open; `commit`
  publishes what it holds, `rollback` discards it, and a statement outside a
  transaction commits at once.
* A statement may throw; which ones do is an input of each handler (`Faults`).
* Two calls in flight interleave statement by statement (`stepCalls`); there the
  store changes rows in place under a row lock held until the transaction ends.
-/

namespace Metalurgicas

/-! ## JavaScript values and numbers -/

/-- A JavaScript number: `NaN`, a finite value, `Infinity` or `-Infinity`.
The sign of zero is not kept: `String`, `!x`, `x <= 0` and the driver give the
same for `-0` as for `0`. -/
inductive JsNum where
  | nan
  | fin (q : ℚ)
  | posInf
  | negInf
  deriving DecidableEq

namespace JsNum

/-- Unary minus. -/
def neg : JsNum → JsNum
  | nan => nan
  | fin q => fin (-q)
  | posInf => negInf
  | negInf => posInf

/-- The test `Number.isNaN(x)`. -/
def isNaN : JsNum → Bool
  | nan => true
  | _ => false

/-- The test `!x` on a number: true for `NaN` and for zero. -/
def falsy : JsNum → Bool
  | nan => true
  | fin q => decide (q = 0)
  | _ => false

/-- The comparison `x <= 0` (false for `NaN`). -/
def leZero : JsNum → Bool
  | nan => false
  | fin q => decide (q ≤ 0)
  | posInf => false
  | negInf => true

end JsNum

/-- The integer nearest to `x`, the even one of the two when `x` lies half way. -/
def roundHalfEven (x : ℚ) : ℤ :=
  let f := ⌊x⌋
  let r := x - f
  if r < 1 / 2 then f else if 1 / 2 < r then f + 1 else if f % 2 = 0 then f else f + 1

/-- The power `2 ^ p` of an integer exponent, computed from a power with a
natural exponent. -/
def twoPow (p : ℤ) : ℚ :=
  if 0 ≤ p then (2 : ℚ) ^ p.toNat else ((2 : ℚ) ^ (-p).toNat)⁻¹

/-- The binade of `0 < q`: the integer `e` with `2 ^ e ≤ q < 2 ^ (e + 1)`. The
bit lengths of the numerator and the denominator give `e` up to one. -/
def binade (q : ℚ) : ℤ :=
  let e : ℤ := (Nat.log2 q.num.natAbs : ℤ) - (Nat.log2 q.den : ℤ)
  if twoPow e ≤ q then e else e - 1

/-- The Number value for the real `q`: the nearest double (IEEE 754 binary64,
ties to even). With `2 ^ e ≤ |q| < 2 ^ (e + 1)` the doubles around `q` are the
multiples of `2 ^ (e - 52)`, or of `2 ^ (-1074)` below the normal range; a
result of `2 ^ 1024` or more is an infinity. -/
def toDouble (q : ℚ) : JsNum :=
  if q = 0 then JsNum.fin 0
  else
    let e := binade |q|
    let p := max e (-1022) - 52
    let v : ℚ := (roundHalfEven (|q| / twoPow p) : ℚ) * twoPow p
    if (2 : ℚ) ^ (1024 : ℕ) ≤ v then (if q < 0 then JsNum.negInf else JsNum.posInf)
    else JsNum.fin (if q < 0 then -v else v)

/-! ## `String(number)` -/

/-- The pair `(s, n)` with `s` written on `k` digits: a candidate `10 ^ k`
stands for `10 ^ (k - 1)` at the next exponent. -/
def onDigits (k : ℕ) (n s : ℤ) : ℤ × ℤ :=
  if s = 10 ^ k then (10 ^ (k - 1), n + 1) else (s, n)

/-- The `k`-digit decimal `s × 10 ^ (n - k)` that reads back as the double `x`,
if there is one: the nearest to `x` of the two around it is tried first. Here
`0 < x` and `10 ^ (n - 1) ≤ x < 10 ^ n`. -/
def digitsAt (x : ℚ) (n : ℤ) (k : ℕ) : Option (ℤ × ℤ) :=
  let scale : ℚ := (10 : ℚ) ^ (n - k)
  let first := roundHalfEven (x / scale)
  let second := 2 * ⌊x / scale⌋ + 1 - first
  if toDouble (first * scale) = JsNum.fin x then some (onDigits k n first)
  else if toDouble (second * scale) = JsNum.fin x then some (onDigits k n second)
  else none

/-- The search of `Number::toString` for the fewest digits: `k` digits are
tried, then one more, `more` times; seventeen digits always read back, so the
last length is not tested. -/
def shortestFrom (x : ℚ) (n : ℤ) (k : ℕ) : ℕ → ℤ × ℤ
  | 0 => onDigits k n (roundHalfEven (x / (10 : ℚ) ^ (n - k)))
  | more + 1 =>
    match digitsAt x n k with
    | some sn => sn
    | none => shortestFrom x n (k + 1) more

/-- The integers `s` and `n` of `Number::toString` for the double `0 < x`: the
decimal `s × 10 ^ (n - k)` with the fewest digits `k` that reads back as `x`,
where `10 ^ (n - 1) ≤ x < 10 ^ n` unless `s` was carried to the next power. -/
def shortestDigits (x : ℚ) : ℤ × ℤ :=
  shortestFrom x (Int.log 10 x + 1) 1 16

/-- The layout of `Number::toString` for the digits `ds` of `s` and the
exponent `n`: plain digits, a decimal point, leading zeros, or the exponent
form outside `-6 < n ≤ 21`. -/
def formatDigits (ds : List Char) (n : ℤ) : List Char :=
  let k : ℤ := ds.length
  if k ≤ n ∧ n ≤ 21 then ds ++ List.replicate (n - k).toNat '0'
  else if 0 < n ∧ n ≤ 21 then ds.take n.toNat ++ '.' :: ds.drop n.toNat
  else if -6 < n ∧ n ≤ 0 then '0' :: '.' :: (List.replicate (-n).toNat '0' ++ ds)
  else
    let e := n - 1
    let sign := if e < 0 then '-' else '+'
    let ex := Nat.toDigits 10 e.natAbs
    match ds with
    | [] => []
    | [d] => d :: 'e' :: sign :: ex
    | d :: r => d :: '.' :: (r ++ 'e' :: sign :: ex)

/-- The text of `String(x)` for a double `x` other than zero. -/
def doubleToString (x : ℚ) : List Char :=
  let sn := shortestDigits |x|
  let body := formatDigits (Nat.toDigits 10 sn.1.toNat) sn.2
  if x < 0 then '-' :: body else body

/-- The conversion `String(x)` of a number (`Number::toString`, radix ten). A
finite value stands for the double nearest to it. -/
def numberToString (x : JsNum) : List Char :=
  let y :=
    match x with
    | .fin q => toDouble q
    | _ => x
  match y with
  | .nan => "NaN".toList
  | .posInf => "Infinity".toList
  | .negInf => "-Infinity".toList
  | .fin d => if d = 0 then ['0'] else doubleToString d

/-! ## Request fields -/

/-- A field of `req.body`: absent, or the JSON value `null`, a boolean, a number
or a string. JSON arrays and objects are not represented. -/
inductive JsVal where
  | undefined
  | null
  | bool (b : Bool)
  | num (x : JsNum)
  | str (s : String)
  deriving DecidableEq

/-- The test `!v` on a request field. -/
def JsVal.falsy : JsVal → Bool
  | .undefined => true
  | .null => true
  | .bool b => !b
  | .num x => x.falsy
  | .str s => decide (s.toList = [])

/-- The conversion `String(v)`. For a string, a number and a boolean it is
also the text of the literal the driver sends for a statement parameter. -/
def JsVal.text : JsVal → String
  | .undefined => "undefined"
  | .null => "null"
  | .bool b => if b then "true" else "false"
  | .num x => String.mk (numberToString x)
  | .str s => s

/-! ## `Number(string)` -/

/-- The code points of `WhiteSpace` and `LineTerminator`, which `trim` and
`Number` strip. -/
def isWhiteSpace (c : Char) : Bool :=
  let n := c.toNat
  n = 0x9 || n = 0xA || n = 0xB || n = 0xC || n = 0xD || n = 0x20 || n = 0xA0 ||
  n = 0x1680 || (0x2000 ≤ n && n ≤ 0x200A) || n = 0x2028 || n = 0x2029 ||
  n = 0x202F || n = 0x205F || n = 0x3000 || n = 0xFEFF

/-- The method `String.prototype.trim`. -/
def trim (cs : List Char) : List Char :=
  ((cs.dropWhile isWhiteSpace).reverse.dropWhile isWhiteSpace).reverse

/-- The value of a run of decimal digits. -/
def digitsValue (ds : List Char) : ℕ :=
  ds.foldl (fun n c => 10 * n + (c.toNat - 48)) 0

/-- The value of one digit in base sixteen, if it is one. -/
def hexDigit (c : Char) : Option ℕ :=
  if c.isDigit then some (c.toNat - 48)
  else if 'a' ≤ c ∧ c ≤ 'f' then some (c.toNat - 87)
  else if 'A' ≤ c ∧ c ≤ 'F' then some (c.toNat - 55)
  else none

/-- The value of a non-empty run of digits of the given radix
(`0x`, `0o`, `0b` literals); `NaN` otherwise. -/
def radixValue (radix : ℕ) (ds : List Char) : JsNum :=
  if ds = [] then JsNum.nan
  else
    match ds.foldl
        (fun acc c =>
          match acc, hexDigit c with
          | some n, some d => if d < radix then some (radix * n + d) else none
          | _, _ => none)
        (some 0) with
    | some n => toDouble n
    | none => JsNum.nan

/-- The optional `ExponentPart` that ends a decimal literal with mantissa `m`. -/
def exponentPart (m : ℚ) (r : List Char) : JsNum :=
  match r with
  | [] => toDouble m
  | c :: r1 =>
    if c = 'e' ∨ c = 'E' then
      match r1 with
      | [] => JsNum.nan
      | s :: ds =>
        if s = '+' then
          if ds ≠ [] ∧ ds.all Char.isDigit then toDouble (m * 10 ^ digitsValue ds)
          else JsNum.nan
        else if s = '-' then
          if ds ≠ [] ∧ ds.all Char.isDigit then toDouble (m / 10 ^ digitsValue ds)
          else JsNum.nan
        else if r1.all Char.isDigit then toDouble (m * 10 ^ digitsValue r1)
        else JsNum.nan
    else JsNum.nan

/-- The production `StrUnsignedDecimalLiteral`: `Infinity`, `d+.d*`, `.d+` or
`d+`, each with an optional exponent; the value of the literal is rounded to a
double once. -/
def strUnsignedDecimal (cs : List Char) : JsNum :=
  if cs = "Infinity".toList then JsNum.posInf
  else
    let ip := cs.takeWhile Char.isDigit
    let r1 := cs.dropWhile Char.isDigit
    match r1 with
    | [] => if ip = [] then JsNum.nan else toDouble (digitsValue ip)
    | c :: r2 =>
      if c = '.' then
        let fp := r2.takeWhile Char.isDigit
        let r3 := r2.dropWhile Char.isDigit
        if ip = [] ∧ fp = [] then JsNum.nan
        else exponentPart ((digitsValue ip : ℚ) + (digitsValue fp : ℚ) / 10 ^ fp.length) r3
      else if ip = [] then JsNum.nan
      else exponentPart (digitsValue ip) r1

/-- The production `StrDecimalLiteral`: an optional sign, then an unsigned literal. -/
def strDecimal (cs : List Char) : JsNum :=
  match cs with
  | [] => JsNum.nan
  | c :: r =>
    if c = '+' then strUnsignedDecimal r
    else if c = '-' then (strUnsignedDecimal r).neg
    else strUnsignedDecimal cs

/-- The conversion `Number(s)` of a string: blank gives `0`, a numeric literal
gives the double nearest to its value, anything else gives `NaN`. -/
def toNumber (s : List Char) : JsNum :=
  match trim s with
  | [] => JsNum.fin 0
  | [c] => strDecimal [c]
  | c :: x :: ds =>
    if c = '0' ∧ (x = 'x' ∨ x = 'X') then radixValue 16 ds
    else if c = '0' ∧ (x = 'o' ∨ x = 'O') then radixValue 8 ds
    else if c = '0' ∧ (x = 'b' ∨ x = 'B') then radixValue 2 ds
    else strDecimal (c :: x :: ds)

/-- The conversion `Number(v)` of a request field. -/
def Number : JsVal → JsNum
  | .undefined => JsNum.nan
  | .null => JsNum.fin 0
  | .bool b => JsNum.fin (if b then 1 else 0)
  | .num x => x
  | .str s => toNumber s.toList

/-- The call `s.replace(",", ".")`: only the first comma is replaced. -/
def replaceFirstComma : List Char → List Char
  | [] => []
  | c :: r => if c = ',' then '.' :: r else c :: replaceFirstComma r

/-- The call `s.replace(/\./g, "")`: every dot is removed. -/
def removeDots (cs : List Char) : List Char :=
  cs.filter (fun c => c ≠ '.')

/-- The function `parseNumAny` of `server.js`. -/
def parseNumAny (v : JsVal) : JsNum :=
  if v = JsVal.null ∨ v = JsVal.undefined then JsNum.nan
  else
    let s := trim v.text.toList
    if s = [] then JsNum.nan
    else toNumber (replaceFirstComma (removeDots s))

/-! ## The store -/

/-- A row of table `inventario`. -/
structure Item where
  id_producto : ℚ
  nombre_producto : String
  categoria : String
  precio_unitario : ℚ
  stock_inicial : ℚ
  stock_minimo : ℚ
  imagen_url : Option String
  deriving DecidableEq

/-- A row of table `ventas`. -/
structure Venta where
  id : ℕ
  fecha : String
  id_producto : ℚ
  producto : String
  cantidad_vendida : ℚ
  total_venta : ℚ
  observaciones : Option String
  deriving DecidableEq

/-- The committed database: both tables and the auto-increment counter of
`ventas.id` (the counter is not transactional). -/
structure DB where
  inventario : List Item
  ventas : List Venta
  autoInc : ℕ
  deriving DecidableEq

/-- A pooled connection: the committed database, which every other connection
reads, the tables as this connection sees them, and whether it has a
transaction open. -/
structure Conn where
  committed : DB
  inventario : List Item
  ventas : List Venta
  inTransaction : Bool

/-- The committed database once the rows this connection holds are made durable. -/
def publish (c : Conn) : DB :=
  { inventario := c.inventario, ventas := c.ventas, autoInc := c.committed.autoInc }

/-- The call `pool.getConnection()`: a connection with no transaction open. -/
def getConnection (db : DB) : Conn :=
  { committed := db, inventario := db.inventario, ventas := db.ventas, inTransaction := false }

/-- The call `conn.beginTransaction()`, that is `START TRANSACTION`: what the
connection still holds is committed and a transaction is opened. -/
def beginTransaction (c : Conn) : Conn :=
  { c with committed := publish c, inTransaction := true }

/-- The call `conn.commit()`: the rows the transaction holds become the committed
state and the transaction is closed. -/
def commit (c : Conn) : Conn :=
  { c with committed := publish c, inTransaction := false }

/-- The call `conn.rollback()`: the rows the transaction holds are discarded and
the transaction is closed. -/
def rollback (c : Conn) : Conn :=
  { c with
    inventario := c.committed.inventario
    ventas := c.committed.ventas
    inTransaction := false }

/-- The end of a statement: outside a transaction its changes are committed at
once (autocommit), inside one they stay with the connection. -/
def autocommit (c : Conn) : Conn :=
  if c.inTransaction then c else { c with committed := publish c }

/-- The call `conn.release()`: the connection goes back to the pool as it is; a
transaction left open stays open on it, with the rows it holds. -/
def release (c : Conn) : Conn := c

/-- The `SET stock_inicial = stock_inicial - ?` of the conditional decrement on
one row, applied where `id_producto = ? AND stock_inicial >= ?` holds. -/
def decrementRow (qty idNum : ℚ) (it : Item) : Item :=
  if it.id_producto = idNum ∧ it.stock_inicial ≥ qty
  then { it with stock_inicial := it.stock_inicial - qty } else it

/-- The `SET stock_inicial = stock_inicial + ?` of the compensating increment on
one row, applied where `id_producto = ?` holds. -/
def incrementRow (qty idNum : ℚ) (it : Item) : Item :=
  if it.id_producto = idNum then { it with stock_inicial := it.stock_inicial + qty } else it

/-- The statement
`UPDATE inventario SET stock_inicial = stock_inicial - ? WHERE id_producto = ? AND stock_inicial >= ?`
with parameters `[qty, idNum, qty]`: the connection afterwards and `affectedRows`. -/
def conditionalDecrement (c : Conn) (qty idNum : ℚ) : Conn × ℕ :=
  (autocommit { c with inventario := c.inventario.map (decrementRow qty idNum) },
   c.inventario.countP (fun it => it.id_producto = idNum ∧ it.stock_inicial ≥ qty))

/-- The statement
`SELECT nombre_producto, stock_inicial FROM inventario WHERE id_producto = ?`,
destructured as `[[prod]]`: the first row, if any. -/
def selectProducto (c : Conn) (idNum : ℚ) : Option Item :=
  c.inventario.find? (fun it => it.id_producto = idNum)

/-- The statement `INSERT INTO ventas (...) VALUES (?,?,?,?,?,?)`: the connection
afterwards and `insertId`. -/
def insertVenta (c : Conn) (fecha : String) (idNum : ℚ) (nombre : String) (qty tot : ℚ)
    (obs : Option String) : Conn × ℕ :=
  let row : Venta :=
    { id := c.committed.autoInc
      fecha := fecha
      id_producto := idNum
      producto := nombre
      cantidad_vendida := qty
      total_venta := tot
      observaciones := obs }
  (autocommit
    { committed := { c.committed with autoInc := c.committed.autoInc + 1 }
      inventario := c.inventario
      ventas := c.ventas ++ [row]
      inTransaction := c.inTransaction },
   c.committed.autoInc)

/-- The statement
`SELECT id, id_producto, cantidad_vendida FROM ventas WHERE id = ? FOR UPDATE`,
destructured as `[[venta]]`. -/
def selectVenta (c : Conn) (id : ℕ) : Option Venta :=
  c.ventas.find? (fun v => v.id = id)

/-- The statement
`UPDATE inventario SET stock_inicial = stock_inicial + ? WHERE id_producto = ?`. -/
def increment (c : Conn) (qty idNum : ℚ) : Conn :=
  autocommit { c with inventario := c.inventario.map (incrementRow qty idNum) }

/-- The statement `DELETE FROM ventas WHERE id = ?`: the connection afterwards
and `affectedRows`. -/
def deleteVenta (c : Conn) (id : ℕ) : Conn × ℕ :=
  (autocommit { c with ventas := c.ventas.filter (fun v => v.id ≠ id) },
   c.ventas.countP (fun v => v.id = id))

/-! ## The handlers -/

/-- The responses of the two handlers. -/
inductive Resp where
  /-- Status 200 of `POST /api/ventas`: `{creado, id_venta, stock_restante}`. -/
  | created (id_venta : ℕ) (stock_restante : ℚ)
  /-- Status 200 of `DELETE /api/ventas/:id`: `{id}`. -/
  | deleted (id : ℕ)
  /-- Status 400 (`invalid_input`). -/
  | badRequest
  /-- Status 409 (`conflict`), whose message carries `idNum`. -/
  | conflict (idNum : ℚ)
  /-- Status 404 (`not_found`). -/
  | notFound
  /-- Status 500 (`internal`). -/
  | serverError
  deriving DecidableEq

/-- Which calls on the connection throw during one request. -/
structure Faults where
  beginTransaction : Bool
  select : Bool
  update : Bool
  insert : Bool
  delete : Bool
  rollback : Bool
  commit : Bool
  rollbackInCatch : Bool

/-- No call throws. -/
def noFaults : Faults :=
  { beginTransaction := false, select := false, update := false, insert := false,
    delete := false, rollback := false, commit := false, rollbackInCatch := false }

/-- The body of `POST /api/ventas`. -/
structure VentaBody where
  fecha : JsVal
  id_producto : JsVal
  cantidad_vendida : JsVal
  total_venta : JsVal
  observaciones : JsVal

/-- The expression `observaciones || null`. -/
def orNull (v : JsVal) : Option String :=
  if v.falsy then none else some v.text

/-- The `catch` block of both handlers: `try { await conn.rollback() } catch {}`,
then status 500. -/
def catchBlock (ft : Faults) (c : Conn) : Resp × Conn :=
  (Resp.serverError, if ft.rollbackInCatch then c else rollback c)

/-- The `try` block of `POST /api/ventas`, entered with validated `idNum`, `qty`
and `tot`. A result `none` is a thrown exception, with the connection as the
exception left it. A non-finite parameter has no SQL literal, so the statement
that receives one throws. -/
def createTry (ft : Faults) (c0 : Conn) (fecha : String) (idNum qty tot : JsNum)
    (obs : Option String) : Option Resp × Conn :=
  if ft.beginTransaction then (none, c0)
  else
    let c1 := beginTransaction c0
    match qty, idNum with
    | JsNum.fin q, JsNum.fin i =>
      if ft.update then (none, c1)
      else
        let (c2, affectedRows) := conditionalDecrement c1 q i
        if affectedRows = 0 then
          if ft.rollback then (none, c2)
          else (some (Resp.conflict i), rollback c2)
        else if ft.select then (none, c2)
        else
          let prod := selectProducto c2 i
          let nombre := (prod.map Item.nombre_producto).getD ""
          let stockRestante := (prod.map Item.stock_inicial).getD 0
          match tot with
          | JsNum.fin t =>
            if ft.insert then (none, c2)
            else
              let (c3, insertId) := insertVenta c2 fecha i nombre q t obs
              if ft.commit then (none, c3)
              else (some (Resp.created insertId stockRestante), commit c3)
          | _ => (none, c2)
    | _, _ => (none, c1)

/-- The `try`, `catch` and `finally` of `POST /api/ventas` on connection `conn`:
the response and the connection as it goes back to the pool. -/
def createReleased (ft : Faults) (conn : Conn) (fecha : String) (idNum qty tot : JsNum)
    (obs : Option String) : Resp × Conn :=
  match createTry ft conn fecha idNum qty tot obs with
  | (some r, c) => (r, release c)
  | (none, c) => let (r, c1) := catchBlock ft c; (r, release c1)

/-- The handler of `POST /api/ventas`: the response and the database as every
other connection reads it once the call has ended. -/
def create_sale (ft : Faults) (db : DB) (body : VentaBody) : Resp × DB :=
  let idNum := Number body.id_producto
  let qty := parseNumAny body.cantidad_vendida
  let tot := parseNumAny body.total_venta
  if body.fecha.falsy ∨ idNum.falsy ∨ qty.isNaN ∨ qty.leZero ∨ tot.isNaN then
    (Resp.badRequest, db)
  else
    let conn := getConnection db
    let out := createReleased ft conn body.fecha.text idNum qty tot (orNull body.observaciones)
    (out.1, out.2.committed)

/-- The `try` block of `DELETE /api/ventas/:id`, where `id` is the number the
route parameter denotes. -/
def deleteTry (ft : Faults) (c0 : Conn) (id : ℕ) : Option Resp × Conn :=
  if ft.beginTransaction then (none, c0)
  else
    let c1 := beginTransaction c0
    if ft.select then (none, c1)
    else
      match selectVenta c1 id with
      | none =>
        if ft.rollback then (none, c1)
        else (some Resp.notFound, rollback c1)
      | some venta =>
        if ft.update then (none, c1)
        else
          let c2 := increment c1 venta.cantidad_vendida venta.id_producto
          if ft.delete then (none, c2)
          else
            let (c3, affectedRows) := deleteVenta c2 id
            if affectedRows = 0 then
              if ft.rollback then (none, c3)
              else (some Resp.notFound, rollback c3)
            else if ft.commit then (none, c3)
            else (some (Resp.deleted id), commit c3)

/-- The `try`, `catch` and `finally` of `DELETE /api/ventas/:id` on connection
`conn`: the response and the connection as it goes back to the pool. -/
def deleteReleased (ft : Faults) (conn : Conn) (id : ℕ) : Resp × Conn :=
  match deleteTry ft conn id with
  | (some r, c) => (r, release c)
  | (none, c) => let (r, c1) := catchBlock ft c; (r, release c1)

/-- The handler of `DELETE /api/ventas/:id`: the response and the database as
every other connection reads it once the call has ended. -/
def delete_sale (ft : Faults) (db : DB) (id : ℕ) : Resp × DB :=
  let conn := getConnection db
  let out := deleteReleased ft conn id
  (out.1, out.2.committed)

/-! ## Sequences of calls -/

/-- One call on the engine, with the faults it meets. -/
inductive Op where
  | create (ft : Faults) (body : VentaBody)
  | delete (ft : Faults) (id : ℕ)

/-- The database after one call. -/
def step (db : DB) : Op → DB
  | .create ft body => (create_sale ft db body).2
  | .delete ft id => (delete_sale ft db id).2

/-- The database after a sequence of calls, served one after the other. -/
def run (db : DB) (ops : List Op) : DB :=
  ops.foldl step db

/-- The sum of the quantities of the sale rows that reference item `idNum`. -/
def soldQty (ventas : List Venta) (idNum : ℚ) : ℚ :=
  ((ventas.filter (fun v => v.id_producto = idNum)).map Venta.cantidad_vendida).sum

/-- The row `POST /api/ventas` writes for validated inputs, given the name it read back. -/
def ventaRow (id : ℕ) (fecha : String) (idNum : ℚ) (nombre : String) (qty tot : ℚ)
    (obs : Option String) : Venta :=
  { id := id
    fecha := fecha
    id_producto := idNum
    producto := nombre
    cantidad_vendida := qty
    total_venta := tot
    observaciones := obs }

/-- The catalog `items` with every stock reduced by what the sale rows `ventas`
took from that item. -/
def ledgerStock (items : List Item) (ventas : List Venta) : List Item :=
  items.map (fun it =>
    { it with stock_inicial := it.stock_inicial - soldQty ventas it.id_producto })

/-- The invariant of the ledger over a catalog created as `items`: every stock is
the initial one minus what the live sale rows took, and sale ids are distinct
and below the counter. -/
def LedgerInv (items : List Item) (db : DB) : Prop :=
  db.inventario = ledgerStock items db.ventas ∧
    (db.ventas.map Venta.id).Nodup ∧
    ∀ v ∈ db.ventas, v.id < db.autoInc

/-! ## Two calls of `POST /api/ventas` in flight

Node runs a handler up to its next `await`, so the statements of two calls
interleave. In these runs `DB.inventario` holds the latest version of each row:
an `UPDATE` changes rows in place, locks the rows of its `id_producto` until its
transaction ends, and waits while the other transaction holds that lock (row
locking of the store). The rows a transaction inserted into `ventas` stay with
it until `commit`. A statement throws only when it receives a non-finite
parameter. -/

/-- The statement a call of `POST /api/ventas` awaits next, with the local
constants the rest of the handler reads. -/
inductive Pc where
  /-- Before `await conn.beginTransaction()`. -/
  | beginTransaction
  /-- Before the conditional `UPDATE`. -/
  | update
  /-- Before `await conn.rollback()` of the branch `affectedRows === 0`. -/
  | rollback (idNum : ℚ)
  /-- Before the `SELECT` that reads the name and the remaining stock. -/
  | select (qty idNum : ℚ)
  /-- Before the `INSERT INTO ventas`. -/
  | insert (qty idNum : ℚ) (nombre : String) (stockRestante : ℚ)
  /-- Before `await conn.commit()`. -/
  | commit (insertId : ℕ) (stockRestante : ℚ)
  /-- Before the `rollback` of the `catch` block. -/
  | catchRollback
  /-- After the response was sent and the connection released. -/
  | done (r : Resp)
  deriving DecidableEq

/-- The transaction of a call in flight. -/
structure Tx where
  /-- What the call awaits next. -/
  pc : Pc
  /-- The `id_producto` whose rows the transaction has locked, if any. -/
  lock : Option ℚ
  /-- Per row of `inventario`, the version to put back on `rollback`. -/
  undo : List (Option Item)
  /-- The rows inserted into `ventas` and not committed yet. -/
  pending : List Venta

/-- The rollback of the in-place changes: every row with a saved version gets it back. -/
def restoreRows : List Item → List (Option Item) → List Item
  | [], _ => []
  | it :: r, [] => it :: r
  | it :: r, u :: us => u.getD it :: restoreRows r us

/-- The transaction once it has ended with response `r`. -/
def Tx.ended (r : Resp) : Tx :=
  { pc := .done r, lock := none, undo := [], pending := [] }

/-- The call at its first `await`: validation has run, with its 400 on failure. -/
def startTx (body : VentaBody) : Tx :=
  { pc :=
      if body.fecha.falsy ∨ (Number body.id_producto).falsy ∨
          (parseNumAny body.cantidad_vendida).isNaN ∨
          (parseNumAny body.cantidad_vendida).leZero ∨
          (parseNumAny body.total_venta).isNaN
      then .done Resp.badRequest else .beginTransaction
    lock := none
    undo := []
    pending := [] }

/-- One statement of a call: the store and the transaction afterwards, where
`other` is the lock the other transaction holds. A statement that has to wait
leaves both unchanged. -/
def stepTx (body : VentaBody) (other : Option ℚ) (db : DB) (tx : Tx) : DB × Tx :=
  match tx.pc with
  | .beginTransaction => (db, { tx with pc := .update })
  | .update =>
    match parseNumAny body.cantidad_vendida, Number body.id_producto with
    | JsNum.fin q, JsNum.fin i =>
      if other = some i then (db, tx)
      else
        let affectedRows :=
          db.inventario.countP (fun it => it.id_producto = i ∧ it.stock_inicial ≥ q)
        ({ db with inventario := db.inventario.map (decrementRow q i) },
         { tx with
           pc := if affectedRows = 0 then .rollback i else .select q i
           lock := some i
           undo := db.inventario.map (fun it =>
             if it.id_producto = i ∧ it.stock_inicial ≥ q then some it else none) })
    | _, _ => (db, { tx with pc := .catchRollback })
  | .rollback i =>
    ({ db with inventario := restoreRows db.inventario tx.undo }, Tx.ended (Resp.conflict i))
  | .select q i =>
    let prod := db.inventario.find? (fun it => it.id_producto = i)
    let nombre := (prod.map Item.nombre_producto).getD ""
    let stockRestante := (prod.map Item.stock_inicial).getD 0
    (db, { tx with pc := .insert q i nombre stockRestante })
  | .insert q i nombre stockRestante =>
    match parseNumAny body.total_venta with
    | JsNum.fin t =>
      ({ db with autoInc := db.autoInc + 1 },
       { tx with
         pc := .commit db.autoInc stockRestante
         pending := tx.pending ++
           [ventaRow db.autoInc body.fecha.text i nombre q t (orNull body.observaciones)] })
    | _ => (db, { tx with pc := .catchRollback })
  | .commit insertId stockRestante =>
    ({ db with ventas := db.ventas ++ tx.pending },
     Tx.ended (Resp.created insertId stockRestante))
  | .catchRollback =>
    ({ db with inventario := restoreRows db.inventario tx.undo }, Tx.ended Resp.serverError)
  | .done _ => (db, tx)

/-- Two calls in flight over one store. -/
structure Calls where
  db : DB
  first : Tx
  second : Tx

/-- Both calls at their first `await`. -/
def startCalls (db : DB) (body1 body2 : VentaBody) : Calls :=
  { db := db, first := startTx body1, second := startTx body2 }

/-- The store serves the next statement of the second call (`true`) or of the
first call (`false`). -/
def stepCalls (body1 body2 : VentaBody) (st : Calls) (k : Bool) : Calls :=
  if k then
    { db := (stepTx body2 st.first.lock st.db st.second).1
      first := st.first
      second := (stepTx body2 st.first.lock st.db st.second).2 }
  else
    { db := (stepTx body1 st.second.lock st.db st.first).1
      first := (stepTx body1 st.second.lock st.db st.first).2
      second := st.second }

/-- The two calls after the store served statements in the order `sched`. -/
def runCalls (body1 body2 : VentaBody) (st : Calls) (sched : List Bool) : Calls :=
  sched.foldl (stepCalls body1 body2) st

/-- The response of a call that has ended. -/
def Tx.response (tx : Tx) : Option Resp :=
  match tx.pc with
  | .done r => some r
  | _ => none

/-- An upper bound on the statements a call still has to run. -/
def Pc.rank : Pc → ℕ
  | .beginTransaction => 5
  | .update => 4
  | .select _ _ => 3
  | .insert _ _ _ _ => 2
  | .commit _ _ => 1
  | .rollback _ => 1
  | .catchRollback => 1
  | .done _ => 0

/-- The transaction of call `k`. -/
def Calls.tx (st : Calls) (k : Bool) : Tx :=
  if k then st.second else st.first

/-- A transaction holds no lock before its `UPDATE` and after it ended. -/
def LockOk (tx : Tx) : Prop :=
  (tx.pc = .beginTransaction ∨ tx.pc = .update ∨ ∃ r, tx.pc = .done r) → tx.lock = none

/-- A schedule that lets the first call run, then the second, then the first again. -/
def drain : List Bool :=
  List.replicate 5 false ++ List.replicate 5 true ++ List.replicate 5 false

/-- The request `body` asks for `q` units of item `it`, with a finite total. -/
def Asks (body : VentaBody) (it : Item) (q : ℚ) : Prop :=
  Number body.id_producto = JsNum.fin it.id_producto ∧
    parseNumAny body.cantidad_vendida = JsNum.fin q ∧
    ∃ t, parseNumAny body.total_venta = JsNum.fin t

/-- The catalog has distinct ids and holds `it`, whose stock covers `q` units
once and not twice. -/
def LastUnits (db0 : DB) (it : Item) (q : ℚ) : Prop :=
  (db0.inventario.map Item.id_producto).Nodup ∧ it ∈ db0.inventario ∧
    0 < q ∧ q ≤ it.stock_inicial ∧ it.stock_inicial - q < q

/-- The call has not run its `UPDATE` yet. -/
def Idle (tx : Tx) : Prop :=
  (tx.pc = .beginTransaction ∨ tx.pc = .update) ∧ tx.lock = none ∧ tx.pending = []

/-- The call has decremented the stock of `it` by `q` and holds the row lock. -/
def Holding (it : Item) (q : ℚ) (tx : Tx) : Prop :=
  tx.lock = some it.id_producto ∧
    ((tx.pc = .select q it.id_producto ∧ tx.pending = []) ∨
     (∃ nombre, tx.pc = .insert q it.id_producto nombre (it.stock_inicial - q) ∧
        tx.pending = []) ∨
     (∃ n row, tx.pc = .commit n (it.stock_inicial - q) ∧ tx.pending = [row] ∧
        row.id_producto = it.id_producto ∧ row.cantidad_vendida = q))

/-- The call has ended with success and the remaining stock of `it`. -/
def Won (it : Item) (q : ℚ) (tx : Tx) : Prop :=
  ∃ n, tx = Tx.ended (Resp.created n (it.stock_inicial - q))

/-- The call runs behind the one that won: it has not run its `UPDATE`, or its
`UPDATE` changed no row, or it has ended with `conflict`. -/
def Lost (it : Item) (tx : Tx) : Prop :=
  Idle tx ∨
    (tx.pc = .rollback it.id_producto ∧ tx.lock = some it.id_producto ∧
      ∀ u ∈ tx.undo, u = none) ∨
    tx = Tx.ended (Resp.conflict it.id_producto)

/-- Call `w` took the units of `it` and call `l` did not. -/
def Leads (db0 : DB) (it : Item) (q : ℚ) (db : DB) (w l : Tx) : Prop :=
  db.inventario = db0.inventario.map (decrementRow q it.id_producto) ∧
    ((Holding it q w ∧ Idle l ∧ db.ventas = db0.ventas) ∨
     (Won it q w ∧ Lost it l ∧
       ∃ row, db.ventas = db0.ventas ++ [row] ∧ row.id_producto = it.id_producto ∧
         row.cantidad_vendida = q))

/-- What holds of two calls that race for the units of `it`, at every point. -/
def RaceInv (db0 : DB) (it : Item) (q : ℚ) (st : Calls) : Prop :=
  (st.db.inventario = db0.inventario ∧ st.db.ventas = db0.ventas ∧
      Idle st.first ∧ Idle st.second) ∨
    Leads db0 it q st.db st.first st.second ∨ Leads db0 it q st.db st.second st.first

/-! ## A small catalog for the scenarios of the specification -/

/-- An item with id 1 and ten units in stock. -/
def sampleItem : Item :=
  { id_producto := 1
    nombre_producto := "Angulo"
    categoria := "Perfiles"
    precio_unitario := 50
    stock_inicial := 10
    stock_minimo := 3
    imagen_url := none }

/-- A catalog that holds `sampleItem` only, with no sale yet. -/
def sampleDB : DB :=
  { inventario := [sampleItem], ventas := [], autoInc := 1 }

/-- A sale of item 1 on 2024-01-01 for a total of 150, with the given quantity field. -/
def sampleBody (cantidad : String) : VentaBody :=
  { fecha := .str "2024-01-01"
    id_producto := .str "1"
    cantidad_vendida := .str cantidad
    total_venta := .str "150"
    observaciones := .undefined }

/-- The sale of `sampleBody "3"` asked for the id `"-1"`. -/
def negativeIdBody : VentaBody :=
  { sampleBody "3" with id_producto := .str "-1" }

/-- The sale of `sampleBody "3"` with a note. -/
def notedBody : VentaBody :=
  { sampleBody "3" with observaciones := .str "entrega en obra" }

/-- The JSON body `{"fecha": "2024-01-01", "id_producto": 1,
"cantidad_vendida": 3, "total_venta": 150}`: the sale of `sampleBody "3"` with
its numbers sent as numbers. -/
def numericBody : VentaBody :=
  { fecha := .str "2024-01-01"
    id_producto := .num (JsNum.fin 1)
    cantidad_vendida := .num (JsNum.fin 3)
    total_venta := .num (JsNum.fin 150)
    observaciones := .undefined }

/-- The body `numericBody` with the number 0 as date. -/
def zeroDateBody : VentaBody :=
  { numericBody with fecha := .num (JsNum.fin 0) }

/-- The body `numericBody` with `false` as date. -/
def falseDateBody : VentaBody :=
  { numericBody with fecha := .bool false }

/-- The body `numericBody` with `true` as item id. -/
def trueIdBody : VentaBody :=
  { numericBody with id_producto := .bool true }

/-- The sale of `sampleBody "3"` with the total written as a lone dot. -/
def dotTotalBody : VentaBody :=
  { sampleBody "3" with total_venta := .str "." }

/-- An item with id 1 and twenty units in stock. -/
def stockedItem : Item :=
  { sampleItem with stock_inicial := 20 }

/-- A catalog that holds `stockedItem` only, with no sale yet. -/
def stockedDB : DB :=
  { inventario := [stockedItem], ventas := [], autoInc := 1 }

/-- The JSON body `{"fecha": "2024-01-01", "id_producto": 1,
"cantidad_vendida": 1.5, "total_venta": 150}`: a sale of one unit and a half. -/
def fractionBody : VentaBody :=
  { fecha := .str "2024-01-01"
    id_producto := .num (JsNum.fin 1)
    cantidad_vendida := .num (JsNum.fin (3 / 2))
    total_venta := .num (JsNum.fin 150)
    observaciones := .undefined }

/-- Only the `INSERT INTO ventas` throws. -/
def insertFails : Faults :=
  { noFaults with insert := true }

/-- The `INSERT INTO ventas` throws, and so does the `rollback` of the `catch`
block. -/
def rollbackFails : Faults :=
  { insertFails with rollbackInCatch := true }

/-- An item with id 1 and five units in stock. -/
def lastFive : Item :=
  { sampleItem with stock_inicial := 5 }

/-- A catalog that holds `lastFive` only, with no sale yet. -/
def lastFiveDB : DB :=
  { inventario := [lastFive], ventas := [], autoInc := 1 }

/-- An interleaving of two calls: both begin, the second call runs its `UPDATE`
first, the first call waits for the lock and runs once the second has committed. -/
def secondWins : List Bool :=
  [false, true, true, false, true, true, true, false, false]

/-- The row the first sale of three units leaves in `ventas`. -/
def sampleVenta : Venta :=
  ventaRow 1 "2024-01-01" 1 "Angulo" 3 150 none

/-- The sample catalog after the sale of three units. -/
def sampleSold : DB :=
  { inventario := [{ sampleItem with stock_inicial := 7 }], ventas := [sampleVenta], autoInc := 2 }

/-! ## Outcomes of the handlers -/

/-- Every outcome of `create_sale`: either both tables are as before and the
call did not succeed, or the request was valid, some row had the stock, every
such row was decremented and one sale row was appended. -/
theorem create_sale_cases (ft : Faults) (db : DB) (body : VentaBody) :
    (((create_sale ft db body).2.inventario = db.inventario ∧
        (create_sale ft db body).2.ventas = db.ventas ∧
        db.autoInc ≤ (create_sale ft db body).2.autoInc) ∧
        ∀ n r, (create_sale ft db body).1 ≠ Resp.created n r) ∨
    ∃ q i t, parseNumAny body.cantidad_vendida = JsNum.fin q ∧ 0 < q ∧
      Number body.id_producto = JsNum.fin i ∧
      parseNumAny body.total_venta = JsNum.fin t ∧
      0 < db.inventario.countP (fun it => it.id_producto = i ∧ it.stock_inicial ≥ q) ∧
      create_sale ft db body =
        (Resp.created db.autoInc
            (((selectProducto
                (conditionalDecrement (beginTransaction (getConnection db)) q i).1 i).map
              Item.stock_inicial).getD 0),
         { inventario := db.inventario.map (decrementRow q i)
           ventas := db.ventas ++ [ventaRow db.autoInc body.fecha.text i
             (((selectProducto
                (conditionalDecrement (beginTransaction (getConnection db)) q i).1 i).map
              Item.nombre_producto).getD "") q t (orNull body.observaciones)]
           autoInc := db.autoInc + 1 }) := by
  by_cases hv : body.fecha.falsy = true ∨ (Number body.id_producto).falsy = true ∨
      (parseNumAny body.cantidad_vendida).isNaN = true ∨
      (parseNumAny body.cantidad_vendida).leZero = true ∨
      (parseNumAny body.total_venta).isNaN = true
  · left; simp [create_sale, hv]
  · simp only [create_sale, hv, if_false]
    simp only [not_or] at hv
    obtain ⟨hf, hi, hn, hz, htn⟩ := hv
    cases hq : parseNumAny body.cantidad_vendida with
    | nan => simp [hq, JsNum.isNaN] at hn
    | negInf => simp [hq, JsNum.leZero] at hz
    | posInf =>
      left
      unfold createReleased createTry
      by_cases hb : ft.beginTransaction <;>
        simp [hb, catchBlock, apply_ite Conn.committed, rollback, release, createReleased, deleteReleased, autocommit, publish, getConnection, beginTransaction]
    | fin q =>
      have hq0 : 0 < q := by simpa [hq, JsNum.leZero] using hz
      cases hi' : Number body.id_producto with
      | nan => simp [hi', JsNum.falsy] at hi
      | posInf =>
        left
        unfold createReleased createTry
        by_cases hb : ft.beginTransaction <;>
          simp [hb, catchBlock, apply_ite Conn.committed, rollback, release, createReleased, deleteReleased, autocommit, publish, getConnection, beginTransaction]
      | negInf =>
        left
        unfold createReleased createTry
        by_cases hb : ft.beginTransaction <;>
          simp [hb, catchBlock, apply_ite Conn.committed, rollback, release, createReleased, deleteReleased, autocommit, publish, getConnection, beginTransaction]
      | fin i =>
        by_cases hb : ft.beginTransaction
        · left
          simp [createTry, hb, catchBlock, apply_ite Conn.committed, rollback, release, createReleased, deleteReleased, autocommit, publish, getConnection]
        by_cases hu : ft.update
        · left
          simp [createTry, hb, hu, catchBlock, apply_ite Conn.committed, rollback, release, createReleased, deleteReleased, autocommit, publish, getConnection,
            beginTransaction]
        by_cases hc : ∀ a ∈ db.inventario, a.id_producto = i → a.stock_inicial < q
        · left
          by_cases hr : ft.rollback <;>
            simp [createTry, hb, hu, if_pos hc, hr, catchBlock, apply_ite Conn.committed, rollback, release, createReleased, deleteReleased, autocommit, publish, getConnection,
              beginTransaction, conditionalDecrement]
        by_cases hs : ft.select
        · left
          simp [createTry, hb, hu, if_neg hc, hs, catchBlock, apply_ite Conn.committed, rollback, release, createReleased, deleteReleased, autocommit, publish, getConnection,
            beginTransaction, conditionalDecrement]
        cases ht : parseNumAny body.total_venta with
        | nan => simp [ht, JsNum.isNaN] at htn
        | posInf =>
          left
          simp [createTry, hb, hu, if_neg hc, hs, catchBlock, apply_ite Conn.committed, rollback, release, createReleased, deleteReleased, autocommit, publish, getConnection,
            beginTransaction, conditionalDecrement]
        | negInf =>
          left
          simp [createTry, hb, hu, if_neg hc, hs, catchBlock, apply_ite Conn.committed, rollback, release, createReleased, deleteReleased, autocommit, publish, getConnection,
            beginTransaction, conditionalDecrement]
        | fin t =>
          by_cases hins : ft.insert
          · left
            simp [createTry, hb, hu, if_neg hc, hs, hins, catchBlock, apply_ite Conn.committed, rollback, release, createReleased, deleteReleased, autocommit, publish,
              getConnection, beginTransaction, conditionalDecrement]
          by_cases hcm : ft.commit
          · left
            simp [createTry, hb, hu, if_neg hc, hs, hins, hcm, catchBlock, apply_ite Conn.committed, rollback, release, createReleased, deleteReleased, autocommit, publish,
              getConnection, beginTransaction, conditionalDecrement, insertVenta]
          · right
            refine ⟨q, i, t, rfl, hq0, rfl, rfl, ?_, ?_⟩
            · rw [List.countP_pos_iff]
              simpa using hc
            simp [createTry, hb, hu, if_neg hc, hs, hins, hcm, release, createReleased, deleteReleased, autocommit, publish, getConnection,
              beginTransaction, conditionalDecrement, insertVenta, commit, ventaRow,
              decrementRow, selectProducto]

/-- Every outcome of `delete_sale`: either the database is as before and the
call did not succeed, or the sale row was found, the rows of its item were
incremented and the rows with that id were removed. -/
theorem delete_sale_cases (ft : Faults) (db : DB) (id : ℕ) :
    ((delete_sale ft db id).2 = db ∧ ∀ n, (delete_sale ft db id).1 ≠ Resp.deleted n) ∨
    ∃ v, db.ventas.find? (fun v => v.id = id) = some v ∧
      delete_sale ft db id =
        (Resp.deleted id,
         { inventario := db.inventario.map (incrementRow v.cantidad_vendida v.id_producto)
           ventas := db.ventas.filter (fun v => v.id ≠ id)
           autoInc := db.autoInc }) := by
  by_cases hb : ft.beginTransaction
  · left
    simp [delete_sale, deleteTry, hb, catchBlock, apply_ite Conn.committed, rollback, release, createReleased, deleteReleased, autocommit, publish,
      getConnection]
  by_cases hs : ft.select
  · left
    simp [delete_sale, deleteTry, hb, hs, catchBlock, apply_ite Conn.committed, rollback,
      release, createReleased, deleteReleased, autocommit, publish, getConnection, beginTransaction]
  cases hv : db.ventas.find? (fun v => v.id = id) with
  | none =>
    left
    by_cases hr : ft.rollback <;>
      simp [delete_sale, deleteTry, hb, hs, hv, hr, selectVenta, catchBlock,
        apply_ite Conn.committed, rollback, release, createReleased, deleteReleased, autocommit, publish, getConnection, beginTransaction]
  | some v =>
    by_cases hu : ft.update
    · left
      simp [delete_sale, deleteTry, hb, hs, hv, hu, selectVenta, catchBlock,
        apply_ite Conn.committed, rollback, release, createReleased, deleteReleased, autocommit, publish, getConnection, beginTransaction]
    by_cases hd : ft.delete
    · left
      simp [delete_sale, deleteTry, hb, hs, hv, hu, hd, selectVenta, catchBlock,
        apply_ite Conn.committed, rollback, release, createReleased, deleteReleased, autocommit, publish, getConnection, beginTransaction, increment]
    have hmem : ¬ ∀ a ∈ db.ventas, ¬ a.id = id := by
      intro h
      have := List.find?_some hv
      exact h v (List.mem_of_find?_eq_some hv) (by simpa using this)
    by_cases hcm : ft.commit
    · left
      simp [delete_sale, deleteTry, hb, hs, hv, hu, hd, hcm, if_neg hmem, selectVenta,
        catchBlock, apply_ite Conn.committed, rollback, release, createReleased, deleteReleased, autocommit, publish, getConnection,
        beginTransaction, increment, deleteVenta]
    · right
      refine ⟨v, rfl, ?_⟩
      simp [delete_sale, deleteTry, hb, hs, hv, hu, hd, hcm, if_neg hmem, selectVenta,
        release, createReleased, deleteReleased, autocommit, publish, getConnection, beginTransaction, increment, deleteVenta, commit,
        incrementRow]

/-! ## The ledger invariant -/

theorem soldQty_append (vs : List Venta) (r : Venta) (j : ℚ) :
    soldQty (vs ++ [r]) j = soldQty vs j + if r.id_producto = j then r.cantidad_vendida else 0 := by
  unfold soldQty
  by_cases h : r.id_producto = j <;> simp [List.filter_append, List.filter_cons, h]

theorem filter_id_ne_of_not_mem (vs : List Venta) (k : ℕ) (h : k ∉ vs.map Venta.id) :
    vs.filter (fun v => v.id ≠ k) = vs := by
  rw [List.filter_eq_self]
  intro a ha
  have : a.id ≠ k := fun e => h (e ▸ List.mem_map_of_mem Venta.id ha)
  simpa using this

theorem soldQty_filter (vs : List Venta) (k : ℕ) (v : Venta) (j : ℚ)
    (hnd : (vs.map Venta.id).Nodup) (hv : vs.find? (fun v => v.id = k) = some v) :
    soldQty (vs.filter (fun v => v.id ≠ k)) j =
      soldQty vs j - if v.id_producto = j then v.cantidad_vendida else 0 := by
  induction vs with
  | nil => simp at hv
  | cons a rest ih =>
    rw [List.map_cons, List.nodup_cons] at hnd
    by_cases hak : a.id = k
    · have hva : a = v := by simpa [List.find?_cons, hak] using hv
      subst hva
      have hrest : rest.filter (fun v => v.id ≠ k) = rest :=
        filter_id_ne_of_not_mem rest k (hak ▸ hnd.1)
      rw [List.filter_cons]
      simp only [hak, ne_eq, not_true_eq_false, decide_False, Bool.false_eq_true, if_false]
      rw [hrest]
      unfold soldQty
      by_cases h : a.id_producto = j <;> simp [List.filter_cons, h]
    · have hv' : rest.find? (fun v => v.id = k) = some v := by
        simpa [List.find?_cons, hak] using hv
      have := ih hnd.2 hv'
      rw [List.filter_cons]
      simp only [hak, ne_eq, not_false_eq_true, decide_True, if_true]
      unfold soldQty at this ⊢
      by_cases h : a.id_producto = j
      · simp only [List.filter_cons, h, decide_True, if_true, List.map_cons, List.sum_cons]
        rw [this]; ring
      · simp only [List.filter_cons, h, decide_False, Bool.false_eq_true, if_false]
        exact this

/-- The row of `items` that carries a given id is unique when ids are distinct. -/
theorem item_eq_of_id_eq (items : List Item) (hnd : (items.map Item.id_producto).Nodup)
    (a b : Item) (ha : a ∈ items) (hb : b ∈ items) (h : a.id_producto = b.id_producto) :
    a = b :=
  List.inj_on_of_nodup_map hnd ha hb h

theorem ledgerInv_create (items : List Item) (hnd : (items.map Item.id_producto).Nodup)
    (ft : Faults) (db : DB) (body : VentaBody) (h : LedgerInv items db) :
    LedgerInv items (create_sale ft db body).2 := by
  obtain ⟨hinv, hids, hlt⟩ := h
  rcases create_sale_cases ft db body with ⟨⟨h1, h2, h3⟩, _⟩ | ⟨q, i, t, _, hq0, _, _, hc, he⟩
  · refine ⟨?_, ?_, ?_⟩
    · rw [h1, h2]; exact hinv
    · rw [h2]; exact hids
    · rw [h2]; intro v hv; exact lt_of_lt_of_le (hlt v hv) h3
  · rw [he]
    refine ⟨?_, ?_, ?_⟩
    · show db.inventario.map (decrementRow q i) = _
      unfold ledgerStock at hinv ⊢
      rw [hinv, List.map_map]
      apply List.map_congr_left
      intro it hit
      rw [List.countP_pos_iff] at hc
      obtain ⟨w, hw, hwc⟩ := hc
      rw [hinv, List.mem_map] at hw
      obtain ⟨w0, hw0, rfl⟩ := hw
      simp only [ge_iff_le, decide_eq_true_eq] at hwc
      simp only [Function.comp, decrementRow, soldQty_append, ventaRow]
      by_cases hid : it.id_producto = i
      · have : w0 = it := item_eq_of_id_eq items hnd w0 it hw0 hit (hwc.1.trans hid.symm)
        subst this
        have hge := hwc.2
        simp only [hid, ge_iff_le, true_and, if_true] at hge ⊢
        rw [if_pos hge]
        congr 1
        ring
      · have hid' : ¬ i = it.id_producto := fun e => hid e.symm
        simp [hid, hid']
    · show ((db.ventas ++ [_]).map Venta.id).Nodup
      rw [List.map_append, List.nodup_append]
      refine ⟨hids, by simp, ?_⟩
      intro a ha hb
      simp only [List.map_cons, List.map_nil, List.mem_singleton, ventaRow] at hb
      rw [List.mem_map] at ha
      obtain ⟨v, hv, rfl⟩ := ha
      exact absurd hb (Nat.ne_of_lt (hlt v hv))
    · intro v hv
      show v.id < db.autoInc + 1
      rcases List.mem_append.mp hv with hv | hv
      · exact Nat.lt_succ_of_lt (hlt v hv)
      · simp only [List.mem_singleton] at hv
        subst hv
        simp [ventaRow]

theorem ledgerInv_delete (items : List Item)
    (ft : Faults) (db : DB) (id : ℕ) (h : LedgerInv items db) :
    LedgerInv items (delete_sale ft db id).2 := by
  rcases delete_sale_cases ft db id with ⟨h1, _⟩ | ⟨v, hv, he⟩
  · rw [h1]; exact h
  · obtain ⟨hinv, hids, hlt⟩ := h
    rw [he]
    refine ⟨?_, ?_, ?_⟩
    · show db.inventario.map (incrementRow v.cantidad_vendida v.id_producto) = _
      unfold ledgerStock at hinv ⊢
      rw [hinv, List.map_map]
      apply List.map_congr_left
      intro it _
      simp only [Function.comp, incrementRow]
      rw [soldQty_filter db.ventas id v it.id_producto hids hv]
      by_cases hid : it.id_producto = v.id_producto
      · have hid' : v.id_producto = it.id_producto := hid.symm
        simp only [hid, if_true]
        congr 1
        ring
      · have hid' : ¬ v.id_producto = it.id_producto := fun e => hid e.symm
        simp [hid, hid']
    · exact (hids.sublist ((List.filter_sublist _).map Venta.id))
    · intro a ha
      exact hlt a (List.mem_of_mem_filter ha)

theorem ledgerInv_run (items : List Item) (hnd : (items.map Item.id_producto).Nodup)
    (ops : List Op) (db : DB) (h : LedgerInv items db) : LedgerInv items (run db ops) := by
  induction ops generalizing db with
  | nil => exact h
  | cons op rest ih =>
    apply ih
    cases op with
    | create ft body => exact ledgerInv_create items hnd ft db body h
    | delete ft id => exact ledgerInv_delete items ft db id h

theorem ledgerInv_initial (items : List Item) (n : ℕ) :
    LedgerInv items { inventario := items, ventas := [], autoInc := n } := by
  refine ⟨?_, by simp, by simp⟩
  simp [ledgerStock, soldQty]

/-! ## Validated requests -/

theorem isNaN_fin (q : ℚ) : (JsNum.fin q).isNaN = false := rfl

theorem falsy_fin (q : ℚ) : (JsNum.fin q).falsy = decide (q = 0) := rfl

theorem leZero_fin (q : ℚ) : (JsNum.fin q).leZero = decide (q ≤ 0) := rfl

/-- A request that passes the validation of `POST /api/ventas` with a finite id
and quantity enters the `try` block. -/
theorem create_sale_passes (ft : Faults) (db : DB) (body : VentaBody) (i q : ℚ)
    (hf : body.fecha.falsy = false) (hid : Number body.id_producto = JsNum.fin i)
    (hi0 : i ≠ 0) (hq : parseNumAny body.cantidad_vendida = JsNum.fin q) (hq0 : 0 < q)
    (ht : (parseNumAny body.total_venta).isNaN = false) :
    create_sale ft db body =
      ((createReleased ft (getConnection db) body.fecha.text (JsNum.fin i) (JsNum.fin q)
          (parseNumAny body.total_venta) (orNull body.observaciones)).1,
       (createReleased ft (getConnection db) body.fecha.text (JsNum.fin i) (JsNum.fin q)
          (parseNumAny body.total_venta) (orNull body.observaciones)).2.committed) := by
  simp [create_sale, hf, hid, hq, ht, isNaN_fin, falsy_fin, leZero_fin, hi0, hq0]

/-- A request that passes the validation of `POST /api/ventas` with finite values. -/
theorem create_sale_valid (ft : Faults) (db : DB) (body : VentaBody) (i q t : ℚ)
    (hf : body.fecha.falsy = false) (hid : Number body.id_producto = JsNum.fin i)
    (hi0 : i ≠ 0) (hq : parseNumAny body.cantidad_vendida = JsNum.fin q) (hq0 : 0 < q)
    (ht : parseNumAny body.total_venta = JsNum.fin t) :
    create_sale ft db body =
      ((createReleased ft (getConnection db) body.fecha.text (JsNum.fin i) (JsNum.fin q)
          (JsNum.fin t) (orNull body.observaciones)).1,
       (createReleased ft (getConnection db) body.fecha.text (JsNum.fin i) (JsNum.fin q)
          (JsNum.fin t) (orNull body.observaciones)).2.committed) := by
  rw [create_sale_passes ft db body i q hf hid hi0 hq hq0 (by rw [ht]; rfl), ht]

theorem create_sale_conflict (ft : Faults) (db : DB) (body : VentaBody) (i q t : ℚ)
    (hf : body.fecha.falsy = false) (hid : Number body.id_producto = JsNum.fin i)
    (hi0 : i ≠ 0) (hq : parseNumAny body.cantidad_vendida = JsNum.fin q) (hq0 : 0 < q)
    (ht : parseNumAny body.total_venta = JsNum.fin t)
    (hb : ft.beginTransaction = false) (hu : ft.update = false) (hr : ft.rollback = false)
    (hstock : ∀ it ∈ db.inventario, it.id_producto = i → it.stock_inicial < q) :
    create_sale ft db body = (Resp.conflict i, db) := by
  rw [create_sale_valid ft db body i q t hf hid hi0 hq hq0 ht]
  simp [createTry, hb, hu, hr, if_pos hstock, rollback, release, createReleased, deleteReleased, autocommit, publish, getConnection,
    beginTransaction, conditionalDecrement]

theorem find?_map_decrement (items : List Item) (hnd : (items.map Item.id_producto).Nodup)
    (it : Item) (hit : it ∈ items) (q : ℚ) (hge : q ≤ it.stock_inicial) :
    (items.map (decrementRow q it.id_producto)).find? (fun x => x.id_producto = it.id_producto) =
      some { it with stock_inicial := it.stock_inicial - q } := by
  induction items with
  | nil => simp at hit
  | cons a rest ih =>
    rw [List.map_cons, List.nodup_cons] at hnd
    by_cases ha : a = it
    · subst ha
      simp [List.find?_cons, decrementRow, hge]
    · have hit' : it ∈ rest := by
        rcases List.mem_cons.mp hit with h | h
        · exact absurd h.symm ha
        · exact h
      have hne : a.id_producto ≠ it.id_producto := fun e =>
        hnd.1 (e ▸ List.mem_map_of_mem Item.id_producto hit')
      have hd : decrementRow q it.id_producto a = a := by simp [decrementRow, hne]
      rw [List.map_cons, hd, List.find?_cons]
      simp only [hne, decide_False]
      exact ih hnd.2 hit'

theorem map_decrement_eq (items : List Item) (hnd : (items.map Item.id_producto).Nodup)
    (it : Item) (hit : it ∈ items) (q : ℚ) (hge : q ≤ it.stock_inicial) :
    items.map (decrementRow q it.id_producto) =
      items.map (fun x => if x = it then { it with stock_inicial := it.stock_inicial - q } else x) := by
  apply List.map_congr_left
  intro x hx
  by_cases hxi : x = it
  · subst hxi
    simp [decrementRow, hge]
  · have hne : x.id_producto ≠ it.id_producto := fun e =>
      hxi (item_eq_of_id_eq items hnd x it hx hit e)
    simp [decrementRow, hne, hxi]

theorem create_sale_success (ft : Faults) (db : DB) (body : VentaBody) (q t : ℚ) (it : Item)
    (hf : body.fecha.falsy = false)
    (hid : Number body.id_producto = JsNum.fin it.id_producto) (hi0 : it.id_producto ≠ 0)
    (hq : parseNumAny body.cantidad_vendida = JsNum.fin q) (hq0 : 0 < q)
    (ht : parseNumAny body.total_venta = JsNum.fin t)
    (hb : ft.beginTransaction = false) (hu : ft.update = false) (hs : ft.select = false)
    (hins : ft.insert = false) (hcm : ft.commit = false)
    (hnd : (db.inventario.map Item.id_producto).Nodup)
    (hit : it ∈ db.inventario) (hge : q ≤ it.stock_inicial) :
    create_sale ft db body =
      (Resp.created db.autoInc (it.stock_inicial - q),
       { inventario := db.inventario.map (fun x =>
           if x = it then { it with stock_inicial := it.stock_inicial - q } else x)
         ventas := db.ventas ++ [ventaRow db.autoInc body.fecha.text it.id_producto
           it.nombre_producto q t (orNull body.observaciones)]
         autoInc := db.autoInc + 1 }) := by
  rw [create_sale_valid ft db body it.id_producto q t hf hid hi0 hq hq0 ht]
  have hc : ¬ ∀ a ∈ db.inventario, a.id_producto = it.id_producto → a.stock_inicial < q :=
    fun h => absurd (h it hit rfl) (not_lt.mpr hge)
  have hfind := find?_map_decrement db.inventario hnd it hit q hge
  have hmap := map_decrement_eq db.inventario hnd it hit q hge
  simpa [createTry, hb, hu, hs, hins, hcm, if_neg hc, release, createReleased, deleteReleased, autocommit, publish, getConnection,
    beginTransaction, conditionalDecrement, insertVenta, commit, ventaRow, selectProducto,
    hfind] using hmap

/-- A statement run outside a transaction is committed at once: a later
`rollback` does not undo it. -/
theorem statement_outside_transaction :
    (conditionalDecrement (getConnection sampleDB) 3 1).1.committed.inventario =
      [{ sampleItem with stock_inicial := 7 }] ∧
    (rollback (conditionalDecrement (getConnection sampleDB) 3 1).1).inventario =
      [{ sampleItem with stock_inicial := 7 }] := by
  constructor <;>
  · simp [conditionalDecrement, autocommit, publish, getConnection, rollback, sampleDB,
      sampleItem, decrementRow]
    norm_num

/-- A conditional decrement that affects a row changes the table. -/
theorem map_decrementRow_ne (l : List Item) (q i : ℚ) (hq0 : 0 < q)
    (h : 0 < l.countP (fun it => it.id_producto = i ∧ it.stock_inicial ≥ q)) :
    l.map (decrementRow q i) ≠ l := by
  rw [List.countP_pos_iff] at h
  obtain ⟨a, ha, hp⟩ := h
  simp only [ge_iff_le, decide_eq_true_eq] at hp
  intro hmap
  have hall : ∀ x ∈ l, decrementRow q i x = x := by
    intro x hx
    have := List.map_eq_map_iff.mp (hmap.trans (List.map_id l).symm) x hx
    simpa using this
  have hx := hall a ha
  have hs : (decrementRow q i a).stock_inicial = a.stock_inicial - q := by
    simp [decrementRow, hp]
  rw [hx] at hs
  linarith

/-- A validated call whose decrement affects a row and whose `SELECT` or `INSERT`
then throws: the state at the throw, the connection handed back, and what the
other connections read. -/
theorem create_sale_rolled_back (ft : Faults) (db : DB) (body : VentaBody) (i q : ℚ)
    (hf : body.fecha.falsy = false) (hid : Number body.id_producto = JsNum.fin i)
    (hi0 : i ≠ 0) (hq : parseNumAny body.cantidad_vendida = JsNum.fin q) (hq0 : 0 < q)
    (ht : (parseNumAny body.total_venta).isNaN = false)
    (hb : ft.beginTransaction = false) (hu : ft.update = false)
    (hdec : 0 < (conditionalDecrement (beginTransaction (getConnection db)) q i).2)
    (hfail : ft.select = true ∨ ft.insert = true) :
    createTry ft (getConnection db) body.fecha.text (JsNum.fin i) (JsNum.fin q)
        (parseNumAny body.total_venta) (orNull body.observaciones) =
      (none,
       { committed := db
         inventario := db.inventario.map (decrementRow q i)
         ventas := db.ventas
         inTransaction := true }) ∧
    (ft.rollbackInCatch = false →
      createReleased ft (getConnection db) body.fecha.text (JsNum.fin i) (JsNum.fin q)
          (parseNumAny body.total_venta) (orNull body.observaciones) =
        (Resp.serverError, getConnection db)) ∧
    create_sale ft db body = (Resp.serverError, db) := by
  have hc : ¬ ∀ a ∈ db.inventario, a.id_producto = i → a.stock_inicial < q := by
    intro h
    simp only [conditionalDecrement, beginTransaction, getConnection] at hdec
    rw [List.countP_pos_iff] at hdec
    obtain ⟨a, ha, hp⟩ := hdec
    simp only [ge_iff_le, decide_eq_true_eq] at hp
    exact absurd (h a ha hp.1) (not_lt.mpr hp.2)
  have htry : createTry ft (getConnection db) body.fecha.text (JsNum.fin i) (JsNum.fin q)
        (parseNumAny body.total_venta) (orNull body.observaciones) =
      (none,
       { committed := db
         inventario := db.inventario.map (decrementRow q i)
         ventas := db.ventas
         inTransaction := true }) := by
    by_cases hs : ft.select
    · simp [createTry, hb, hu, hs, if_neg hc, autocommit, publish, getConnection,
        beginTransaction, conditionalDecrement]
    · have hins : ft.insert = true := by
        rcases hfail with h | h
        · exact absurd h hs
        · exact h
      cases htot : parseNumAny body.total_venta <;>
        simp [createTry, hb, hu, hs, hins, if_neg hc, autocommit, publish, getConnection,
          beginTransaction, conditionalDecrement]
  refine ⟨htry, ?_, ?_⟩
  · intro hrc
    unfold createReleased
    rw [htry]
    simp [catchBlock, hrc, rollback, release, getConnection]
  · rw [create_sale_passes ft db body i q hf hid hi0 hq hq0 ht]
    unfold createReleased
    rw [htry]
    by_cases hrc : ft.rollbackInCatch <;> simp [catchBlock, hrc, rollback, release]

/-! ## Reversals -/

theorem delete_sale_found (ft : Faults) (db : DB) (k : ℕ) (v : Venta)
    (hb : ft.beginTransaction = false) (hs : ft.select = false) (hu : ft.update = false)
    (hd : ft.delete = false) (hcm : ft.commit = false)
    (hfind : db.ventas.find? (fun w => w.id = k) = some v) :
    delete_sale ft db k =
      (Resp.deleted k,
       { inventario := db.inventario.map (incrementRow v.cantidad_vendida v.id_producto)
         ventas := db.ventas.filter (fun w => w.id ≠ k)
         autoInc := db.autoInc }) := by
  have hmem : ¬ ∀ a ∈ db.ventas, ¬ a.id = k := by
    intro h
    exact h v (List.mem_of_find?_eq_some hfind) (by simpa using List.find?_some hfind)
  simp [delete_sale, deleteTry, hb, hs, hfind, hu, hd, hcm, if_neg hmem, selectVenta,
    release, createReleased, deleteReleased, autocommit, publish, getConnection, beginTransaction, increment, deleteVenta, commit]

theorem delete_sale_success (ft : Faults) (db : DB) (v : Venta)
    (hb : ft.beginTransaction = false) (hs : ft.select = false) (hu : ft.update = false)
    (hd : ft.delete = false) (hcm : ft.commit = false)
    (hids : (db.ventas.map Venta.id).Nodup) (hv : v ∈ db.ventas) :
    delete_sale ft db v.id =
      (Resp.deleted v.id,
       { inventario := db.inventario.map (incrementRow v.cantidad_vendida v.id_producto)
         ventas := db.ventas.filter (fun w => w ≠ v)
         autoInc := db.autoInc }) := by
  have hfind : db.ventas.find? (fun w => w.id = v.id) = some v := by
    cases h : db.ventas.find? (fun w => w.id = v.id) with
    | none =>
      have := List.find?_eq_none.mp h v hv
      simp at this
    | some w =>
      have hw := List.mem_of_find?_eq_some h
      have hwid : w.id = v.id := by simpa using List.find?_some h
      rw [List.inj_on_of_nodup_map hids hw hv hwid]
  have hfilter : db.ventas.filter (fun w => w.id ≠ v.id) = db.ventas.filter (fun w => w ≠ v) := by
    apply List.filter_congr
    intro w hw
    by_cases e : w = v
    · simp [e]
    · have : w.id ≠ v.id := fun h => e (List.inj_on_of_nodup_map hids hw hv h)
      simp [e, this]
  rw [delete_sale_found ft db v.id v hb hs hu hd hcm hfind, hfilter]

theorem increment_decrement (items : List Item) (hnd : (items.map Item.id_producto).Nodup)
    (q i : ℚ)
    (hc : 0 < items.countP (fun it => it.id_producto = i ∧ it.stock_inicial ≥ q)) :
    (items.map (decrementRow q i)).map (incrementRow q i) = items := by
  rw [List.countP_pos_iff] at hc
  obtain ⟨w, hw, hwc⟩ := hc
  simp only [ge_iff_le, decide_eq_true_eq] at hwc
  rw [List.map_map]
  conv_rhs => rw [← List.map_id items]
  apply List.map_congr_left
  intro x hx
  simp only [Function.comp, id]
  by_cases hxi : x.id_producto = i
  · have : w = x := item_eq_of_id_eq items hnd w x hw hx (hwc.1.trans hxi.symm)
    subst this
    cases w
    simp_all [decrementRow, incrementRow]
  · simp [decrementRow, incrementRow, hxi]

theorem delete_sale_missing (ft : Faults) (db : DB) (id : ℕ)
    (hb : ft.beginTransaction = false) (hs : ft.select = false) (hr : ft.rollback = false)
    (h : ∀ v ∈ db.ventas, v.id ≠ id) :
    delete_sale ft db id = (Resp.notFound, db) := by
  have hfind : db.ventas.find? (fun w => w.id = id) = none := by
    rw [List.find?_eq_none]
    intro w hw
    simpa using h w hw
  simp [delete_sale, deleteTry, hb, hs, hr, hfind, selectVenta, rollback, release, createReleased, deleteReleased, autocommit, publish,
    getConnection, beginTransaction]

/-! ## Doubles -/

theorem roundHalfEven_intCast (m : ℤ) : roundHalfEven (m : ℚ) = m := by
  simp [roundHalfEven]

theorem twoPow_eq (p : ℤ) : twoPow p = (2 : ℚ) ^ p := by
  unfold twoPow
  split_ifs with h
  · rw [← zpow_natCast, Int.toNat_of_nonneg h]
  · rw [← zpow_natCast, ← zpow_neg, Int.toNat_of_nonneg (by omega), neg_neg]

theorem natCast_log2_bounds (n : ℕ) (hn : n ≠ 0) :
    (2 : ℚ) ^ (Nat.log2 n : ℤ) ≤ n ∧ (n : ℚ) < (2 : ℚ) ^ ((Nat.log2 n : ℤ) + 1) := by
  constructor
  · rw [zpow_natCast]
    exact_mod_cast Nat.log2_self_le hn
  · have h : (n : ℚ) < (2 : ℚ) ^ (Nat.log2 n + 1) := by exact_mod_cast (Nat.lt_log2_self : n < _)
    rw [← zpow_natCast] at h
    exact_mod_cast h

theorem binade_spec (q : ℚ) (hq : 0 < q) :
    (2 : ℚ) ^ binade q ≤ q ∧ q < (2 : ℚ) ^ (binade q + 1) := by
  have hnum : 0 < q.num := Rat.num_pos.mpr hq
  have hn0 : q.num.natAbs ≠ 0 := Int.natAbs_ne_zero.mpr hnum.ne'
  have hd0 : q.den ≠ 0 := q.den_nz
  have hqd : q = (q.num.natAbs : ℚ) / (q.den : ℚ) := by
    have h1 : ((q.num.natAbs : ℤ) : ℚ) = (q.num : ℚ) := by
      rw [Int.natAbs_of_nonneg hnum.le]
    have h2 : ((q.num.natAbs : ℕ) : ℚ) = ((q.num.natAbs : ℤ) : ℚ) := (Int.cast_natCast _).symm
    rw [h2, h1, Rat.num_div_den]
  obtain ⟨ha1, ha2⟩ := natCast_log2_bounds q.num.natAbs hn0
  obtain ⟨hb1, hb2⟩ := natCast_log2_bounds q.den hd0
  have hdpos : (0 : ℚ) < q.den := by exact_mod_cast Nat.pos_of_ne_zero hd0
  have two : (2 : ℚ) ≠ 0 := by norm_num
  unfold binade
  simp only [twoPow_eq]
  split_ifs with h
  · refine ⟨h, ?_⟩
    -- q = n / d < 2 ^ (a + 1) / 2 ^ b
    have : (2 : ℚ) ^ ((Nat.log2 q.num.natAbs : ℤ) - (Nat.log2 q.den : ℤ) + 1) =
        (2 : ℚ) ^ ((Nat.log2 q.num.natAbs : ℤ) + 1) / (2 : ℚ) ^ (Nat.log2 q.den : ℤ) := by
      rw [← zpow_sub₀ two]; congr 1; ring
    rw [this]
    conv_lhs => rw [hqd]
    rw [div_lt_div_iff₀ hdpos (by positivity)]
    calc (q.num.natAbs : ℚ) * (2 : ℚ) ^ (Nat.log2 q.den : ℤ)
        ≤ (q.num.natAbs : ℚ) * q.den := by
          apply mul_le_mul_of_nonneg_left hb1 (by positivity)
      _ < (2 : ℚ) ^ ((Nat.log2 q.num.natAbs : ℤ) + 1) * q.den := by
          apply mul_lt_mul_of_pos_right ha2 hdpos
  · refine ⟨?_, ?_⟩
    · have : (2 : ℚ) ^ ((Nat.log2 q.num.natAbs : ℤ) - (Nat.log2 q.den : ℤ) - 1) =
          (2 : ℚ) ^ (Nat.log2 q.num.natAbs : ℤ) / (2 : ℚ) ^ ((Nat.log2 q.den : ℤ) + 1) := by
        rw [← zpow_sub₀ two]; congr 1; ring
      rw [this]
      conv_rhs => rw [hqd]
      rw [div_le_div_iff₀ (by positivity) hdpos]
      calc (2 : ℚ) ^ (Nat.log2 q.num.natAbs : ℤ) * q.den
          ≤ (q.num.natAbs : ℚ) * q.den := by
            apply mul_le_mul_of_nonneg_right ha1 hdpos.le
        _ ≤ (q.num.natAbs : ℚ) * (2 : ℚ) ^ ((Nat.log2 q.den : ℤ) + 1) := by
            apply mul_le_mul_of_nonneg_left hb2.le (by positivity)
    · have : (Nat.log2 q.num.natAbs : ℤ) - (Nat.log2 q.den : ℤ) - 1 + 1 =
          (Nat.log2 q.num.natAbs : ℤ) - (Nat.log2 q.den : ℤ) := by ring
      rw [this]
      exact not_le.mp h

theorem binade_eq (r : ℚ) (e : ℤ) (h1 : (2 : ℚ) ^ e ≤ r) (h2 : r < (2 : ℚ) ^ (e + 1)) :
    binade r = e := by
  have hr : 0 < r := lt_of_lt_of_le (by positivity) h1
  obtain ⟨h3, h4⟩ := binade_spec r hr
  have h5 : e < binade r + 1 :=
    (zpow_lt_zpow_iff_right₀ (by norm_num : (1 : ℚ) < 2)).mp (lt_of_le_of_lt h1 h4)
  have h6 : binade r < e + 1 :=
    (zpow_lt_zpow_iff_right₀ (by norm_num : (1 : ℚ) < 2)).mp (lt_of_le_of_lt h3 h2)
  omega

/-- A value `m × 2 ^ p` at the precision `p` of its own binade is a double. -/
theorem toDouble_exact (q : ℚ) (e m : ℤ) (h1 : (2 : ℚ) ^ e ≤ |q|)
    (h2 : |q| < (2 : ℚ) ^ (e + 1)) (he : e ≤ 1023)
    (hm : |q| = (m : ℚ) * (2 : ℚ) ^ (max e (-1022) - 52)) :
    toDouble q = JsNum.fin q := by
  have hq : q ≠ 0 := by
    intro h
    rw [h, abs_zero] at h1
    exact absurd h1 (not_le.mpr (by positivity))
  have hdiv : |q| / (2 : ℚ) ^ (max e (-1022) - 52) = (m : ℚ) := by
    rw [hm]; field_simp
  have hlt : |q| < (2 : ℚ) ^ (1024 : ℕ) := by
    refine lt_of_lt_of_le h2 ?_
    have h3 : (2 : ℚ) ^ (e + 1) ≤ (2 : ℚ) ^ ((1024 : ℕ) : ℤ) :=
      zpow_le_zpow_right₀ (by norm_num) (by omega)
    rwa [zpow_natCast] at h3
  unfold toDouble
  simp only [twoPow_eq, if_neg hq, binade_eq _ e h1 h2, hdiv, roundHalfEven_intCast, ← hm,
    if_neg (not_le.mpr hlt)]
  congr 1
  split_ifs with h
  · rw [abs_of_neg h]; ring
  · rw [abs_of_nonneg (not_lt.mp h)]

/-- Every natural number below `2 ^ 53` is a double. -/
theorem toDouble_natCast (n : ℕ) (h : n < 2 ^ 53) : toDouble (n : ℚ) = JsNum.fin n := by
  rcases Nat.eq_zero_or_pos n with h0 | h0
  · subst h0; simp [toDouble]
  · have hle : Nat.log 2 n ≤ 52 := by
      have := Nat.log_lt_of_lt_pow (Nat.pos_iff_ne_zero.mp h0) h
      omega
    have habs : |(n : ℚ)| = n := abs_of_nonneg (by positivity)
    refine toDouble_exact (n : ℚ) (Nat.log 2 n) ((n : ℤ) * 2 ^ (52 - Nat.log 2 n))
      ?_ ?_ (by omega) ?_
    · rw [habs]
      have := Nat.pow_log_le_self 2 (Nat.pos_iff_ne_zero.mp h0)
      exact_mod_cast this
    · rw [habs]
      have := Nat.lt_pow_succ_log_self (b := 2) (by norm_num) n
      exact_mod_cast this
    · rw [habs, max_eq_left (by omega)]
      have : ((Nat.log 2 n : ℤ) - 52) = -((52 - Nat.log 2 n : ℕ) : ℤ) := by omega
      rw [this, zpow_neg, zpow_natCast]
      push_cast
      field_simp

theorem roundHalfEven_floor_le (x : ℚ) : ⌊x⌋ ≤ roundHalfEven x := by
  unfold roundHalfEven
  simp only
  split_ifs <;> omega

/-- Away from the half-way points the nearest integer is the one within `1/2`. -/
theorem roundHalfEven_of_lt (x : ℚ) (m : ℤ) (h1 : (m : ℚ) - 1 / 2 < x)
    (h2 : x < (m : ℚ) + 1 / 2) : roundHalfEven x = m := by
  unfold roundHalfEven
  simp only
  rcases le_or_lt (m : ℚ) x with h | h
  · have hf : ⌊x⌋ = m := Int.floor_eq_iff.mpr ⟨h, by linarith⟩
    rw [hf, if_pos (by linarith)]
  · have hf : ⌊x⌋ = m - 1 := Int.floor_eq_iff.mpr ⟨by push_cast; linarith, by push_cast; linarith⟩
    rw [hf, if_neg (by push_cast; linarith), if_pos (by push_cast; linarith)]
    ring

/-- Half way between two integers the even one is taken. -/
theorem roundHalfEven_tie (f : ℤ) :
    roundHalfEven ((f : ℚ) + 1 / 2) = if f % 2 = 0 then f else f + 1 := by
  have hf : ⌊(f : ℚ) + 1 / 2⌋ = f := Int.floor_eq_iff.mpr ⟨by linarith, by linarith⟩
  unfold roundHalfEven
  simp only [hf]
  rw [if_neg (by norm_num), if_neg (by norm_num)]

/-- The double nearest to `0 < q`, from the binade `e` of `q` and the rounded
multiple `m` of the spacing of that binade. -/
theorem toDouble_eval (q : ℚ) (e m : ℤ) (h1 : (2 : ℚ) ^ e ≤ q) (h2 : q < (2 : ℚ) ^ (e + 1))
    (hm : roundHalfEven (q / (2 : ℚ) ^ (max e (-1022) - 52)) = m) :
    toDouble q =
      if (2 : ℚ) ^ (1024 : ℕ) ≤ (m : ℚ) * (2 : ℚ) ^ (max e (-1022) - 52) then JsNum.posInf
      else JsNum.fin ((m : ℚ) * (2 : ℚ) ^ (max e (-1022) - 52)) := by
  have hq : 0 < q := lt_of_lt_of_le (by positivity) h1
  have habs : |q| = q := abs_of_pos hq
  unfold toDouble
  simp only [twoPow_eq, if_neg hq.ne', habs, binade_eq q e h1 h2, hm, if_neg (not_lt.mpr hq.le)]

theorem toDouble_neg (q : ℚ) : toDouble (-q) = (toDouble q).neg := by
  by_cases hq : q = 0
  · subst hq; simp [toDouble, JsNum.neg]
  · have hn : -q ≠ 0 := neg_ne_zero.mpr hq
    unfold toDouble
    simp only [if_neg hq, if_neg hn, abs_neg]
    rcases lt_or_gt_of_ne hq with h | h
    · have h' : ¬ (-q < 0) := by linarith
      simp only [if_pos h, if_neg h']
      split_ifs <;> simp [JsNum.neg]
    · have h' : -q < 0 := by linarith
      have h'' : ¬ (q < 0) := by linarith
      simp only [if_pos h', if_neg h'']
      split_ifs <;> simp [JsNum.neg]

/-- A value of `2 ^ 1024` or more overflows to `Infinity`. -/
theorem toDouble_huge (q : ℚ) (h : (2 : ℚ) ^ (1024 : ℕ) ≤ q) : toDouble q = JsNum.posInf := by
  have hq : 0 < q := lt_of_lt_of_le (by positivity) h
  have habs : |q| = q := abs_of_pos hq
  have he : (1024 : ℤ) ≤ binade q := by
    have h3 : (2 : ℚ) ^ ((1024 : ℕ) : ℤ) ≤ q := by rwa [zpow_natCast]
    have h4 := (zpow_lt_zpow_iff_right₀ (by norm_num : (1 : ℚ) < 2)).mp
      (lt_of_le_of_lt h3 (binade_spec q hq).2)
    omega
  have hpow : (2 : ℚ) ^ (binade q) ≤ q := (binade_spec q hq).1
  have hp : (0 : ℚ) < (2 : ℚ) ^ (max (binade q) (-1022) - 52) := by positivity
  have hmax : max (binade q) (-1022) = binade q := max_eq_left (by omega)
  have h52 : (((2 : ℤ) ^ (52 : ℕ) : ℤ) : ℚ) = (2 : ℚ) ^ (52 : ℤ) := by norm_num
  have hx : (((2 : ℤ) ^ (52 : ℕ) : ℤ) : ℚ) ≤ q / (2 : ℚ) ^ (max (binade q) (-1022) - 52) := by
    rw [le_div_iff₀ hp, hmax, h52, ← zpow_add₀ (by norm_num : (2 : ℚ) ≠ 0)]
    have : (52 : ℤ) + (binade q - 52) = binade q := by omega
    rw [this]
    exact hpow
  have hr : ((2 : ℤ) ^ (52 : ℕ) : ℤ) ≤ roundHalfEven (q / (2 : ℚ) ^ (max (binade q) (-1022) - 52)) :=
    le_trans (Int.le_floor.mpr hx) (roundHalfEven_floor_le _)
  have hv : (2 : ℚ) ^ (1024 : ℕ) ≤
      (roundHalfEven (q / (2 : ℚ) ^ (max (binade q) (-1022) - 52)) : ℚ) *
        (2 : ℚ) ^ (max (binade q) (-1022) - 52) := by
    have h4 : (((2 : ℤ) ^ (52 : ℕ) : ℤ) : ℚ) * (2 : ℚ) ^ (max (binade q) (-1022) - 52) ≤
        (roundHalfEven (q / (2 : ℚ) ^ (max (binade q) (-1022) - 52)) : ℚ) *
          (2 : ℚ) ^ (max (binade q) (-1022) - 52) :=
      mul_le_mul_of_nonneg_right (by exact_mod_cast hr) hp.le
    refine le_trans ?_ h4
    rw [hmax, h52, ← zpow_natCast, ← zpow_add₀ (by norm_num : (2 : ℚ) ≠ 0)]
    exact zpow_le_zpow_right₀ (by norm_num) (by omega)
  unfold toDouble
  simp only [twoPow_eq, if_neg hq.ne', habs, if_pos hv, if_neg (not_lt.mpr hq.le)]

/-- A positive value below `2 ^ (-1075)`, half the least double, underflows to zero. -/
theorem toDouble_tiny (q : ℚ) (h0 : 0 < q) (h : q < (2 : ℚ) ^ (-1075 : ℤ)) :
    toDouble q = JsNum.fin 0 := by
  have habs : |q| = q := abs_of_pos h0
  have he : binade q < -1075 :=
    (zpow_lt_zpow_iff_right₀ (by norm_num : (1 : ℚ) < 2)).mp
      (lt_of_le_of_lt (binade_spec q h0).1 h)
  have hmax : max (binade q) (-1022) - 52 = -1074 := by
    rw [max_eq_right (by omega)]; norm_num
  have hx : q / (2 : ℚ) ^ (-1074 : ℤ) < 1 / 2 := by
    rw [div_lt_iff₀ (by positivity)]
    have : (1 / 2 : ℚ) * (2 : ℚ) ^ (-1074 : ℤ) = (2 : ℚ) ^ (-1075 : ℤ) := by
      rw [show (-1074 : ℤ) = -1075 + 1 by norm_num, zpow_add₀ (by norm_num : (2 : ℚ) ≠ 0),
        zpow_one]
      ring
    rw [this]; exact h
  have hr : roundHalfEven (q / (2 : ℚ) ^ (-1074 : ℤ)) = 0 :=
    roundHalfEven_of_lt _ 0 (by
      have : 0 < q / (2 : ℚ) ^ (-1074 : ℤ) := by positivity
      push_cast; linarith) (by push_cast; linarith)
  unfold toDouble
  simp only [twoPow_eq, if_neg h0.ne', habs, hmax, hr]
  simp

theorem log10_eq (r : ℚ) (e : ℤ) (h1 : (10 : ℚ) ^ e ≤ r) (h2 : r < (10 : ℚ) ^ (e + 1)) :
    Int.log 10 r = e := by
  have hr : 0 < r := lt_of_lt_of_le (by positivity) h1
  apply le_antisymm
  · have := (Int.lt_zpow_iff_log_lt (b := 10) (by norm_num) hr).mp h2
    omega
  · exact (Int.zpow_le_iff_le_log (b := 10) (by norm_num) hr).mp h1

theorem toDouble_three_halves : toDouble (3 / 2) = JsNum.fin (3 / 2) := by
  apply toDouble_exact (3 / 2) 0 (3 * 2 ^ 51) <;> norm_num [abs_of_pos]

theorem toDouble_one : toDouble 1 = JsNum.fin 1 := by
  simpa using toDouble_natCast 1 (by norm_num)

theorem toDouble_two : toDouble 2 = JsNum.fin 2 := by
  simpa using toDouble_natCast 2 (by norm_num)

theorem digitsAt_three_halves_one : digitsAt (3 / 2) 1 1 = none := by
  have hr : roundHalfEven (3 / 2) = 2 := by
    have h := roundHalfEven_tie 1
    norm_num at h
    exact h
  have hf : ⌊(3 / 2 : ℚ)⌋ = 1 := Int.floor_eq_iff.mpr ⟨by norm_num, by norm_num⟩
  unfold digitsAt
  norm_num [hr, hf, toDouble_one, toDouble_two]

theorem digitsAt_three_halves_two : digitsAt (3 / 2) 1 2 = some (15, 1) := by
  have hr : roundHalfEven (15 : ℚ) = 15 := by
    simpa using roundHalfEven_intCast 15
  unfold digitsAt
  norm_num [hr, toDouble_three_halves, onDigits]

theorem numberToString_three_halves :
    numberToString (JsNum.fin (3 / 2)) = ['1', '.', '5'] := by
  have hlog : Int.log 10 (3 / 2 : ℚ) = 0 := log10_eq _ 0 (by norm_num) (by norm_num)
  have habs : |(3 / 2 : ℚ)| = 3 / 2 := abs_of_pos (by norm_num)
  have hs : shortestDigits (3 / 2) = (15, 1) := by
    unfold shortestDigits
    rw [hlog]
    simp [shortestFrom, digitsAt_three_halves_one, digitsAt_three_halves_two]
  unfold numberToString
  simp only [toDouble_three_halves]
  rw [if_neg (by norm_num)]
  unfold doubleToString
  simp only [habs, hs]
  rw [if_neg (by norm_num)]
  decide

/-! ## The parser -/

theorem digit_bounds (c : Char) (h : c.isDigit = true) : 48 ≤ c.toNat ∧ c.toNat ≤ 57 := by
  simp only [Char.isDigit, Bool.and_eq_true, decide_eq_true_eq] at h
  exact ⟨h.1, h.2⟩

theorem char_ne_of_toNat_ne (c d : Char) (h : c.toNat ≠ d.toNat) : c ≠ d :=
  fun e => h (e ▸ rfl)

theorem digit_not_space (c : Char) (h : c.isDigit = true) : isWhiteSpace c = false := by
  have hb := digit_bounds c h
  simp only [isWhiteSpace, Bool.or_eq_false_iff, Bool.and_eq_false_imp, decide_eq_false_iff_not,
    decide_eq_true_eq]
  omega

theorem digit_ne (c d : Char) (h : c.isDigit = true) (hd : d.toNat < 48 ∨ 57 < d.toNat) :
    c ≠ d := by
  have hb := digit_bounds c h
  apply char_ne_of_toNat_ne
  omega

theorem dot_not_digit : Char.isDigit '.' = false := by decide

theorem dot_not_space : isWhiteSpace '.' = false := by decide

theorem comma_not_space : isWhiteSpace ',' = false := by decide

theorem trim_eq_self (l : List Char) (h : ∀ c ∈ l, isWhiteSpace c = false) : trim l = l := by
  have key : ∀ m : List Char, (∀ c ∈ m, isWhiteSpace c = false) →
      m.dropWhile isWhiteSpace = m := by
    intro m hm
    cases m with
    | nil => rfl
    | cons a r =>
      exact List.dropWhile_cons_of_neg (by simp [hm a (List.mem_cons_self a r)])
  unfold trim
  rw [key l h, key l.reverse (fun c hc => h c (List.mem_reverse.mp hc)), List.reverse_reverse]

theorem mem_dropWhile_of_not (p : Char → Bool) (l : List Char) (c : Char) (hc : c ∈ l)
    (hp : p c = false) : c ∈ l.dropWhile p := by
  induction l with
  | nil => simp at hc
  | cons a r ih =>
    by_cases ha : p a = true
    · rw [List.dropWhile_cons_of_pos ha]
      rcases List.mem_cons.mp hc with e | e
      · rw [e, ha] at hp; cases hp
      · exact ih e
    · rw [List.dropWhile_cons_of_neg ha]; exact hc

theorem mem_trim_of_not_space (l : List Char) (c : Char) (hc : c ∈ l)
    (hp : isWhiteSpace c = false) : c ∈ trim l := by
  unfold trim
  rw [List.mem_reverse]
  apply mem_dropWhile_of_not _ _ _ _ hp
  rw [List.mem_reverse]
  exact mem_dropWhile_of_not _ _ _ hc hp

theorem trim_subset (l : List Char) : ∀ c ∈ trim l, c ∈ l := by
  intro c hc
  unfold trim at hc
  rw [List.mem_reverse] at hc
  have h1 := (List.dropWhile_suffix isWhiteSpace).subset hc
  rw [List.mem_reverse] at h1
  exact (List.dropWhile_suffix isWhiteSpace).subset h1

theorem trim_blank (l : List Char) (h : ∀ c ∈ l, isWhiteSpace c = true) : trim l = [] := by
  unfold trim
  rw [List.dropWhile_eq_nil_iff.mpr h]
  rfl

theorem mem_replaceFirstComma (l : List Char) :
    ∀ c ∈ replaceFirstComma l, c ∈ l ∨ c = '.' := by
  induction l with
  | nil => intro c hc; simp [replaceFirstComma] at hc
  | cons a r ih =>
    intro c hc
    unfold replaceFirstComma at hc
    split_ifs at hc with ha
    · rcases List.mem_cons.mp hc with e | e
      · exact Or.inr e
      · exact Or.inl (List.mem_cons_of_mem a e)
    · rcases List.mem_cons.mp hc with e | e
      · exact Or.inl (e ▸ List.mem_cons_self a r)
      · rcases ih c e with h | h
        · exact Or.inl (List.mem_cons_of_mem a h)
        · exact Or.inr h

theorem replaceFirstComma_not_blank (l : List Char)
    (h : ∃ c ∈ l, isWhiteSpace c = false) :
    ∃ c ∈ replaceFirstComma l, isWhiteSpace c = false := by
  induction l with
  | nil => obtain ⟨c, hc, _⟩ := h; simp at hc
  | cons a r ih =>
    unfold replaceFirstComma
    split_ifs with ha
    · exact ⟨'.', List.mem_cons_self _ _, dot_not_space⟩
    · obtain ⟨c, hc, hw⟩ := h
      rcases List.mem_cons.mp hc with e | e
      · exact ⟨a, List.mem_cons_self _ _, e ▸ hw⟩
      · obtain ⟨d, hd, hdw⟩ := ih ⟨c, e, hw⟩
        exact ⟨d, List.mem_cons_of_mem a hd, hdw⟩

theorem replaceFirstComma_digits (d r : List Char) (hd : ∀ c ∈ d, c.isDigit = true) :
    replaceFirstComma (d ++ ',' :: r) = d ++ '.' :: r := by
  induction d with
  | nil => simp [replaceFirstComma]
  | cons a d ih =>
    have ha : a ≠ ',' := digit_ne a ',' (hd a (List.mem_cons_self a d)) (by decide)
    rw [List.cons_append, replaceFirstComma, if_neg ha,
      ih (fun c hc => hd c (List.mem_cons_of_mem a hc)), List.cons_append]

theorem replaceFirstComma_digits_only (d : List Char) (hd : ∀ c ∈ d, c.isDigit = true) :
    replaceFirstComma d = d := by
  induction d with
  | nil => rfl
  | cons a d ih =>
    have ha : a ≠ ',' := digit_ne a ',' (hd a (List.mem_cons_self a d)) (by decide)
    rw [replaceFirstComma, if_neg ha, ih (fun c hc => hd c (List.mem_cons_of_mem a hc))]

theorem removeDots_digits (d : List Char) (hd : ∀ c ∈ d, c.isDigit = true) :
    removeDots d = d := by
  unfold removeDots
  rw [List.filter_eq_self]
  intro c hc
  have : c ≠ '.' := digit_ne c '.' (hd c hc) (by decide)
  simpa using this

theorem removeDots_all_digits (ip : List Char) (h : ∀ c ∈ ip, c.isDigit = true ∨ c = '.') :
    ∀ c ∈ removeDots ip, c.isDigit = true := by
  intro c hc
  unfold removeDots at hc
  rw [List.mem_filter] at hc
  rcases h c hc.1 with hdg | hdot
  · exact hdg
  · simp [hdot] at hc

theorem removeDots_ne_nil (ip : List Char) (h : ∃ c ∈ ip, c.isDigit = true) :
    removeDots ip ≠ [] := by
  obtain ⟨c, hc, hd⟩ := h
  have : c ∈ removeDots ip := by
    unfold removeDots
    rw [List.mem_filter]
    exact ⟨hc, by simpa using digit_ne c '.' hd (by decide)⟩
  exact List.ne_nil_of_mem this

theorem span_digits_nil (d : List Char) (hd : ∀ c ∈ d, c.isDigit = true) :
    d.takeWhile Char.isDigit = d ∧ d.dropWhile Char.isDigit = [] :=
  ⟨List.takeWhile_eq_self_iff.mpr hd, List.dropWhile_eq_nil_iff.mpr hd⟩

theorem span_digits_cons (d r : List Char) (x : Char) (hd : ∀ c ∈ d, c.isDigit = true)
    (hx : x.isDigit = false) :
    (d ++ x :: r).takeWhile Char.isDigit = d ∧ (d ++ x :: r).dropWhile Char.isDigit = x :: r := by
  have hx' : ¬ x.isDigit = true := by simp [hx]
  rw [List.takeWhile_append_of_pos hd, List.dropWhile_append_of_pos hd,
    List.takeWhile_cons_of_neg hx', List.dropWhile_cons_of_neg hx', List.append_nil]
  exact ⟨rfl, rfl⟩

/-- On a literal that starts with a digit and whose second character, if any,
is a digit or a dot, `Number` reads an unsigned decimal literal. -/
theorem toNumber_digit_head (c : Char) (r : List Char) (hc : c.isDigit = true)
    (hr : ∀ x ∈ r.head?, x.isDigit = true ∨ x = '.')
    (hw : ∀ x ∈ c :: r, isWhiteSpace x = false) :
    toNumber (c :: r) = strUnsignedDecimal (c :: r) := by
  have hplus : c ≠ '+' := digit_ne c '+' hc (by decide)
  have hminus : c ≠ '-' := digit_ne c '-' hc (by decide)
  unfold toNumber
  rw [trim_eq_self _ hw]
  cases r with
  | nil => simp [strDecimal, hplus, hminus]
  | cons x ds =>
    have hx : x.isDigit = true ∨ x = '.' := hr x (by simp)
    have hne : ∀ y : Char, (y.toNat < 46 ∨ 57 < y.toNat) → x ≠ y := by
      intro y hy
      rcases hx with h | h
      · exact digit_ne x y h (by omega)
      · subst h
        apply char_ne_of_toNat_ne
        have : ('.' : Char).toNat = 46 := by decide
        omega
    have h1 := hne 'x' (by decide)
    have h2 := hne 'X' (by decide)
    have h3 := hne 'o' (by decide)
    have h4 := hne 'O' (by decide)
    have h5 := hne 'b' (by decide)
    have h6 := hne 'B' (by decide)
    simp [h1, h2, h3, h4, h5, h6, strDecimal, hplus, hminus]

theorem not_infinity_of_digit (c : Char) (r : List Char) (hc : c.isDigit = true) :
    c :: r ≠ "Infinity".toList := by
  intro h
  have : c = 'I' := by
    have := congrArg List.head? h
    simpa using this
  exact digit_ne c 'I' hc (by decide) this

/-- The value `Number` gives to `d.f`, for runs of digits `d` (non-empty) and `f`. -/
theorem toNumber_fraction (d fp : List Char) (hd : ∀ c ∈ d, c.isDigit = true)
    (hne : d ≠ []) (hfp : ∀ c ∈ fp, c.isDigit = true) :
    toNumber (d ++ '.' :: fp) =
      toDouble ((digitsValue d : ℚ) + (digitsValue fp : ℚ) / 10 ^ fp.length) := by
  cases d with
  | nil => exact absurd rfl hne
  | cons c d' =>
    have hc := hd c (List.mem_cons_self c d')
    have hw : ∀ x ∈ (c :: d') ++ '.' :: fp, isWhiteSpace x = false := by
      intro x hx
      rcases List.mem_append.mp hx with h | h
      · exact digit_not_space x (hd x h)
      · rcases List.mem_cons.mp h with h | h
        · rw [h]; exact dot_not_space
        · exact digit_not_space x (hfp x h)
    have hr : ∀ x ∈ (d' ++ '.' :: fp).head?, x.isDigit = true ∨ x = '.' := by
      intro x hx
      cases d' with
      | nil => simp at hx; exact Or.inr hx.symm
      | cons a d'' =>
        simp at hx
        exact Or.inl (hx ▸ hd a (by simp))
    rw [List.cons_append] at hw ⊢
    rw [toNumber_digit_head c _ hc hr hw]
    unfold strUnsignedDecimal
    rw [if_neg (not_infinity_of_digit c _ hc)]
    rw [← List.cons_append]
    obtain ⟨h1, h2⟩ := span_digits_cons (c :: d') fp '.' hd dot_not_digit
    obtain ⟨h3, h4⟩ := span_digits_nil fp hfp
    simp only [h1, h2, h3, h4, if_true]
    simp [exponentPart]

/-- The value `Number` gives to a non-empty run of digits. -/
theorem toNumber_digits (d : List Char) (hd : ∀ c ∈ d, c.isDigit = true) (hne : d ≠ []) :
    toNumber d = toDouble (digitsValue d) := by
  cases d with
  | nil => exact absurd rfl hne
  | cons c d' =>
    have hc := hd c (List.mem_cons_self c d')
    have hw : ∀ x ∈ c :: d', isWhiteSpace x = false := fun x hx => digit_not_space x (hd x hx)
    have hr : ∀ x ∈ d'.head?, x.isDigit = true ∨ x = '.' := by
      intro x hx
      cases d' with
      | nil => simp at hx
      | cons a d'' =>
        simp at hx
        exact Or.inl (hx ▸ hd a (by simp))
    rw [toNumber_digit_head c _ hc hr hw]
    unfold strUnsignedDecimal
    rw [if_neg (not_infinity_of_digit c _ hc)]
    obtain ⟨h1, h2⟩ := span_digits_nil (c :: d') hd
    simp only [h1, h2]
    simp

/-- The locale format: digits with dots in the integer part, then a comma and
fraction digits. -/
theorem parseNumAny_locale_fraction (ip fp : List Char)
    (hip : ∀ c ∈ ip, c.isDigit = true ∨ c = '.') (hdig : ∃ c ∈ ip, c.isDigit = true)
    (hfp : ∀ c ∈ fp, c.isDigit = true) :
    parseNumAny (.str (String.mk (ip ++ ',' :: fp))) =
      toDouble ((digitsValue (removeDots ip) : ℚ) + (digitsValue fp : ℚ) / 10 ^ fp.length) := by
  have hw : ∀ x ∈ ip ++ ',' :: fp, isWhiteSpace x = false := by
    intro x hx
    rcases List.mem_append.mp hx with h | h
    · rcases hip x h with h | h
      · exact digit_not_space x h
      · rw [h]; exact dot_not_space
    · rcases List.mem_cons.mp h with h | h
      · rw [h]; exact comma_not_space
      · exact digit_not_space x (hfp x h)
  have hrd : removeDots (ip ++ ',' :: fp) = removeDots ip ++ ',' :: fp := by
    have := removeDots_digits fp hfp
    unfold removeDots at this ⊢
    rw [List.filter_append, List.filter_cons, this]
    simp
  show (if trim (ip ++ ',' :: fp) = [] then JsNum.nan
    else toNumber (replaceFirstComma (removeDots (trim (ip ++ ',' :: fp))))) = _
  rw [trim_eq_self _ hw, if_neg (by simp), hrd,
    replaceFirstComma_digits _ _ (removeDots_all_digits ip hip),
    toNumber_fraction _ _ (removeDots_all_digits ip hip) (removeDots_ne_nil ip hdig) hfp]

/-- The locale format without a fraction: digits with dots. -/
theorem parseNumAny_locale_integer (ip : List Char)
    (hip : ∀ c ∈ ip, c.isDigit = true ∨ c = '.') (hdig : ∃ c ∈ ip, c.isDigit = true) :
    parseNumAny (.str (String.mk ip)) = toDouble (digitsValue (removeDots ip)) := by
  have hw : ∀ x ∈ ip, isWhiteSpace x = false := by
    intro x hx
    rcases hip x hx with h | h
    · exact digit_not_space x h
    · rw [h]; exact dot_not_space
  have hne : ip ≠ [] := by
    obtain ⟨c, hc, _⟩ := hdig
    exact List.ne_nil_of_mem hc
  show (if trim ip = [] then JsNum.nan
    else toNumber (replaceFirstComma (removeDots (trim ip)))) = _
  rw [trim_eq_self _ hw, if_neg hne,
    replaceFirstComma_digits_only _ (removeDots_all_digits ip hip),
    toNumber_digits _ (removeDots_all_digits ip hip) (removeDots_ne_nil ip hdig)]

/-- A run of digits whose value is below `2 ^ 53` reads as that value. -/
theorem toNumber_digits_small (d : List Char) (hd : ∀ c ∈ d, c.isDigit = true) (hne : d ≠ [])
    (hlt : digitsValue d < 2 ^ 53) : toNumber d = JsNum.fin (digitsValue d) := by
  rw [toNumber_digits d hd hne, toDouble_natCast _ hlt]

/-- Digits with dots whose value is below `2 ^ 53` parse to that value. -/
theorem parseNumAny_locale_small (ip : List Char)
    (hip : ∀ c ∈ ip, c.isDigit = true ∨ c = '.') (hdig : ∃ c ∈ ip, c.isDigit = true)
    (hlt : digitsValue (removeDots ip) < 2 ^ 53) :
    parseNumAny (.str (String.mk ip)) = JsNum.fin (digitsValue (removeDots ip)) := by
  rw [parseNumAny_locale_integer ip hip hdig, toDouble_natCast _ hlt]

theorem parseNumAny_blank (s : String) (h : ∀ c ∈ s.toList, isWhiteSpace c = true) :
    parseNumAny (.str s) = JsNum.nan := by
  show (if trim s.toList = [] then JsNum.nan
    else toNumber (replaceFirstComma (removeDots (trim s.toList)))) = _
  rw [trim_blank _ h, if_pos rfl]

theorem strUnsignedDecimal_no_digit (v : List Char) (h : ∀ c ∈ v, c.isDigit = false)
    (hI : 'I' ∉ v) : strUnsignedDecimal v = JsNum.nan := by
  have hinf : v ≠ "Infinity".toList := by
    intro e
    apply hI
    rw [e]
    decide
  have htake : ∀ m : List Char, (∀ c ∈ m, c.isDigit = false) →
      m.takeWhile Char.isDigit = [] ∧ m.dropWhile Char.isDigit = m := by
    intro m hm
    cases m with
    | nil => exact ⟨rfl, rfl⟩
    | cons a r =>
      have ha : ¬ a.isDigit = true := by simp [hm a (List.mem_cons_self a r)]
      exact ⟨List.takeWhile_cons_of_neg ha, List.dropWhile_cons_of_neg ha⟩
  unfold strUnsignedDecimal
  rw [if_neg hinf]
  obtain ⟨h1, h2⟩ := htake v h
  simp only [h1, h2]
  cases v with
  | nil => simp
  | cons c r =>
    obtain ⟨h3, _⟩ := htake r (fun x hx => h x (List.mem_cons_of_mem c hx))
    simp [h3]

theorem toNumber_no_digit (u : List Char) (h : ∀ c ∈ u, c.isDigit = false) (hI : 'I' ∉ u)
    (hne : ∃ c ∈ u, isWhiteSpace c = false) : toNumber u = JsNum.nan := by
  have ht : ∀ c ∈ trim u, c.isDigit = false := fun c hc => h c (trim_subset u c hc)
  have htI : 'I' ∉ trim u := fun hc => hI (trim_subset u _ hc)
  have htne : trim u ≠ [] := by
    obtain ⟨c, hc, hw⟩ := hne
    exact List.ne_nil_of_mem (mem_trim_of_not_space u c hc hw)
  have hdec : ∀ w : List Char, (∀ c ∈ w, c.isDigit = false) → 'I' ∉ w →
      strDecimal w = JsNum.nan := by
    intro w hw hwI
    cases w with
    | nil => rfl
    | cons c r =>
      have hr := strUnsignedDecimal_no_digit r (fun x hx => hw x (List.mem_cons_of_mem c hx))
        (fun hx => hwI (List.mem_cons_of_mem c hx))
      have hcr := strUnsignedDecimal_no_digit (c :: r) hw hwI
      simp only [strDecimal]
      split_ifs
      · exact hr
      · rw [hr]; rfl
      · exact hcr
  unfold toNumber
  generalize trim u = w at ht htI htne
  match w, ht, htI, htne with
  | [], _, _, htne => exact absurd rfl htne
  | [c], ht, htI, _ => exact hdec [c] ht htI
  | c :: x :: ds, ht, htI, _ =>
    have hc0 : c ≠ '0' := by
      intro e
      have := ht c (by simp)
      rw [e] at this
      exact absurd this (by decide)
    simp only [hc0, false_and, if_false]
    exact hdec _ ht htI

/-- A string with no digit and no letter `I` that holds a character other than
dots and blanks is not a number for `parseNumAny`. -/
theorem parseNumAny_no_digit (s : String) (h : ∀ c ∈ s.toList, c.isDigit = false)
    (hI : 'I' ∉ s.toList) (hc : ∃ c ∈ s.toList, c ≠ '.' ∧ isWhiteSpace c = false) :
    parseNumAny (.str s) = JsNum.nan := by
  obtain ⟨c, hcs, hcd, hcw⟩ := hc
  have hct : c ∈ trim s.toList := mem_trim_of_not_space _ c hcs hcw
  have hcr : c ∈ removeDots (trim s.toList) := by
    unfold removeDots
    rw [List.mem_filter]
    exact ⟨hct, by simpa using hcd⟩
  have hsub : ∀ x ∈ replaceFirstComma (removeDots (trim s.toList)), x ∈ s.toList ∨ x = '.' := by
    intro x hx
    rcases mem_replaceFirstComma _ x hx with h1 | h1
    · unfold removeDots at h1
      exact Or.inl (trim_subset _ x (List.mem_of_mem_filter h1))
    · exact Or.inr h1
  show (if trim s.toList = [] then JsNum.nan
    else toNumber (replaceFirstComma (removeDots (trim s.toList)))) = _
  rw [if_neg (List.ne_nil_of_mem hct)]
  apply toNumber_no_digit
  · intro x hx
    rcases hsub x hx with h1 | h1
    · exact h x h1
    · rw [h1]; exact dot_not_digit
  · intro hx
    rcases hsub _ hx with h1 | h1
    · exact hI h1
    · exact absurd h1 (by decide)
  · exact replaceFirstComma_not_blank _ ⟨c, hcr, hcw⟩

/-! ## Evaluation on the sample catalog -/

theorem number_one : Number (.str "1") = JsNum.fin 1 := by
  have h := toNumber_digits_small ['1'] (by decide) (by decide) (by decide)
  have hv : digitsValue ['1'] = 1 := by decide
  rw [hv] at h
  simpa [Number] using h

theorem parse_three : parseNumAny (.str "3") = JsNum.fin 3 := by
  have h := parseNumAny_locale_small ['3'] (by decide) (by decide) (by decide)
  have hv : digitsValue (removeDots ['3']) = 3 := by decide
  rw [hv] at h
  simpa using h

theorem parse_eight : parseNumAny (.str "8") = JsNum.fin 8 := by
  have h := parseNumAny_locale_small ['8'] (by decide) (by decide) (by decide)
  have hv : digitsValue (removeDots ['8']) = 8 := by decide
  rw [hv] at h
  simpa using h

theorem parse_150 : parseNumAny (.str "150") = JsNum.fin 150 := by
  have h := parseNumAny_locale_small ['1', '5', '0'] (by decide) (by decide) (by decide)
  have hv : digitsValue (removeDots ['1', '5', '0']) = 150 := by decide
  rw [hv] at h
  simpa using h

theorem toDouble_small (n : ℕ) (h : n < 2 ^ 53) (q : ℚ) (hq : q = n) :
    toDouble q = JsNum.fin q := by
  rw [hq]; exact toDouble_natCast n h

theorem numberToString_150 : numberToString (JsNum.fin 150) = ['1', '5', '0'] := by
  have h150 : toDouble 150 = JsNum.fin 150 := toDouble_small 150 (by norm_num) _ (by norm_num)
  have h100 : toDouble 100 = JsNum.fin 100 := toDouble_small 100 (by norm_num) _ (by norm_num)
  have h200 : toDouble 200 = JsNum.fin 200 := toDouble_small 200 (by norm_num) _ (by norm_num)
  have hlog : Int.log 10 (150 : ℚ) = 2 := log10_eq _ 2 (by norm_num) (by norm_num)
  have habs : |(150 : ℚ)| = 150 := abs_of_pos (by norm_num)
  have hr : roundHalfEven (3 / 2) = 2 := by
    have h := roundHalfEven_tie 1
    norm_num at h
    exact h
  have hf : ⌊(3 / 2 : ℚ)⌋ = 1 := Int.floor_eq_iff.mpr ⟨by norm_num, by norm_num⟩
  have hr15 : roundHalfEven (15 : ℚ) = 15 := by
    simpa using roundHalfEven_intCast 15
  have h1 : digitsAt 150 3 1 = none := by
    unfold digitsAt
    norm_num [hr, hf, h100, h200]
  have h2 : digitsAt 150 3 2 = some (15, 3) := by
    unfold digitsAt
    norm_num [hr15, h150, onDigits]
  have hs : shortestDigits 150 = (15, 3) := by
    unfold shortestDigits
    rw [hlog]
    simp [shortestFrom, h1, h2]
  unfold numberToString
  simp only [h150]
  rw [if_neg (by norm_num)]
  unfold doubleToString
  simp only [habs, hs]
  rw [if_neg (by norm_num)]
  decide

theorem parseNumAny_num (x : JsNum) :
    parseNumAny (.num x) = parseNumAny (.str (String.mk (numberToString x))) := by
  simp [parseNumAny, JsVal.text]

theorem parse_number_150 : parseNumAny (.num (JsNum.fin 150)) = JsNum.fin 150 := by
  rw [parseNumAny_num, numberToString_150]
  exact parse_150

theorem numberToString_three : numberToString (JsNum.fin 3) = ['3'] := by
  have h3 : toDouble 3 = JsNum.fin 3 := toDouble_small 3 (by norm_num) _ (by norm_num)
  have hlog : Int.log 10 (3 : ℚ) = 0 := log10_eq _ 0 (by norm_num) (by norm_num)
  have habs : |(3 : ℚ)| = 3 := abs_of_pos (by norm_num)
  have hr : roundHalfEven (3 : ℚ) = 3 := by
    simpa using roundHalfEven_intCast 3
  have h1 : digitsAt 3 1 1 = some (3, 1) := by
    unfold digitsAt
    norm_num [hr, h3, onDigits]
  have hs : shortestDigits 3 = (3, 1) := by
    unfold shortestDigits
    rw [hlog]
    simp [shortestFrom, h1]
  unfold numberToString
  simp only [h3]
  rw [if_neg (by norm_num)]
  unfold doubleToString
  simp only [habs, hs]
  rw [if_neg (by norm_num)]
  decide

theorem parse_number_three : parseNumAny (.num (JsNum.fin 3)) = JsNum.fin 3 := by
  rw [parseNumAny_num, numberToString_three]
  exact parse_three

theorem sample_sale :
    create_sale noFaults sampleDB (sampleBody "3") = (Resp.created 1 7, sampleSold) := by
  have h := create_sale_success noFaults sampleDB (sampleBody "3") 3 150 sampleItem rfl
    number_one (by norm_num [sampleItem]) parse_three (by norm_num) parse_150 rfl rfl rfl rfl rfl
    (by simp [sampleDB]) (by simp [sampleDB]) (by norm_num [sampleItem])
  rw [h]
  simp [sampleDB, sampleSold, sampleVenta, sampleItem, sampleBody, orNull, JsVal.falsy,
    JsVal.text, ventaRow]
  norm_num

theorem numeric_sale :
    create_sale noFaults sampleDB numericBody = (Resp.created 1 7, sampleSold) := by
  have h := create_sale_success noFaults sampleDB numericBody 3 150 sampleItem rfl
    rfl (by norm_num [sampleItem]) parse_number_three (by norm_num) parse_number_150
    rfl rfl rfl rfl rfl (by simp [sampleDB]) (by simp [sampleDB]) (by norm_num [sampleItem])
  rw [h]
  simp [sampleDB, sampleSold, sampleVenta, sampleItem, numericBody, orNull, JsVal.falsy,
    JsVal.text, ventaRow]
  norm_num

/-- Fields that are not strings: the number 0 and `false` are no date, `true`
as id is the id 1, and a boolean as quantity is not a number. -/
theorem json_fields :
    create_sale noFaults sampleDB zeroDateBody = (Resp.badRequest, sampleDB) ∧
    create_sale noFaults sampleDB falseDateBody = (Resp.badRequest, sampleDB) ∧
    create_sale noFaults sampleDB trueIdBody = (Resp.created 1 7, sampleSold) ∧
    parseNumAny (.bool true) = JsNum.nan ∧ parseNumAny (.bool false) = JsNum.nan := by
  have htrue : parseNumAny (.bool true) = JsNum.nan :=
    parseNumAny_no_digit "true" (by decide) (by decide) (by decide)
  have hfalse : parseNumAny (.bool false) = JsNum.nan :=
    parseNumAny_no_digit "false" (by decide) (by decide) (by decide)
  refine ⟨?_, ?_, ?_, htrue, hfalse⟩
  · have hv : zeroDateBody.fecha.falsy = true ∨
        (Number zeroDateBody.id_producto).falsy = true ∨
        (parseNumAny zeroDateBody.cantidad_vendida).isNaN = true ∨
        (parseNumAny zeroDateBody.cantidad_vendida).leZero = true ∨
        (parseNumAny zeroDateBody.total_venta).isNaN = true :=
      Or.inl (by simp [zeroDateBody, JsVal.falsy, JsNum.falsy])
    simp only [create_sale, hv, if_true]
  · have hv : falseDateBody.fecha.falsy = true ∨
        (Number falseDateBody.id_producto).falsy = true ∨
        (parseNumAny falseDateBody.cantidad_vendida).isNaN = true ∨
        (parseNumAny falseDateBody.cantidad_vendida).leZero = true ∨
        (parseNumAny falseDateBody.total_venta).isNaN = true :=
      Or.inl (by simp [falseDateBody, JsVal.falsy])
    simp only [create_sale, hv, if_true]
  · have h := create_sale_success noFaults sampleDB trueIdBody 3 150 sampleItem rfl
      (by simp [Number, trueIdBody, sampleItem]) (by norm_num [sampleItem])
      parse_number_three (by norm_num) parse_number_150
      rfl rfl rfl rfl rfl (by simp [sampleDB]) (by simp [sampleDB]) (by norm_num [sampleItem])
    rw [h]
    simp [sampleDB, sampleSold, sampleVenta, sampleItem, trueIdBody, numericBody, orNull,
      JsVal.falsy, JsVal.text, ventaRow]
    norm_num

theorem sample_conflict :
    create_sale noFaults sampleSold (sampleBody "8") = (Resp.conflict 1, sampleSold) := by
  apply create_sale_conflict noFaults sampleSold (sampleBody "8") 1 8 150 rfl number_one
    (by norm_num) parse_eight (by norm_num) parse_150 rfl rfl rfl
  intro it hit _
  have : it = { sampleItem with stock_inicial := 7 } := by simpa [sampleSold] using hit
  rw [this]
  norm_num

theorem sample_reversal :
    delete_sale noFaults sampleSold 1 = (Resp.deleted 1, { sampleDB with autoInc := 2 }) := by
  have h := delete_sale_success noFaults sampleSold sampleVenta rfl rfl rfl rfl rfl
    (by simp [sampleSold]) (by simp [sampleSold])
  have hid : sampleVenta.id = 1 := rfl
  rw [hid] at h
  rw [h]
  simp [sampleSold, sampleDB, sampleVenta, sampleItem, ventaRow, incrementRow]
  norm_num

/-! ## The claims -/

/-- C1: starting from a catalog with distinct item ids and an empty sale ledger,
after every finite sequence of `create_sale` and `delete_sale` calls, whatever
faults they meet, each item's stock equals its initial stock minus the sum of
the quantities of the sale rows that exist and reference that item. -/
theorem stock_is_initial_minus_live_sales (items : List Item) (n : ℕ) (ops : List Op)
    (hnd : (items.map Item.id_producto).Nodup) :
    (run { inventario := items, ventas := [], autoInc := n } ops).inventario =
      items.map (fun it =>
        { it with
          stock_inicial := it.stock_inicial -
            soldQty (run { inventario := items, ventas := [], autoInc := n } ops).ventas
              it.id_producto }) :=
  (ledgerInv_run items hnd ops _ (ledgerInv_initial items n)).1

theorem stock_is_initial_minus_live_sales_witness :
    ([sampleItem].map Item.id_producto).Nodup ∧
    (run { inventario := [sampleItem], ventas := [], autoInc := 1 }
        [Op.create noFaults (sampleBody "3"), Op.create noFaults (sampleBody "8"),
          Op.delete noFaults 1]).inventario =
      [sampleItem].map (fun it =>
        { it with
          stock_inicial := it.stock_inicial -
            soldQty (run { inventario := [sampleItem], ventas := [], autoInc := 1 }
              [Op.create noFaults (sampleBody "3"), Op.create noFaults (sampleBody "8"),
                Op.delete noFaults 1]).ventas it.id_producto }) :=
  ⟨by simp, stock_is_initial_minus_live_sales [sampleItem] 1 _ (by simp)⟩

/-- C2: `create_sale` never reduces a stock below zero: for every state, request
and faults, a row of `inventario` whose stock the call changed holds a stock
greater than or equal to zero afterwards. -/
theorem create_sale_never_negative (ft : Faults) (db : DB) (body : VentaBody) (k : ℕ)
    (old new : Item) (hold : db.inventario[k]? = some old)
    (hnew : (create_sale ft db body).2.inventario[k]? = some new)
    (hchanged : new.stock_inicial ≠ old.stock_inicial) :
    0 ≤ new.stock_inicial := by
  rcases create_sale_cases ft db body with ⟨⟨h1, _, _⟩, _⟩ | ⟨q, i, t, _, _, _, _, _, he⟩
  · rw [h1, hold] at hnew
    cases hnew
    exact absurd rfl hchanged
  · rw [he] at hnew
    simp only [List.getElem?_map, hold, Option.map_some'] at hnew
    cases hnew
    unfold decrementRow at hchanged ⊢
    split_ifs at hchanged ⊢ with hc
    · simpa using hc.2
    · exact absurd rfl hchanged

theorem create_sale_never_negative_witness :
    sampleDB.inventario[0]? = some sampleItem ∧
    (create_sale noFaults sampleDB (sampleBody "3")).2.inventario[0]? =
      some { sampleItem with stock_inicial := 7 } ∧
    ({ sampleItem with stock_inicial := 7 } : Item).stock_inicial ≠ sampleItem.stock_inicial ∧
    0 ≤ ({ sampleItem with stock_inicial := 7 } : Item).stock_inicial :=
  ⟨rfl, by rw [sample_sale]; rfl, by norm_num [sampleItem],
    create_sale_never_negative noFaults sampleDB (sampleBody "3") 0 sampleItem
      { sampleItem with stock_inicial := 7 } rfl (by rw [sample_sale]; rfl)
      (by norm_num [sampleItem])⟩

/-- C3: for a valid `create_sale` request (non-empty date, finite non-zero id,
finite positive quantity, finite total) whose item id is absent from the
catalog or whose quantity exceeds the stock of the item, and with no fault of
the store, the call fails with `conflict` naming that id and the database is
unchanged: every stock is as before and no sale row is written. -/
theorem create_sale_conflict_leaves_state (ft : Faults) (db : DB) (body : VentaBody)
    (i q t : ℚ)
    (hf : body.fecha.falsy = false) (hid : Number body.id_producto = JsNum.fin i)
    (hi0 : i ≠ 0) (hq : parseNumAny body.cantidad_vendida = JsNum.fin q) (hq0 : 0 < q)
    (ht : parseNumAny body.total_venta = JsNum.fin t)
    (hb : ft.beginTransaction = false) (hu : ft.update = false) (hr : ft.rollback = false)
    (hstock : (∀ it ∈ db.inventario, it.id_producto ≠ i) ∨
      (∀ it ∈ db.inventario, it.id_producto = i → q > it.stock_inicial)) :
    create_sale ft db body = (Resp.conflict i, db) := by
  apply create_sale_conflict ft db body i q t hf hid hi0 hq hq0 ht hb hu hr
  intro it hit hi
  rcases hstock with h | h
  · exact absurd hi (h it hit)
  · exact h it hit hi

theorem create_sale_conflict_leaves_state_witness :
    (sampleBody "8").fecha.falsy = false ∧
    Number (sampleBody "8").id_producto = JsNum.fin 1 ∧ (1 : ℚ) ≠ 0 ∧
    parseNumAny (sampleBody "8").cantidad_vendida = JsNum.fin 8 ∧ (0 : ℚ) < 8 ∧
    parseNumAny (sampleBody "8").total_venta = JsNum.fin 150 ∧
    noFaults.beginTransaction = false ∧ noFaults.update = false ∧ noFaults.rollback = false ∧
    (∀ it ∈ sampleSold.inventario, it.id_producto = 1 → (8 : ℚ) > it.stock_inicial) ∧
    create_sale noFaults sampleSold (sampleBody "8") = (Resp.conflict 1, sampleSold) :=
  have hs : ∀ it ∈ sampleSold.inventario, it.id_producto = 1 → (8 : ℚ) > it.stock_inicial := by
    intro it hit _
    have : it = { sampleItem with stock_inicial := 7 } := by simpa [sampleSold] using hit
    rw [this]
    norm_num
  ⟨rfl, number_one, by norm_num, parse_eight, by norm_num, parse_150, rfl, rfl, rfl, hs,
    create_sale_conflict_leaves_state noFaults sampleSold (sampleBody "8") 1 8 150 rfl
      number_one (by norm_num) parse_eight (by norm_num) parse_150 rfl rfl rfl (Or.inr hs)⟩

theorem falsy_str (d : String) (h : d ≠ "") : (JsVal.str d).falsy = false := by
  have : ¬ d.data = [] := fun e => h (String.ext e)
  simp [JsVal.falsy, this]

/-- C4: for a `create_sale` request with date `fecha` (a string that is not
empty), a finite non-zero id, a finite positive quantity and a finite total
(each as the handler reads it), on an item of a catalog with distinct ids whose
stock is at least the quantity, and with no fault of the store, the call
succeeds, only that item changes and its stock decreases by exactly the
quantity, the returned `stock_restante` is the old stock minus the quantity,
and exactly one sale row is appended: it carries the date `fecha`, the id, the
quantity, the total, the current name of the item, and as notes the text of
`observaciones` when that is a string that is not empty and no notes when it is
missing, `null` or empty; on the sample catalog, stock 10 and quantity 3 give
7, with the numbers sent as strings or as JSON numbers. -/
theorem create_sale_decrements_and_records (ft : Faults) (db : DB) (body : VentaBody)
    (q t : ℚ) (it : Item) (fecha : String) (notas : Option String)
    (hfecha : body.fecha = .str fecha) (hfecha0 : fecha ≠ "")
    (hnotas : ((body.observaciones = .undefined ∨ body.observaciones = .null ∨
          body.observaciones = .str "") ∧ notas = none) ∨
        ∃ n, n ≠ "" ∧ body.observaciones = .str n ∧ notas = some n)
    (hid : Number body.id_producto = JsNum.fin it.id_producto) (hi0 : it.id_producto ≠ 0)
    (hq : parseNumAny body.cantidad_vendida = JsNum.fin q) (hq0 : 0 < q)
    (ht : parseNumAny body.total_venta = JsNum.fin t)
    (hb : ft.beginTransaction = false) (hu : ft.update = false) (hs : ft.select = false)
    (hins : ft.insert = false) (hcm : ft.commit = false)
    (hnd : (db.inventario.map Item.id_producto).Nodup)
    (hit : it ∈ db.inventario) (hge : it.stock_inicial ≥ q) :
    create_sale ft db body =
      (Resp.created db.autoInc (it.stock_inicial - q),
       { inventario := db.inventario.map (fun x =>
           if x = it then { it with stock_inicial := it.stock_inicial - q } else x)
         ventas := db.ventas ++ [{ id := db.autoInc
                                   fecha := fecha
                                   id_producto := it.id_producto
                                   producto := it.nombre_producto
                                   cantidad_vendida := q
                                   total_venta := t
                                   observaciones := notas }]
         autoInc := db.autoInc + 1 }) ∧
    (create_sale noFaults sampleDB (sampleBody "3")).1 = Resp.created 1 7 ∧
    create_sale noFaults sampleDB numericBody =
      (Resp.created 1 7,
       { inventario := [{ sampleItem with stock_inicial := 7 }]
         ventas := [{ id := 1
                      fecha := "2024-01-01"
                      id_producto := 1
                      producto := "Angulo"
                      cantidad_vendida := 3
                      total_venta := 150
                      observaciones := none }]
         autoInc := 2 }) := by
  have hf : body.fecha.falsy = false := by rw [hfecha]; exact falsy_str fecha hfecha0
  have htext : body.fecha.text = fecha := by rw [hfecha]; rfl
  have hobs : orNull body.observaciones = notas := by
    rcases hnotas with ⟨h | h | h, hn⟩ | ⟨n, hn0, h, hn⟩
    · rw [h, hn]; rfl
    · rw [h, hn]; rfl
    · rw [h, hn]; rfl
    · rw [h, hn]
      simp [orNull, falsy_str n hn0, JsVal.text]
  refine ⟨?_, by rw [sample_sale], by rw [numeric_sale]; rfl⟩
  rw [create_sale_success ft db body q t it hf hid hi0 hq hq0 ht hb hu hs hins hcm hnd hit hge,
    htext, hobs]
  rfl

theorem create_sale_decrements_and_records_witness :
    notedBody.fecha = .str "2024-01-01" ∧ "2024-01-01" ≠ "" ∧
    "entrega en obra" ≠ "" ∧ notedBody.observaciones = .str "entrega en obra" ∧
    Number notedBody.id_producto = JsNum.fin sampleItem.id_producto ∧
    sampleItem.id_producto ≠ 0 ∧
    parseNumAny notedBody.cantidad_vendida = JsNum.fin 3 ∧ (0 : ℚ) < 3 ∧
    parseNumAny notedBody.total_venta = JsNum.fin 150 ∧
    (sampleDB.inventario.map Item.id_producto).Nodup ∧
    sampleItem ∈ sampleDB.inventario ∧ sampleItem.stock_inicial ≥ 3 ∧
    create_sale noFaults sampleDB notedBody =
      (Resp.created sampleDB.autoInc (sampleItem.stock_inicial - 3),
       { inventario := sampleDB.inventario.map (fun x =>
           if x = sampleItem then
             { sampleItem with stock_inicial := sampleItem.stock_inicial - 3 } else x)
         ventas := sampleDB.ventas ++ [{ id := sampleDB.autoInc
                                         fecha := "2024-01-01"
                                         id_producto := sampleItem.id_producto
                                         producto := sampleItem.nombre_producto
                                         cantidad_vendida := 3
                                         total_venta := 150
                                         observaciones := some "entrega en obra" }]
         autoInc := sampleDB.autoInc + 1 }) :=
  ⟨rfl, by decide, by decide, rfl, number_one, by norm_num [sampleItem], parse_three,
    by norm_num, parse_150, by simp [sampleDB], by simp [sampleDB], by norm_num [sampleItem],
    (create_sale_decrements_and_records noFaults sampleDB notedBody 3 150 sampleItem
      "2024-01-01" (some "entrega en obra") rfl (by decide)
      (Or.inr ⟨"entrega en obra", by decide, rfl, rfl⟩)
      number_one (by norm_num [sampleItem]) parse_three (by norm_num) parse_150
      rfl rfl rfl rfl rfl (by simp [sampleDB]) (by simp [sampleDB])
      (by norm_num [sampleItem])).1⟩

/-- C5: in a ledger with distinct sale ids and with no fault of the store,
`delete_sale` of an existing sale row of quantity Q succeeds with the sale id,
adds exactly Q to the stock of the item the row references, leaves every other
item alone and removes that row only; so deleting the sale a successful
`create_sale` returned gives back the catalog and the ledger of before the sale
(on the sample catalog 10, then 7, then 10). -/
theorem delete_sale_restores_stock (ft : Faults) (db : DB) (v : Venta)
    (hb : ft.beginTransaction = false) (hs : ft.select = false) (hu : ft.update = false)
    (hd : ft.delete = false) (hcm : ft.commit = false)
    (hids : (db.ventas.map Venta.id).Nodup) (hv : v ∈ db.ventas) :
    delete_sale ft db v.id =
      (Resp.deleted v.id,
       { inventario := db.inventario.map (fun it =>
           if it.id_producto = v.id_producto
           then { it with stock_inicial := it.stock_inicial + v.cantidad_vendida } else it)
         ventas := db.ventas.filter (fun w => w ≠ v)
         autoInc := db.autoInc }) ∧
    (∀ (ft0 : Faults) (db0 : DB) (body : VentaBody) (n : ℕ) (r : ℚ),
      (db0.inventario.map Item.id_producto).Nodup →
      (∀ w ∈ db0.ventas, w.id < db0.autoInc) →
      (create_sale ft0 db0 body).1 = Resp.created n r →
      (delete_sale ft (create_sale ft0 db0 body).2 n).1 = Resp.deleted n ∧
      (delete_sale ft (create_sale ft0 db0 body).2 n).2.inventario = db0.inventario ∧
      (delete_sale ft (create_sale ft0 db0 body).2 n).2.ventas = db0.ventas) ∧
    (create_sale noFaults sampleDB (sampleBody "3")).2.inventario =
      [{ sampleItem with stock_inicial := 7 }] ∧
    (delete_sale noFaults (create_sale noFaults sampleDB (sampleBody "3")).2 1).2.inventario =
      [{ sampleItem with stock_inicial := 10 }] := by
  refine ⟨?_, ?_, by rw [sample_sale]; rfl, by rw [sample_sale, sample_reversal]; rfl⟩
  · rw [delete_sale_success ft db v hb hs hu hd hcm hids hv]
    rfl
  · intro ft0 db0 body n r hnd hlt hres
    rcases create_sale_cases ft0 db0 body with ⟨_, hno⟩ | ⟨q, i, t, _, _, _, _, hc, he⟩
    · exact absurd hres (hno n r)
    · rw [he] at hres ⊢
      have hn : n = db0.autoInc := by
        simp only [Resp.created.injEq] at hres
        exact hres.1.symm
      subst hn
      have hfresh : ∀ w ∈ db0.ventas, w.id ≠ db0.autoInc := fun w hw =>
        Nat.ne_of_lt (hlt w hw)
      set row := ventaRow db0.autoInc body.fecha.text i
        (((selectProducto (conditionalDecrement (beginTransaction (getConnection db0)) q i).1
          i).map Item.nombre_producto).getD "") q t (orNull body.observaciones) with hrow
      have hrid : row.id = db0.autoInc := rfl
      have hfind : (db0.ventas ++ [row]).find? (fun w => w.id = db0.autoInc) = some row := by
        have hnone : db0.ventas.find? (fun w => w.id = db0.autoInc) = none := by
          rw [List.find?_eq_none]
          intro w hw
          simpa using hfresh w hw
        rw [List.find?_append, hnone]
        simp [hrid]
      have hfilter : (db0.ventas ++ [row]).filter (fun w => w.id ≠ db0.autoInc) = db0.ventas := by
        rw [List.filter_append, filter_id_ne_of_not_mem db0.ventas db0.autoInc]
        · simp [hrid]
        · intro hmem
          rw [List.mem_map] at hmem
          obtain ⟨w, hw, hwid⟩ := hmem
          exact hfresh w hw hwid
      have hdel := delete_sale_found ft
        { inventario := db0.inventario.map (decrementRow q i)
          ventas := db0.ventas ++ [row]
          autoInc := db0.autoInc + 1 } db0.autoInc row hb hs hu hd hcm hfind
      rw [hdel]
      refine ⟨rfl, ?_, hfilter⟩
      exact increment_decrement db0.inventario hnd q i hc

theorem delete_sale_restores_stock_witness :
    noFaults.beginTransaction = false ∧ noFaults.select = false ∧ noFaults.update = false ∧
    noFaults.delete = false ∧ noFaults.commit = false ∧
    (sampleSold.ventas.map Venta.id).Nodup ∧ sampleVenta ∈ sampleSold.ventas ∧
    delete_sale noFaults sampleSold sampleVenta.id =
      (Resp.deleted sampleVenta.id,
       { inventario := sampleSold.inventario.map (fun it =>
           if it.id_producto = sampleVenta.id_producto
           then { it with stock_inicial := it.stock_inicial + sampleVenta.cantidad_vendida }
           else it)
         ventas := sampleSold.ventas.filter (fun w => w ≠ sampleVenta)
         autoInc := sampleSold.autoInc }) :=
  ⟨rfl, rfl, rfl, rfl, rfl, by simp [sampleSold], by simp [sampleSold],
    (delete_sale_restores_stock noFaults sampleSold sampleVenta rfl rfl rfl rfl rfl
      (by simp [sampleSold]) (by simp [sampleSold])).1⟩

/-- C6: with no fault of the store, `delete_sale` of an id that no sale row
carries fails with `not_found` and leaves the database unchanged; in particular
after a successful `delete_sale` of an id, a second one of the same id fails
with `not_found` and the stocks are not incremented again. -/
theorem delete_sale_missing_is_not_found (ft : Faults) (db : DB) (id : ℕ)
    (hb : ft.beginTransaction = false) (hs : ft.select = false) (hr : ft.rollback = false) :
    ((∀ v ∈ db.ventas, v.id ≠ id) → delete_sale ft db id = (Resp.notFound, db)) ∧
    (∀ ft1 : Faults, (delete_sale ft1 db id).1 = Resp.deleted id →
      delete_sale ft (delete_sale ft1 db id).2 id =
        (Resp.notFound, (delete_sale ft1 db id).2)) := by
  refine ⟨delete_sale_missing ft db id hb hs hr, ?_⟩
  intro ft1 h1
  apply delete_sale_missing ft _ id hb hs hr
  rcases delete_sale_cases ft1 db id with ⟨_, hno⟩ | ⟨v, _, he⟩
  · exact absurd h1 (hno id)
  · rw [he]
    intro w hw
    have := (List.mem_filter.mp hw).2
    simpa using this

theorem delete_sale_missing_is_not_found_witness :
    noFaults.beginTransaction = false ∧ noFaults.select = false ∧
    noFaults.rollback = false ∧
    (∀ v ∈ sampleDB.ventas, v.id ≠ 1) ∧
    delete_sale noFaults sampleDB 1 = (Resp.notFound, sampleDB) ∧
    (delete_sale noFaults sampleSold 1).1 = Resp.deleted 1 ∧
    delete_sale noFaults (delete_sale noFaults sampleSold 1).2 1 =
      (Resp.notFound, (delete_sale noFaults sampleSold 1).2) :=
  ⟨rfl, rfl, rfl, by simp [sampleDB],
    (delete_sale_missing_is_not_found noFaults sampleDB 1 rfl rfl rfl).1 (by simp [sampleDB]),
    by rw [sample_reversal],
    (delete_sale_missing_is_not_found noFaults sampleSold 1 rfl rfl rfl).2 noFaults
      (by rw [sample_reversal])⟩

theorem number_minus_one : Number (.str "-1") = JsNum.fin (-1) := by
  simp [Number, toNumber, trim, isWhiteSpace, strDecimal, strUnsignedDecimal, digitsValue,
    JsNum.neg, toDouble_one]

/-- C7, as stated, fails: the id `"-1"` does not resolve to a positive integer,
yet the request passes validation, reaches the store and is answered with
`conflict`, not with `invalid_input`. -/
theorem negative_id_passes_validation :
    Number (.str "-1") = JsNum.fin (-1) ∧
    negativeIdBody.fecha.falsy = false ∧
    parseNumAny negativeIdBody.cantidad_vendida = JsNum.fin 3 ∧
    parseNumAny negativeIdBody.total_venta = JsNum.fin 150 ∧
    create_sale noFaults sampleDB negativeIdBody = (Resp.conflict (-1), sampleDB) := by
  refine ⟨number_minus_one, rfl, parse_three, parse_150, ?_⟩
  apply create_sale_conflict noFaults sampleDB negativeIdBody (-1) 3 150 rfl number_minus_one
    (by norm_num) parse_three (by norm_num) parse_150 rfl rfl rfl
  intro it hit hid
  have : it = sampleItem := by simpa [sampleDB] using hit
  rw [this] at hid
  norm_num [sampleItem] at hid

/-- C7, amended: when the date is missing or empty, or `Number(id_producto)` is
`NaN` or zero, or the quantity parses to `NaN`, to a value at most zero or to
minus infinity, or the total parses to `NaN`, then `create_sale` fails with
`invalid_input` whatever the faults of the store, and the database is unchanged. -/
theorem create_sale_rejects_invalid (ft : Faults) (db : DB) (body : VentaBody)
    (h : body.fecha = .undefined ∨ body.fecha = .null ∨ body.fecha = .str "" ∨
      Number body.id_producto = JsNum.nan ∨ Number body.id_producto = JsNum.fin 0 ∨
      parseNumAny body.cantidad_vendida = JsNum.nan ∨
      (∃ q : ℚ, q ≤ 0 ∧ parseNumAny body.cantidad_vendida = JsNum.fin q) ∨
      parseNumAny body.cantidad_vendida = JsNum.negInf ∨
      parseNumAny body.total_venta = JsNum.nan) :
    create_sale ft db body = (Resp.badRequest, db) := by
  have hv : body.fecha.falsy = true ∨ (Number body.id_producto).falsy = true ∨
      (parseNumAny body.cantidad_vendida).isNaN = true ∨
      (parseNumAny body.cantidad_vendida).leZero = true ∨
      (parseNumAny body.total_venta).isNaN = true := by
    rcases h with h | h | h | h | h | h | ⟨q, hq, h⟩ | h | h
    · left; rw [h]; rfl
    · left; rw [h]; rfl
    · left; rw [h]; rfl
    · right; left; rw [h]; rfl
    · right; left; rw [h]; simp [JsNum.falsy]
    · right; right; left; rw [h]; rfl
    · right; right; right; left; rw [h]; simpa [JsNum.leZero] using hq
    · right; right; right; left; rw [h]; rfl
    · right; right; right; right; rw [h]; rfl
  simp only [create_sale, hv, if_true]

theorem create_sale_rejects_invalid_witness :
    (sampleBody "").fecha = .str "2024-01-01" ∧
    parseNumAny (sampleBody "").cantidad_vendida = JsNum.nan ∧
    create_sale noFaults sampleDB (sampleBody "") = (Resp.badRequest, sampleDB) :=
  ⟨rfl, rfl,
    create_sale_rejects_invalid noFaults sampleDB (sampleBody "")
      (Or.inr (Or.inr (Or.inr (Or.inr (Or.inr (Or.inl rfl))))))⟩

/-- C10: for a `create_sale` call that passes validation, whose conditional
decrement affects a row, and whose re-read or ledger insert then throws (the
`rollback` of the `catch` block not throwing in its turn): at the throw the
transaction is open and holds the decremented stock, which differs from the
stock before the call and which no other connection reads; the `catch` block
rolls it back, so that the connection goes back to the pool with no
transaction open and with the rows of before the call; the call answers with
an internal error; and the database is the one of before the call, with no
stock changed and no sale row written. -/
theorem create_sale_failure_rolls_back (ft : Faults) (db : DB) (body : VentaBody) (i q : ℚ)
    (hf : body.fecha.falsy = false) (hid : Number body.id_producto = JsNum.fin i)
    (hi0 : i ≠ 0) (hq : parseNumAny body.cantidad_vendida = JsNum.fin q) (hq0 : 0 < q)
    (ht : (parseNumAny body.total_venta).isNaN = false)
    (hb : ft.beginTransaction = false) (hu : ft.update = false)
    (hdec : 0 < (conditionalDecrement (beginTransaction (getConnection db)) q i).2)
    (hfail : ft.select = true ∨ ft.insert = true)
    (hrc : ft.rollbackInCatch = false) :
    createTry ft (getConnection db) body.fecha.text (JsNum.fin i) (JsNum.fin q)
        (parseNumAny body.total_venta) (orNull body.observaciones) =
      (none,
       { committed := db
         inventario := db.inventario.map (decrementRow q i)
         ventas := db.ventas
         inTransaction := true }) ∧
    db.inventario.map (decrementRow q i) ≠ db.inventario ∧
    createReleased ft (getConnection db) body.fecha.text (JsNum.fin i) (JsNum.fin q)
        (parseNumAny body.total_venta) (orNull body.observaciones) =
      (Resp.serverError,
       { committed := db
         inventario := db.inventario
         ventas := db.ventas
         inTransaction := false }) ∧
    create_sale ft db body = (Resp.serverError, db) := by
  obtain ⟨h1, h2, h3⟩ :=
    create_sale_rolled_back ft db body i q hf hid hi0 hq hq0 ht hb hu hdec hfail
  refine ⟨h1, ?_, h2 hrc, h3⟩
  apply map_decrementRow_ne db.inventario q i hq0
  simpa [conditionalDecrement, beginTransaction, getConnection] using hdec

theorem create_sale_failure_rolls_back_witness :
    (sampleBody "3").fecha.falsy = false ∧
    Number (sampleBody "3").id_producto = JsNum.fin 1 ∧ (1 : ℚ) ≠ 0 ∧
    parseNumAny (sampleBody "3").cantidad_vendida = JsNum.fin 3 ∧ (0 : ℚ) < 3 ∧
    (parseNumAny (sampleBody "3").total_venta).isNaN = false ∧
    insertFails.beginTransaction = false ∧ insertFails.update = false ∧
    0 < (conditionalDecrement (beginTransaction (getConnection sampleDB)) 3 1).2 ∧
    (insertFails.select = true ∨ insertFails.insert = true) ∧
    insertFails.rollbackInCatch = false ∧
    createTry insertFails (getConnection sampleDB) (sampleBody "3").fecha.text (JsNum.fin 1)
        (JsNum.fin 3) (parseNumAny (sampleBody "3").total_venta)
        (orNull (sampleBody "3").observaciones) =
      (none,
       { committed := sampleDB
         inventario := sampleDB.inventario.map (decrementRow 3 1)
         ventas := sampleDB.ventas
         inTransaction := true }) ∧
    createReleased insertFails (getConnection sampleDB) (sampleBody "3").fecha.text
        (JsNum.fin 1) (JsNum.fin 3) (parseNumAny (sampleBody "3").total_venta)
        (orNull (sampleBody "3").observaciones) =
      (Resp.serverError,
       { committed := sampleDB
         inventario := sampleDB.inventario
         ventas := sampleDB.ventas
         inTransaction := false }) ∧
    create_sale insertFails sampleDB (sampleBody "3") = (Resp.serverError, sampleDB) :=
  have ht : (parseNumAny (sampleBody "3").total_venta).isNaN = false := by
    have h : parseNumAny (sampleBody "3").total_venta = JsNum.fin 150 := parse_150
    rw [h]; rfl
  have hdec : 0 < (conditionalDecrement (beginTransaction (getConnection sampleDB)) 3 1).2 := by
    simp [conditionalDecrement, beginTransaction, getConnection, sampleDB, sampleItem]
    norm_num
  have h := create_sale_failure_rolls_back insertFails sampleDB (sampleBody "3") 1 3 rfl
    number_one (by norm_num) parse_three (by norm_num) ht rfl rfl hdec (Or.inr rfl) rfl
  ⟨rfl, number_one, by norm_num, parse_three, by norm_num, ht, rfl, rfl, hdec, Or.inr rfl, rfl,
    h.1, h.2.2.1, h.2.2.2⟩

/-- When the `rollback` of the `catch` block throws as well, the call still
answers with an internal error and nothing is committed, but the connection
goes back to the pool with the transaction open and the decrement pending. -/
theorem rollback_that_throws_keeps_transaction :
    createReleased rollbackFails (getConnection sampleDB) "2024-01-01" (JsNum.fin 1)
        (JsNum.fin 3) (JsNum.fin 150) none =
      (Resp.serverError,
       { committed := sampleDB
         inventario := [{ sampleItem with stock_inicial := 7 }]
         ventas := []
         inTransaction := true }) ∧
    create_sale rollbackFails sampleDB (sampleBody "3") = (Resp.serverError, sampleDB) := by
  constructor
  · simp [createReleased, createTry, catchBlock, release, rollbackFails, insertFails, noFaults,
      beginTransaction, publish, getConnection, conditionalDecrement, autocommit, decrementRow,
      sampleDB, sampleItem]
    norm_num
  · exact (create_sale_rolled_back rollbackFails sampleDB (sampleBody "3") 1 3 rfl number_one
      (by norm_num) parse_three (by norm_num)
      (by
        have h : parseNumAny (sampleBody "3").total_venta = JsNum.fin 150 := parse_150
        rw [h]; rfl)
      rfl rfl
      (by
        simp [conditionalDecrement, beginTransaction, getConnection, sampleDB, sampleItem]
        norm_num)
      (Or.inr rfl)).2.2

theorem replaceFirstComma_no_comma (l : List Char) (h : ',' ∉ l) : replaceFirstComma l = l := by
  induction l with
  | nil => rfl
  | cons a r ih =>
    have ha : a ≠ ',' := fun e => h (e ▸ List.mem_cons_self a r)
    rw [replaceFirstComma, if_neg ha, ih (fun hr => h (List.mem_cons_of_mem a hr))]

/-- A string with no digit and no letter `I` parses to `NaN`, or to zero when only
dots and blanks make it up. -/
theorem parseNumAny_no_digit_cases (s : String) (h : ∀ c ∈ s.toList, c.isDigit = false)
    (hI : 'I' ∉ s.toList) :
    parseNumAny (.str s) = JsNum.nan ∨ parseNumAny (.str s) = JsNum.fin 0 := by
  by_cases hc : ∃ c ∈ s.toList, c ≠ '.' ∧ isWhiteSpace c = false
  · exact Or.inl (parseNumAny_no_digit s h hI hc)
  · have hall : ∀ c ∈ s.toList, c = '.' ∨ isWhiteSpace c = true := by
      intro c hcs
      by_cases hd : c = '.'
      · exact Or.inl hd
      · right
        by_contra hw
        exact hc ⟨c, hcs, hd, by simpa using hw⟩
    have hrem : ∀ c ∈ removeDots (trim s.toList), isWhiteSpace c = true := by
      intro c hcr
      unfold removeDots at hcr
      rw [List.mem_filter] at hcr
      rcases hall c (trim_subset _ c hcr.1) with hd | hw
      · simp [hd] at hcr
      · exact hw
    have hcomma : ',' ∉ removeDots (trim s.toList) := by
      intro hm
      have := hrem ',' hm
      rw [comma_not_space] at this
      cases this
    show (if trim s.toList = [] then JsNum.nan
      else toNumber (replaceFirstComma (removeDots (trim s.toList)))) = JsNum.nan ∨
      (if trim s.toList = [] then JsNum.nan
      else toNumber (replaceFirstComma (removeDots (trim s.toList)))) = JsNum.fin 0
    by_cases ht : trim s.toList = []
    · left; rw [if_pos ht]
    · right
      rw [if_neg ht, replaceFirstComma_no_comma _ hcomma]
      unfold toNumber
      rw [trim_blank _ hrem]

/-- The double nearest to 1234.56. -/
theorem toDouble_locale_example :
    toDouble (123456 / 100) = JsNum.fin (5429652300748554 / 2 ^ 42) := by
  have hm : roundHalfEven ((123456 / 100 : ℚ) / (2 : ℚ) ^ (max (10 : ℤ) (-1022) - 52)) =
      5429652300748554 :=
    roundHalfEven_of_lt _ _ (by norm_num) (by norm_num)
  rw [toDouble_eval _ 10 _ (by norm_num) (by norm_num) hm]
  norm_num

theorem parse_locale_example :
    parseNumAny (.str "1.234,56") = toDouble (123456 / 100) := by
  have h := parseNumAny_locale_fraction ['1', '.', '2', '3', '4'] ['5', '6']
    (by decide) (by decide) (by decide)
  have h1 : digitsValue (removeDots ['1', '.', '2', '3', '4']) = 1234 := by decide
  have h2 : digitsValue ['5', '6'] = 56 := by decide
  rw [h1, h2] at h
  have h3 : parseNumAny (.str "1.234,56") = parseNumAny
      (.str (String.mk (['1', '.', '2', '3', '4'] ++ ',' :: ['5', '6']))) := rfl
  rw [h3, h]
  norm_num

theorem parse_ten : parseNumAny (.str "10") = JsNum.fin 10 := by
  have h := parseNumAny_locale_small ['1', '0'] (by decide) (by decide) (by decide)
  have hv : digitsValue (removeDots ['1', '0']) = 10 := by decide
  rw [hv] at h
  simpa using h

theorem toNumber_dot : toNumber ['.'] = JsNum.nan := by
  simp [toNumber, trim, isWhiteSpace, strDecimal, strUnsignedDecimal]

theorem parse_dot : parseNumAny (.str ".") = JsNum.fin 0 := by
  simp [parseNumAny, JsVal.text, trim, isWhiteSpace, removeDots, replaceFirstComma, toNumber]

theorem parse_letters : parseNumAny (.str "abc") = JsNum.nan :=
  parseNumAny_no_digit "abc" (by decide) (by decide) (by decide)

/-- The literals `"1e400"`, `"1e-400"` and `"9007199254740993"` overflow,
underflow and round as doubles do. -/
theorem number_as_double :
    Number (.str "1e400") = JsNum.posInf ∧ Number (.str "1e-400") = JsNum.fin 0 ∧
    Number (.str "9007199254740993") = JsNum.fin 9007199254740992 := by
  refine ⟨?_, ?_, ?_⟩
  · have h : toDouble (10 ^ 400) = JsNum.posInf := toDouble_huge _ (by norm_num)
    have hv : digitsValue ['4', '0', '0'] = 400 := by decide
    simp [Number, toNumber, trim, isWhiteSpace, strDecimal, strUnsignedDecimal, exponentPart,
      hv, digitsValue, h]
  · have h : toDouble ((10 ^ 400)⁻¹) = JsNum.fin 0 := by
      apply toDouble_tiny
      · positivity
      · rw [zpow_neg]
        apply inv_strictAnti₀ (by positivity)
        norm_num
    have hv : digitsValue ['4', '0', '0'] = 400 := by decide
    simp [Number, toNumber, trim, isWhiteSpace, strDecimal, strUnsignedDecimal, exponentPart,
      hv, digitsValue, h]
  · have hm : roundHalfEven ((9007199254740993 : ℚ) / (2 : ℚ) ^ (max (53 : ℤ) (-1022) - 52)) =
        4503599627370496 := by
      have h := roundHalfEven_tie 4503599627370496
      norm_num at h ⊢
      exact h
    have h : toDouble ((9007199254740993 : ℕ) : ℚ) = JsNum.fin 9007199254740992 := by
      push_cast
      rw [toDouble_eval _ 53 _ (by norm_num) (by norm_num) hm]
      norm_num
    have hd := toNumber_digits "9007199254740993".toList (by decide) (by decide)
    have hv : digitsValue "9007199254740993".toList = 9007199254740993 := by decide
    rw [hv, h] at hd
    exact hd

theorem parse_digits_then_letters : parseNumAny (.str "12abc") = JsNum.nan := by
  simp [parseNumAny, JsVal.text, trim, isWhiteSpace, removeDots, replaceFirstComma, toNumber,
    strDecimal, strUnsignedDecimal, exponentPart]

theorem parse_number_with_unit : parseNumAny (.str "5 kg") = JsNum.nan := by
  simp [parseNumAny, JsVal.text, trim, isWhiteSpace, removeDots, replaceFirstComma, toNumber,
    strDecimal, strUnsignedDecimal, exponentPart]

theorem parse_word : parseNumAny (.str "INVALID") = JsNum.nan := by
  simp [parseNumAny, JsVal.text, trim, isWhiteSpace, removeDots, replaceFirstComma, toNumber,
    strDecimal, strUnsignedDecimal, exponentPart]

/-- C8, the code at the failing input `"."`. The string holds no digit and is
not a number (`Number(".")` is `NaN`), yet `parseNumAny(".")` is zero and not
`NaN`: the blank test `if (!s)` runs before the dots are dropped, and
`Number("")` is zero. So a sale whose total is `"."` passes validation and is
recorded with total 0. A quantity `"."` is still turned down, because zero is
not positive; and the other inputs of the claim read as it says: `"1.234,56"`
gives the double nearest to 1234.56, `"10"` gives 10, and `null`, `undefined`,
`""`, `" "`, `"abc"`, `"12abc"`, `"5 kg"` and `"INVALID"` give `NaN`. -/
theorem parseNumAny_dot_is_zero :
    (∀ c ∈ ".".toList, c.isDigit = false) ∧ Number (.str ".") = JsNum.nan ∧
    parseNumAny (.str ".") = JsNum.fin 0 ∧
    create_sale noFaults sampleDB dotTotalBody =
      (Resp.created 1 7,
       { inventario := [{ sampleItem with stock_inicial := 7 }]
         ventas := [ventaRow 1 "2024-01-01" 1 "Angulo" 3 0 none]
         autoInc := 2 }) ∧
    create_sale noFaults sampleDB (sampleBody ".") = (Resp.badRequest, sampleDB) ∧
    parseNumAny (.str "1.234,56") = JsNum.fin (5429652300748554 / 2 ^ 42) ∧
    parseNumAny (.str "10") = JsNum.fin 10 ∧
    parseNumAny .null = JsNum.nan ∧ parseNumAny .undefined = JsNum.nan ∧
    parseNumAny (.str "") = JsNum.nan ∧ parseNumAny (.str " ") = JsNum.nan ∧
    parseNumAny (.str "abc") = JsNum.nan ∧ parseNumAny (.str "12abc") = JsNum.nan ∧
    parseNumAny (.str "5 kg") = JsNum.nan ∧ parseNumAny (.str "INVALID") = JsNum.nan := by
  refine ⟨by decide, toNumber_dot, parse_dot, ?_, ?_, ?_, parse_ten, rfl, rfl,
    parseNumAny_blank "" (by decide), parseNumAny_blank " " (by decide), parse_letters,
    parse_digits_then_letters, parse_number_with_unit, parse_word⟩
  · have h := create_sale_success noFaults sampleDB dotTotalBody 3 0 sampleItem rfl
      number_one (by norm_num [sampleItem]) parse_three (by norm_num) parse_dot
      rfl rfl rfl rfl rfl (by simp [sampleDB]) (by simp [sampleDB]) (by norm_num [sampleItem])
    rw [h]
    simp [sampleDB, sampleItem, dotTotalBody, sampleBody, orNull, JsVal.falsy, JsVal.text,
      ventaRow]
    norm_num
  · have hq : (parseNumAny (sampleBody ".").cantidad_vendida).leZero = true := by
      have h : parseNumAny (sampleBody ".").cantidad_vendida = JsNum.fin 0 := parse_dot
      rw [h]
      simp [JsNum.leZero]
    have hv : (sampleBody ".").fecha.falsy = true ∨
        (Number (sampleBody ".").id_producto).falsy = true ∨
        (parseNumAny (sampleBody ".").cantidad_vendida).isNaN = true ∨
        (parseNumAny (sampleBody ".").cantidad_vendida).leZero = true ∨
        (parseNumAny (sampleBody ".").total_venta).isNaN = true :=
      Or.inr (Or.inr (Or.inr (Or.inl hq)))
    simp only [create_sale, hv, if_true]
  · rw [parse_locale_example, toDouble_locale_example]

theorem removeDots_single_dot (a b : List Char) (ha : ∀ c ∈ a, c.isDigit = true)
    (hb : ∀ c ∈ b, c.isDigit = true) : removeDots (a ++ '.' :: b) = a ++ b := by
  have h1 := removeDots_digits a ha
  have h2 := removeDots_digits b hb
  unfold removeDots at h1 h2 ⊢
  rw [List.filter_append, List.filter_cons, h1, h2]
  simp

theorem parse_one_dot_five : parseNumAny (.str "1.5") = JsNum.fin 15 := by
  have h := parseNumAny_locale_small ['1', '.', '5'] (by decide) (by decide) (by decide)
  have hv : digitsValue (removeDots ['1', '.', '5']) = 15 := by decide
  rw [hv] at h
  simpa using h

theorem parse_one_comma_five : parseNumAny (.str "1,5") = JsNum.fin (3 / 2) := by
  have h := parseNumAny_locale_fraction ['1'] ['5'] (by decide) (by decide) (by decide)
  have h1 : digitsValue (removeDots ['1']) = 1 := by decide
  have h2 : digitsValue ['5'] = 5 := by decide
  rw [h1, h2] at h
  have h3 : parseNumAny (.str "1,5") = parseNumAny (.str (String.mk (['1'] ++ ',' :: ['5']))) :=
    rfl
  rw [h3, h]
  norm_num
  exact toDouble_three_halves

theorem number_one_dot_five : Number (.str "1.5") = JsNum.fin (3 / 2) := by
  have h := toNumber_fraction ['1'] ['5'] (by decide) (by decide) (by decide)
  have h1 : digitsValue ['1'] = 1 := by decide
  have h2 : digitsValue ['5'] = 5 := by decide
  rw [h1, h2] at h
  have h3 : Number (.str "1.5") = toNumber (['1'] ++ '.' :: ['5']) := rfl
  rw [h3, h]
  norm_num
  exact toDouble_three_halves

theorem parse_number_one_and_a_half : parseNumAny (.num (JsNum.fin (3 / 2))) = JsNum.fin 15 := by
  rw [parseNumAny_num, numberToString_three_halves]
  exact parse_one_dot_five

/-- C9, the code at the failing input. The quantity 1.5, sent as the JSON
number `1.5` or as the string `"1.5"`, is read as 15: `parseNumAny` drops every
dot before `Number` sees the text, whereas `Number`, which the catalog routes
use for the same stock values, reads `"1.5"` as 1.5, the value `"1,5"` parses
to. A sale of 1.5 units from a stock of 20 takes 15 units and leaves 5. -/
theorem dot_is_not_a_fraction_separator :
    parseNumAny (.str "1.5") = JsNum.fin 15 ∧
    parseNumAny (.num (JsNum.fin (3 / 2))) = JsNum.fin 15 ∧
    Number (.str "1.5") = JsNum.fin (3 / 2) ∧
    Number (.num (JsNum.fin (3 / 2))) = JsNum.fin (3 / 2) ∧
    parseNumAny (.str "1,5") = JsNum.fin (3 / 2) ∧
    create_sale noFaults stockedDB fractionBody =
      (Resp.created 1 5,
       { inventario := [{ stockedItem with stock_inicial := 5 }]
         ventas := [ventaRow 1 "2024-01-01" 1 "Angulo" 15 150 none]
         autoInc := 2 }) := by
  refine ⟨parse_one_dot_five, parse_number_one_and_a_half, number_one_dot_five, rfl,
    parse_one_comma_five, ?_⟩
  have h := create_sale_success noFaults stockedDB fractionBody 15 150 stockedItem rfl
    rfl (by norm_num [stockedItem, sampleItem]) parse_number_one_and_a_half (by norm_num)
    parse_number_150 rfl rfl rfl rfl rfl (by simp [stockedDB]) (by simp [stockedDB])
    (by norm_num [stockedItem, sampleItem])
  rw [h]
  simp [stockedDB, stockedItem, sampleItem, fractionBody, orNull, JsVal.falsy, JsVal.text,
    ventaRow]
  norm_num

/-! ## Two calls in flight: the race for the last units -/

theorem restoreRows_none (l : List Item) (us : List (Option Item)) (h : ∀ u ∈ us, u = none) :
    restoreRows l us = l := by
  induction l generalizing us with
  | nil => rfl
  | cons a r ih =>
    cases us with
    | nil => rfl
    | cons u us =>
      have hu : u = none := h u (List.mem_cons_self u us)
      rw [restoreRows, hu, ih us (fun x hx => h x (List.mem_cons_of_mem u hx))]
      rfl

theorem map_decrementRow_of_no_match (l : List Item) (q i : ℚ)
    (h : ∀ x ∈ l, ¬ (x.id_producto = i ∧ x.stock_inicial ≥ q)) :
    l.map (decrementRow q i) = l := by
  conv_rhs => rw [← List.map_id l]
  apply List.map_congr_left
  intro x hx
  simp only [decrementRow, if_neg (h x hx), id]

theorem sold_no_match (db0 : DB) (it : Item) (q : ℚ) (h : LastUnits db0 it q) :
    ∀ x ∈ db0.inventario.map (decrementRow q it.id_producto),
      ¬ (x.id_producto = it.id_producto ∧ x.stock_inicial ≥ q) := by
  obtain ⟨hnd, hit, _, hge, hlt⟩ := h
  intro x hx
  rw [map_decrement_eq db0.inventario hnd it hit q hge, List.mem_map] at hx
  obtain ⟨y, hy, rfl⟩ := hx
  by_cases hyi : y = it
  · simp only [hyi, if_true]
    intro hc
    exact absurd hlt (not_lt.mpr hc.2)
  · simp only [hyi, if_false]
    intro hc
    exact hyi (item_eq_of_id_eq db0.inventario hnd y it hy hit hc.1)

theorem fresh_match (db0 : DB) (it : Item) (q : ℚ) (h : LastUnits db0 it q) :
    ¬ ∀ a ∈ db0.inventario, a.id_producto = it.id_producto → a.stock_inicial < q :=
  fun hall => absurd (hall it h.2.1 rfl) (not_lt.mpr h.2.2.2.1)

/-- An idle call that finds no lock either begins or takes the units. -/
theorem step_idle_free (body : VentaBody) (it : Item) (q : ℚ) (db0 db : DB) (tx : Tx)
    (ha : Asks body it q) (hs : LastUnits db0 it q) (hinv : db.inventario = db0.inventario)
    (hidle : Idle tx) :
    ((stepTx body none db tx).1 = db ∧ Idle (stepTx body none db tx).2) ∨
    ((stepTx body none db tx).1.inventario =
        db0.inventario.map (decrementRow q it.id_producto) ∧
      (stepTx body none db tx).1.ventas = db.ventas ∧
      Holding it q (stepTx body none db tx).2) := by
  obtain ⟨hid, hq, t, ht⟩ := ha
  obtain ⟨hpc, hlock, hpend⟩ := hidle
  have hm := fresh_match db0 it q hs
  rcases hpc with hpc | hpc
  · left
    simp [stepTx, hpc, Idle, hlock, hpend]
  · right
    simp [stepTx, hpc, hid, hq, hinv, if_neg hm, Holding, hpend]

/-- An idle call waits, or begins, while the other call holds the lock. -/
theorem step_idle_locked (body : VentaBody) (it : Item) (q : ℚ) (db : DB) (tx : Tx)
    (ha : Asks body it q) (hidle : Idle tx) :
    (stepTx body (some it.id_producto) db tx).1 = db ∧
      Idle (stepTx body (some it.id_producto) db tx).2 := by
  obtain ⟨hid, hq, t, ht⟩ := ha
  obtain ⟨hpc, hlock, hpend⟩ := hidle
  rcases hpc with hpc | hpc
  · simp [stepTx, hpc, Idle, hlock, hpend]
  · simp [stepTx, hpc, hid, hq, Idle, hlock, hpend]

/-- The call that holds the lock goes on to its commit, whatever the other does. -/
theorem step_holding (body : VentaBody) (it : Item) (q : ℚ) (db0 db : DB) (tx : Tx)
    (other : Option ℚ)
    (ha : Asks body it q) (hs : LastUnits db0 it q)
    (hinv : db.inventario = db0.inventario.map (decrementRow q it.id_producto))
    (hh : Holding it q tx) :
    (stepTx body other db tx).1.inventario = db.inventario ∧
    (((stepTx body other db tx).1.ventas = db.ventas ∧
        Holding it q (stepTx body other db tx).2) ∨
     (Won it q (stepTx body other db tx).2 ∧
        ∃ row, (stepTx body other db tx).1.ventas = db.ventas ++ [row] ∧
          row.id_producto = it.id_producto ∧ row.cantidad_vendida = q)) := by
  obtain ⟨hid, hq, t, ht⟩ := ha
  obtain ⟨hlock, hpc⟩ := hh
  have hfind := find?_map_decrement db0.inventario hs.1 it hs.2.1 q hs.2.2.2.1
  rcases hpc with ⟨hpc, hpend⟩ | ⟨nombre, hpc, hpend⟩ | ⟨n, row, hpc, hpend, hrow⟩
  · refine ⟨by simp [stepTx, hpc], Or.inl ⟨by simp [stepTx, hpc], ?_⟩⟩
    simp [stepTx, hpc, hinv, hfind, Holding, hlock, hpend]
  · refine ⟨by simp [stepTx, hpc, ht], Or.inl ⟨by simp [stepTx, hpc, ht], ?_⟩⟩
    simp [stepTx, hpc, ht, Holding, hlock, hpend, ventaRow]
  · refine ⟨by simp [stepTx, hpc], Or.inr ⟨?_, row, ?_, hrow⟩⟩
    · exact ⟨n, by simp [stepTx, hpc]⟩
    · simp [stepTx, hpc, hpend]

/-- The call that runs behind the winner finds no unit left and ends with `conflict`. -/
theorem step_lost (body : VentaBody) (it : Item) (q : ℚ) (db0 db : DB) (tx : Tx)
    (ha : Asks body it q) (hs : LastUnits db0 it q)
    (hinv : db.inventario = db0.inventario.map (decrementRow q it.id_producto))
    (hl : Lost it tx) :
    (stepTx body none db tx).1.inventario = db.inventario ∧
    (stepTx body none db tx).1.ventas = db.ventas ∧
    Lost it (stepTx body none db tx).2 := by
  obtain ⟨hid, hq, t, ht⟩ := ha
  have hno := sold_no_match db0 it q hs
  rcases hl with ⟨hpc, hlock, hpend⟩ | ⟨hpc, hlock, hundo⟩ | hend
  · rcases hpc with hpc | hpc
    · refine ⟨by simp [stepTx, hpc], by simp [stepTx, hpc], Or.inl ?_⟩
      simp [stepTx, hpc, Idle, hlock, hpend]
    · have hall : ∀ a ∈ db.inventario, a.id_producto = it.id_producto → a.stock_inicial < q := by
        intro a ha' hai
        rw [hinv] at ha'
        exact lt_of_not_ge (fun hge => hno a ha' ⟨hai, hge⟩)
      have hmap : db.inventario.map (decrementRow q it.id_producto) = db.inventario := by
        rw [hinv]
        exact map_decrementRow_of_no_match _ q it.id_producto hno
      refine ⟨?_, ?_, Or.inr (Or.inl ?_)⟩
      · simp [stepTx, hpc, hid, hq, hmap]
      · simp [stepTx, hpc, hid, hq]
      · simp only [stepTx, hpc, hid, hq]
        refine ⟨?_, ?_, ?_⟩
        · simp [if_pos hall]
        · simp
        · intro u hu
          simp only [reduceCtorEq, if_false, List.mem_map] at hu
          obtain ⟨a, ha', rfl⟩ := hu
          rw [hinv] at ha'
          rw [if_neg (hno a ha')]
  · refine ⟨?_, by simp [stepTx, hpc], Or.inr (Or.inr ?_)⟩
    · simp [stepTx, hpc, restoreRows_none _ _ hundo]
    · simp [stepTx, hpc]
  · rw [hend]
    exact ⟨rfl, rfl, Or.inr (Or.inr rfl)⟩

/-- A call that has ended takes no further step. -/
theorem step_ended (body : VentaBody) (other : Option ℚ) (db : DB) (r : Resp) :
    stepTx body other db (Tx.ended r) = (db, Tx.ended r) := rfl

theorem leads_step_winner (body : VentaBody) (it : Item) (q : ℚ) (db0 db : DB) (w l : Tx)
    (other : Option ℚ) (ha : Asks body it q) (hs : LastUnits db0 it q)
    (h : Leads db0 it q db w l) :
    Leads db0 it q (stepTx body other db w).1 (stepTx body other db w).2 l := by
  obtain ⟨hinv, hcase⟩ := h
  rcases hcase with ⟨hh, hidle, hv⟩ | ⟨⟨n, hw⟩, hl, hrow⟩
  · obtain ⟨h1, h2⟩ := step_holding body it q db0 db w other ha hs hinv hh
    refine ⟨h1.trans hinv, ?_⟩
    rcases h2 with ⟨hv', hh'⟩ | ⟨hw', row, hv', hrow⟩
    · exact Or.inl ⟨hh', hidle, hv'.trans hv⟩
    · exact Or.inr ⟨hw', Or.inl hidle, row, by rw [hv', hv], hrow⟩
  · rw [hw, step_ended]
    exact ⟨hinv, Or.inr ⟨⟨n, rfl⟩, hl, hrow⟩⟩

theorem leads_step_other (body : VentaBody) (it : Item) (q : ℚ) (db0 db : DB) (w l : Tx)
    (ha : Asks body it q) (hs : LastUnits db0 it q)
    (h : Leads db0 it q db w l) :
    Leads db0 it q (stepTx body w.lock db l).1 w (stepTx body w.lock db l).2 := by
  obtain ⟨hinv, hcase⟩ := h
  rcases hcase with ⟨hh, hidle, hv⟩ | ⟨⟨n, hw⟩, hl, hrow⟩
  · rw [hh.1]
    obtain ⟨h1, h2⟩ := step_idle_locked body it q db l ha hidle
    rw [h1]
    exact ⟨hinv, Or.inl ⟨hh, h2, hv⟩⟩
  · have hlock : w.lock = none := by rw [hw]; rfl
    rw [hlock]
    obtain ⟨h1, h2, h3⟩ := step_lost body it q db0 db l ha hs hinv hl
    obtain ⟨row, hrv, hrow⟩ := hrow
    exact ⟨h1.trans hinv, Or.inr ⟨⟨n, hw⟩, h3, row, h2.trans hrv, hrow⟩⟩

theorem raceInv_step (body1 body2 : VentaBody) (it : Item) (q : ℚ) (db0 : DB) (st : Calls)
    (k : Bool) (h1 : Asks body1 it q) (h2 : Asks body2 it q) (hs : LastUnits db0 it q)
    (h : RaceInv db0 it q st) : RaceInv db0 it q (stepCalls body1 body2 st k) := by
  rcases h with ⟨hinv, hv, hf, hsd⟩ | h | h
  · cases k with
    | false =>
      simp only [stepCalls, Bool.false_eq_true, if_false]
      rw [hsd.2.1]
      rcases step_idle_free body1 it q db0 st.db st.first h1 hs hinv hf with
        ⟨e, hi⟩ | ⟨e1, e2, hh⟩
      · exact Or.inl ⟨by rw [e]; exact hinv, by rw [e]; exact hv, hi, hsd⟩
      · exact Or.inr (Or.inl ⟨e1, Or.inl ⟨hh, hsd, e2.trans hv⟩⟩)
    | true =>
      simp only [stepCalls, if_true]
      rw [hf.2.1]
      rcases step_idle_free body2 it q db0 st.db st.second h2 hs hinv hsd with
        ⟨e, hi⟩ | ⟨e1, e2, hh⟩
      · exact Or.inl ⟨by rw [e]; exact hinv, by rw [e]; exact hv, hf, hi⟩
      · exact Or.inr (Or.inr ⟨e1, Or.inl ⟨hh, hf, e2.trans hv⟩⟩)
  · cases k with
    | false =>
      simp only [stepCalls, Bool.false_eq_true, if_false]
      exact Or.inr (Or.inl (leads_step_winner body1 it q db0 st.db st.first st.second _ h1 hs h))
    | true =>
      simp only [stepCalls, if_true]
      exact Or.inr (Or.inl (leads_step_other body2 it q db0 st.db st.first st.second h2 hs h))
  · cases k with
    | false =>
      simp only [stepCalls, Bool.false_eq_true, if_false]
      exact Or.inr (Or.inr (leads_step_other body1 it q db0 st.db st.second st.first h1 hs h))
    | true =>
      simp only [stepCalls, if_true]
      exact Or.inr (Or.inr (leads_step_winner body2 it q db0 st.db st.second st.first _ h2 hs h))

theorem raceInv_run (body1 body2 : VentaBody) (it : Item) (q : ℚ) (db0 : DB)
    (h1 : Asks body1 it q) (h2 : Asks body2 it q) (hs : LastUnits db0 it q)
    (sched : List Bool) (st : Calls) (h : RaceInv db0 it q st) :
    RaceInv db0 it q (runCalls body1 body2 st sched) := by
  induction sched generalizing st with
  | nil => exact h
  | cons k rest ih => exact ih _ (raceInv_step body1 body2 it q db0 st k h1 h2 hs h)

theorem startTx_valid (body : VentaBody) (it : Item) (q : ℚ) (ha : Asks body it q)
    (hf : body.fecha.falsy = false) (hi0 : it.id_producto ≠ 0) (hq0 : 0 < q) :
    startTx body = { pc := .beginTransaction, lock := none, undo := [], pending := [] } := by
  obtain ⟨hid, hq, t, ht⟩ := ha
  simp [startTx, hf, hid, hq, ht, isNaN_fin, falsy_fin, leZero_fin, hi0, hq0]

theorem raceInv_start (body1 body2 : VentaBody) (it : Item) (q : ℚ) (db0 : DB)
    (h1 : Asks body1 it q) (h2 : Asks body2 it q) (hs : LastUnits db0 it q)
    (hf1 : body1.fecha.falsy = false) (hf2 : body2.fecha.falsy = false)
    (hi0 : it.id_producto ≠ 0) :
    RaceInv db0 it q (startCalls db0 body1 body2) := by
  refine Or.inl ⟨rfl, rfl, ?_, ?_⟩
  · show Idle (startTx body1)
    rw [startTx_valid body1 it q h1 hf1 hi0 hs.2.2.1]
    exact ⟨Or.inl rfl, rfl, rfl⟩
  · show Idle (startTx body2)
    rw [startTx_valid body2 it q h2 hf2 hi0 hs.2.2.1]
    exact ⟨Or.inl rfl, rfl, rfl⟩

/-- In a state of the race the rows of the item hold no negative stock. -/
theorem raceInv_nonneg (it : Item) (q : ℚ) (db0 : DB) (st : Calls) (hs : LastUnits db0 it q)
    (h : RaceInv db0 it q st) :
    ∀ x ∈ st.db.inventario, x.id_producto = it.id_producto → 0 ≤ x.stock_inicial := by
  obtain ⟨hnd, hit, hq0, hge, hlt⟩ := hs
  have hsold : ∀ x ∈ db0.inventario.map (decrementRow q it.id_producto),
      x.id_producto = it.id_producto → 0 ≤ x.stock_inicial := by
    intro x hx hxi
    rw [map_decrement_eq db0.inventario hnd it hit q hge, List.mem_map] at hx
    obtain ⟨y, hy, rfl⟩ := hx
    by_cases hyi : y = it
    · simp only [hyi, if_true]
      linarith
    · simp only [hyi, if_false] at hxi
      exact absurd (item_eq_of_id_eq db0.inventario hnd y it hy hit hxi) hyi
  rcases h with ⟨hinv, _⟩ | ⟨hinv, _⟩ | ⟨hinv, _⟩
  · intro x hx hxi
    rw [hinv] at hx
    have := item_eq_of_id_eq db0.inventario hnd x it hx hit hxi
    rw [this]
    linarith
  · rw [hinv]; exact hsold
  · rw [hinv]; exact hsold

/-- When both calls of the race have ended, one holds the success and the other
the conflict, and the item holds what one sale leaves. -/
theorem raceInv_outcome (it : Item) (q : ℚ) (db0 : DB) (st : Calls) (r1 r2 : Resp)
    (hs : LastUnits db0 it q) (h : RaceInv db0 it q st)
    (hr1 : st.first.response = some r1) (hr2 : st.second.response = some r2) :
    (((∃ n, r1 = Resp.created n (it.stock_inicial - q)) ∧ r2 = Resp.conflict it.id_producto) ∨
      (r1 = Resp.conflict it.id_producto ∧ ∃ n, r2 = Resp.created n (it.stock_inicial - q))) ∧
    st.db.inventario = db0.inventario.map (fun x =>
      if x = it then { it with stock_inicial := it.stock_inicial - q } else x) ∧
    ∃ row, st.db.ventas = db0.ventas ++ [row] ∧ row.id_producto = it.id_producto ∧
      row.cantidad_vendida = q := by
  have hidle : ∀ tx : Tx, Idle tx → ∀ r, tx.response ≠ some r := by
    intro tx hi r hr
    rcases hi.1 with e | e <;> simp [Tx.response, e] at hr
  have hhold : ∀ tx : Tx, Holding it q tx → ∀ r, tx.response ≠ some r := by
    intro tx hh r hr
    rcases hh.2 with ⟨e, _⟩ | ⟨_, e, _⟩ | ⟨_, _, e, _⟩ <;> simp [Tx.response, e] at hr
  have key : ∀ (w l : Tx) (rw rl : Resp), Leads db0 it q st.db w l →
      w.response = some rw → l.response = some rl →
      (∃ n, rw = Resp.created n (it.stock_inicial - q)) ∧ rl = Resp.conflict it.id_producto ∧
      st.db.inventario = db0.inventario.map (fun x =>
        if x = it then { it with stock_inicial := it.stock_inicial - q } else x) ∧
      ∃ row, st.db.ventas = db0.ventas ++ [row] ∧ row.id_producto = it.id_producto ∧
        row.cantidad_vendida = q := by
    intro w l rw rl hl hw hlr
    obtain ⟨hinv, hcase⟩ := hl
    rcases hcase with ⟨hh, _, _⟩ | ⟨⟨n, hwon⟩, hlost, hrow⟩
    · exact absurd hw (hhold w hh rw)
    · refine ⟨⟨n, ?_⟩, ?_, ?_, hrow⟩
      · rw [hwon] at hw
        simpa [Tx.response, Tx.ended] using hw.symm
      · rcases hlost with hi | ⟨e, _, _⟩ | e
        · exact absurd hlr (hidle l hi rl)
        · simp [Tx.response, e] at hlr
        · rw [e] at hlr
          simpa [Tx.response, Tx.ended] using hlr.symm
      · rw [hinv, map_decrement_eq db0.inventario hs.1 it hs.2.1 q hs.2.2.2.1]
  rcases h with ⟨_, _, hf, _⟩ | h | h
  · exact absurd hr1 (hidle _ hf r1)
  · obtain ⟨a, b, c, d⟩ := key _ _ r1 r2 h hr1 hr2
    exact ⟨Or.inl ⟨a, b⟩, c, d⟩
  · obtain ⟨a, b, c, d⟩ := key _ _ r2 r1 h hr2 hr1
    exact ⟨Or.inr ⟨b, a⟩, c, d⟩

/-! ## Two calls in flight: every call ends -/

theorem rank_le_five (pc : Pc) : pc.rank ≤ 5 := by
  cases pc <;> simp [Pc.rank]

/-- A statement either leaves everything as it is, because the call has ended
or waits for the lock at its `UPDATE`, or brings the call closer to its end. -/
theorem stepTx_progress (body : VentaBody) (other : Option ℚ) (db : DB) (tx : Tx) :
    ((∃ r, tx.pc = .done r) ∧ stepTx body other db tx = (db, tx)) ∨
    (tx.pc = .update ∧ other ≠ none ∧ stepTx body other db tx = (db, tx)) ∨
    (stepTx body other db tx).2.pc.rank < tx.pc.rank := by
  cases hpc : tx.pc with
  | beginTransaction => right; right; simp [stepTx, hpc, Pc.rank]
  | update =>
    cases hq : parseNumAny body.cantidad_vendida with
    | fin q =>
      cases hi : Number body.id_producto with
      | fin i =>
        by_cases hb : other = some i
        · right; left
          refine ⟨rfl, by rw [hb]; simp, ?_⟩
          simp [stepTx, hpc, hq, hi, hb]
        · right; right
          simp only [stepTx, hpc, hq, hi, if_neg hb]
          split_ifs <;> simp [Pc.rank]
      | nan => right; right; simp [stepTx, hpc, hq, hi, Pc.rank]
      | posInf => right; right; simp [stepTx, hpc, hq, hi, Pc.rank]
      | negInf => right; right; simp [stepTx, hpc, hq, hi, Pc.rank]
    | nan => right; right; simp [stepTx, hpc, hq, Pc.rank]
    | posInf => right; right; simp [stepTx, hpc, hq, Pc.rank]
    | negInf => right; right; simp [stepTx, hpc, hq, Pc.rank]
  | rollback i => right; right; simp [stepTx, hpc, Pc.rank, Tx.ended]
  | select q i => right; right; simp [stepTx, hpc, Pc.rank]
  | insert q i nombre sr =>
    right; right
    cases ht : parseNumAny body.total_venta <;> simp [stepTx, hpc, ht, Pc.rank]
  | commit n sr => right; right; simp [stepTx, hpc, Pc.rank, Tx.ended]
  | catchRollback => right; right; simp [stepTx, hpc, Pc.rank, Tx.ended]
  | done r => left; exact ⟨⟨r, rfl⟩, by simp [stepTx, hpc]⟩

theorem stepTx_lockOk (body : VentaBody) (other : Option ℚ) (db : DB) (tx : Tx)
    (h : LockOk tx) : LockOk (stepTx body other db tx).2 := by
  cases hpc : tx.pc with
  | beginTransaction =>
    have hl : tx.lock = none := h (Or.inl hpc)
    intro _
    simp [stepTx, hpc, hl]
  | update =>
    cases hq : parseNumAny body.cantidad_vendida with
    | fin q =>
      cases hi : Number body.id_producto with
      | fin i =>
        by_cases hb : other = some i
        · have : stepTx body other db tx = (db, tx) := by simp [stepTx, hpc, hq, hi, hb]
          rw [this]; exact h
        · intro hc
          simp only [stepTx, hpc, hq, hi, if_neg hb] at hc
          split_ifs at hc <;> simp at hc
      | nan => intro hc; simp [stepTx, hpc, hq, hi] at hc
      | posInf => intro hc; simp [stepTx, hpc, hq, hi] at hc
      | negInf => intro hc; simp [stepTx, hpc, hq, hi] at hc
    | nan => intro hc; simp [stepTx, hpc, hq] at hc
    | posInf => intro hc; simp [stepTx, hpc, hq] at hc
    | negInf => intro hc; simp [stepTx, hpc, hq] at hc
  | rollback i => intro _; simp [stepTx, hpc, Tx.ended]
  | select q i => intro hc; simp [stepTx, hpc] at hc
  | insert q i nombre sr =>
    intro hc
    cases ht : parseNumAny body.total_venta <;> simp [stepTx, hpc, ht] at hc
  | commit n sr => intro _; simp [stepTx, hpc, Tx.ended]
  | catchRollback => intro _; simp [stepTx, hpc, Tx.ended]
  | done r =>
    have : stepTx body other db tx = (db, tx) := by simp [stepTx, hpc]
    rw [this]; exact h

theorem stepCalls_other (body1 body2 : VentaBody) (st : Calls) (k : Bool) :
    (stepCalls body1 body2 st k).tx (!k) = st.tx (!k) := by
  cases k <;> simp [stepCalls, Calls.tx]

theorem stepCalls_lockOk (body1 body2 : VentaBody) (st : Calls) (k : Bool)
    (h : ∀ j, LockOk (st.tx j)) : ∀ j, LockOk ((stepCalls body1 body2 st k).tx j) := by
  intro j
  have h0 := h false
  have h1 := h true
  simp only [Calls.tx, Bool.false_eq_true, if_false, if_true] at h0 h1
  cases k <;> cases j <;>
    simp only [stepCalls, Calls.tx, Bool.false_eq_true, if_false, if_true]
  · exact stepTx_lockOk _ _ _ _ h0
  · exact h1
  · exact h0
  · exact stepTx_lockOk _ _ _ _ h1

theorem runCalls_lockOk (body1 body2 : VentaBody) (sched : List Bool) (st : Calls)
    (h : ∀ j, LockOk (st.tx j)) : ∀ j, LockOk ((runCalls body1 body2 st sched).tx j) := by
  induction sched generalizing st with
  | nil => exact h
  | cons k rest ih => exact ih _ (stepCalls_lockOk body1 body2 st k h)

/-- A statement of call `k` leaves the whole state as it is, because the call
has ended or waits for the lock the other call holds, or lowers its rank. -/
theorem stepCalls_progress (body1 body2 : VentaBody) (st : Calls) (k : Bool) :
    (stepCalls body1 body2 st k = st ∧
      ((∃ r, (st.tx k).pc = .done r) ∨ ((st.tx k).pc = .update ∧ (st.tx (!k)).lock ≠ none))) ∨
    ((stepCalls body1 body2 st k).tx k).pc.rank < (st.tx k).pc.rank := by
  cases k with
  | false =>
    simp only [stepCalls, Calls.tx, Bool.false_eq_true, if_false, Bool.not_false, if_true]
    rcases stepTx_progress body1 st.second.lock st.db st.first with
      ⟨hd, e⟩ | ⟨hu, hl, e⟩ | hlt
    · exact Or.inl ⟨by rw [e], Or.inl hd⟩
    · exact Or.inl ⟨by rw [e], Or.inr ⟨hu, hl⟩⟩
    · exact Or.inr hlt
  | true =>
    simp only [stepCalls, Calls.tx, if_true, Bool.not_true, Bool.false_eq_true, if_false]
    rcases stepTx_progress body2 st.first.lock st.db st.second with
      ⟨hd, e⟩ | ⟨hu, hl, e⟩ | hlt
    · exact Or.inl ⟨by rw [e], Or.inl hd⟩
    · exact Or.inl ⟨by rw [e], Or.inr ⟨hu, hl⟩⟩
    · exact Or.inr hlt

theorem runCalls_append (body1 body2 : VentaBody) (st : Calls) (s1 s2 : List Bool) :
    runCalls body1 body2 st (s1 ++ s2) = runCalls body1 body2 (runCalls body1 body2 st s1) s2 := by
  simp [runCalls, List.foldl_append]

theorem runCalls_fixed (body1 body2 : VentaBody) (st : Calls) (k : Bool) (n : ℕ)
    (h : stepCalls body1 body2 st k = st) :
    runCalls body1 body2 st (List.replicate n k) = st := by
  induction n with
  | zero => rfl
  | succ n ih =>
    rw [List.replicate_succ]
    show runCalls body1 body2 (stepCalls body1 body2 st k) (List.replicate n k) = st
    rw [h, ih]

/-- After as many statements of call `k` as its rank, call `k` can move no
further, and the other call is as it was. -/
theorem runCalls_settles (body1 body2 : VentaBody) (k : Bool) (n : ℕ) (st : Calls)
    (h : (st.tx k).pc.rank ≤ n) :
    stepCalls body1 body2 (runCalls body1 body2 st (List.replicate n k)) k =
      runCalls body1 body2 st (List.replicate n k) ∧
    (runCalls body1 body2 st (List.replicate n k)).tx (!k) = st.tx (!k) := by
  induction n generalizing st with
  | zero =>
    rcases stepCalls_progress body1 body2 st k with ⟨e, _⟩ | hlt
    · exact ⟨e, rfl⟩
    · omega
  | succ n ih =>
    rcases stepCalls_progress body1 body2 st k with ⟨e, _⟩ | hlt
    · rw [runCalls_fixed body1 body2 st k (n + 1) e]
      exact ⟨e, rfl⟩
    · rw [List.replicate_succ]
      show stepCalls body1 body2
          (runCalls body1 body2 (stepCalls body1 body2 st k) (List.replicate n k)) k =
          runCalls body1 body2 (stepCalls body1 body2 st k) (List.replicate n k) ∧
        (runCalls body1 body2 (stepCalls body1 body2 st k) (List.replicate n k)).tx (!k) =
          st.tx (!k)
      obtain ⟨h1, h2⟩ := ih (stepCalls body1 body2 st k) (by omega)
      exact ⟨h1, h2.trans (stepCalls_other body1 body2 st k)⟩

/-- A call that can move no further has ended, or waits at its `UPDATE` for the
lock of the other call; either way it holds no lock itself. -/
theorem settled_shape (body1 body2 : VentaBody) (st : Calls) (k : Bool)
    (hl : LockOk (st.tx k)) (h : stepCalls body1 body2 st k = st) :
    (st.tx k).lock = none ∧
      ((∃ r, (st.tx k).pc = .done r) ∨ (st.tx (!k)).lock ≠ none) := by
  rcases stepCalls_progress body1 body2 st k with ⟨_, hd | ⟨hu, hb⟩⟩ | hlt
  · exact ⟨hl (Or.inr (Or.inr hd)), Or.inl hd⟩
  · exact ⟨hl (Or.inr (Or.inl hu)), Or.inr hb⟩
  · rw [h] at hlt
    exact absurd hlt (lt_irrefl _)

/-- Whatever two calls did so far, letting the first run, then the second, then
the first again brings both to their end: no call waits for ever. -/
theorem runCalls_drain (body1 body2 : VentaBody) (st : Calls)
    (h : ∀ j, LockOk (st.tx j)) :
    (∃ r1, (runCalls body1 body2 st drain).first.pc = .done r1) ∧
    (∃ r2, (runCalls body1 body2 st drain).second.pc = .done r2) := by
  unfold drain
  rw [runCalls_append, runCalls_append]
  set st1 := runCalls body1 body2 st (List.replicate 5 false) with hst1
  set st2 := runCalls body1 body2 st1 (List.replicate 5 true) with hst2
  set st3 := runCalls body1 body2 st2 (List.replicate 5 false) with hst3
  have hl1 := runCalls_lockOk body1 body2 (List.replicate 5 false) st h
  have hl2 := runCalls_lockOk body1 body2 (List.replicate 5 true) st1 hl1
  have hl3 := runCalls_lockOk body1 body2 (List.replicate 5 false) st2 hl2
  obtain ⟨f1, _⟩ := runCalls_settles body1 body2 false 5 st (rank_le_five _)
  obtain ⟨f2, o2⟩ := runCalls_settles body1 body2 true 5 st1 (rank_le_five _)
  obtain ⟨f3, o3⟩ := runCalls_settles body1 body2 false 5 st2 (rank_le_five _)
  -- the first call holds no lock once it has settled
  have a1 : (st1.tx false).lock = none := (settled_shape body1 body2 st1 false (hl1 false) f1).1
  -- so the second call ends
  have a2 := settled_shape body1 body2 st2 true (hl2 true) f2
  have e2 : (st2.tx !true) = st1.tx !true := o2
  have d2 : ∃ r, (st2.tx true).pc = .done r := by
    rcases a2.2 with hd | hb
    · exact hd
    · rw [e2] at hb
      exact absurd a1 hb
  -- and the first call ends in turn
  have a3 := settled_shape body1 body2 st3 false (hl3 false) f3
  have e3 : (st3.tx !false) = st2.tx !false := o3
  have d3 : ∃ r, (st3.tx false).pc = .done r := by
    rcases a3.2 with hd | hb
    · exact hd
    · rw [e3] at hb
      exact absurd a2.1 hb
  refine ⟨d3, ?_⟩
  have : st3.second = st2.second := e3
  rw [this]
  exact d2

theorem startCalls_lockOk (db : DB) (body1 body2 : VentaBody) :
    ∀ j, LockOk ((startCalls db body1 body2).tx j) := by
  intro j _
  cases j <;> rfl

/-! ## Two calls in flight: agreement with the handler served alone -/

theorem restoreRows_decrement (l : List Item) (q i : ℚ) :
    restoreRows (l.map (decrementRow q i))
        (l.map (fun it => if it.id_producto = i ∧ it.stock_inicial ≥ q then some it else none)) =
      l := by
  induction l with
  | nil => rfl
  | cons a r ih =>
    simp only [List.map_cons, restoreRows, ih]
    by_cases h : a.id_producto = i ∧ a.stock_inicial ≥ q
    · simp [h]
    · simp [h, decrementRow]

theorem restoreRows_nil (l : List Item) : restoreRows l [] = l :=
  restoreRows_none l [] (fun _ hu => absurd hu (List.not_mem_nil _))

/-- A call whose statements meet no statement of another call does what
`create_sale` does without faults. -/
theorem runCalls_alone (db : DB) (body body2 : VentaBody) (r : Resp) :
    runCalls body body2 { db := db, first := startTx body, second := Tx.ended r }
        (List.replicate 5 false) =
      { db := (create_sale noFaults db body).2
        first := Tx.ended (create_sale noFaults db body).1
        second := Tx.ended r } := by
  have hden : (Tx.ended r).lock = none := rfl
  by_cases hv : body.fecha.falsy = true ∨ (Number body.id_producto).falsy = true ∨
      (parseNumAny body.cantidad_vendida).isNaN = true ∨
      (parseNumAny body.cantidad_vendida).leZero = true ∨
      (parseNumAny body.total_venta).isNaN = true
  · simp [runCalls, List.replicate, stepCalls, stepTx, startTx, create_sale, hv, Tx.ended]
  · have hcs : create_sale noFaults db body =
        ((createReleased noFaults (getConnection db) body.fecha.text (Number body.id_producto)
            (parseNumAny body.cantidad_vendida) (parseNumAny body.total_venta)
            (orNull body.observaciones)).1,
         (createReleased noFaults (getConnection db) body.fecha.text (Number body.id_producto)
            (parseNumAny body.cantidad_vendida) (parseNumAny body.total_venta)
            (orNull body.observaciones)).2.committed) := by
      simp only [create_sale, hv, if_false]
    have hst : startTx body = { pc := .beginTransaction, lock := none, undo := [], pending := [] } := by
      simp only [startTx, hv, if_false]
    rw [hcs, hst]
    cases hq : parseNumAny body.cantidad_vendida with
    | fin q =>
      cases hi : Number body.id_producto with
      | fin i =>
        by_cases hc : ∀ a ∈ db.inventario, a.id_producto = i → a.stock_inicial < q
        · have hno : ∀ x ∈ db.inventario, ¬ (x.id_producto = i ∧ x.stock_inicial ≥ q) :=
            fun x hx hc' => absurd (hc x hx hc'.1) (not_lt.mpr hc'.2)
          have hmap := map_decrementRow_of_no_match db.inventario q i hno
          have hundo : ∀ u ∈ db.inventario.map (fun it =>
              if it.id_producto = i ∧ it.stock_inicial ≥ q then some it else none), u = none := by
            intro u hu
            rw [List.mem_map] at hu
            obtain ⟨a, ha, rfl⟩ := hu
            rw [if_neg (hno a ha)]
          simp [runCalls, List.replicate, stepCalls, stepTx, hq, hi, hden, if_pos hc, createTry,
            noFaults, conditionalDecrement, beginTransaction, getConnection, rollback, release, createReleased, deleteReleased, autocommit, publish,
            Tx.ended, hmap, restoreRows_none _ _ hundo]
        · cases ht : parseNumAny body.total_venta with
          | fin t =>
            simp [runCalls, List.replicate, stepCalls, stepTx, hq, hi, ht, hden, if_neg hc,
              createTry, noFaults, conditionalDecrement, beginTransaction, getConnection,
              release, createReleased, deleteReleased, autocommit, publish, Tx.ended, selectProducto, insertVenta, commit, ventaRow]
          | nan =>
            simp [runCalls, List.replicate, stepCalls, stepTx, hq, hi, ht, hden, if_neg hc,
              createTry, noFaults, conditionalDecrement, beginTransaction, getConnection,
              release, createReleased, deleteReleased, autocommit, publish, Tx.ended, selectProducto, catchBlock, rollback, restoreRows_decrement]
          | posInf =>
            simp [runCalls, List.replicate, stepCalls, stepTx, hq, hi, ht, hden, if_neg hc,
              createTry, noFaults, conditionalDecrement, beginTransaction, getConnection,
              release, createReleased, deleteReleased, autocommit, publish, Tx.ended, selectProducto, catchBlock, rollback, restoreRows_decrement]
          | negInf =>
            simp [runCalls, List.replicate, stepCalls, stepTx, hq, hi, ht, hden, if_neg hc,
              createTry, noFaults, conditionalDecrement, beginTransaction, getConnection,
              release, createReleased, deleteReleased, autocommit, publish, Tx.ended, selectProducto, catchBlock, rollback, restoreRows_decrement]
      | nan =>
        simp [runCalls, List.replicate, stepCalls, stepTx, hq, hi, hden, createTry, noFaults,
          beginTransaction, getConnection, release, createReleased, deleteReleased, autocommit, publish, Tx.ended, catchBlock, rollback, restoreRows_nil]
      | posInf =>
        simp [runCalls, List.replicate, stepCalls, stepTx, hq, hi, hden, createTry, noFaults,
          beginTransaction, getConnection, release, createReleased, deleteReleased, autocommit, publish, Tx.ended, catchBlock, rollback, restoreRows_nil]
      | negInf =>
        simp [runCalls, List.replicate, stepCalls, stepTx, hq, hi, hden, createTry, noFaults,
          beginTransaction, getConnection, release, createReleased, deleteReleased, autocommit, publish, Tx.ended, catchBlock, rollback, restoreRows_nil]
    | nan =>
      simp [runCalls, List.replicate, stepCalls, stepTx, hq, hden, createTry, noFaults,
        beginTransaction, getConnection, release, createReleased, deleteReleased, autocommit, publish, Tx.ended, catchBlock, rollback, restoreRows_nil]
    | posInf =>
      simp [runCalls, List.replicate, stepCalls, stepTx, hq, hden, createTry, noFaults,
        beginTransaction, getConnection, release, createReleased, deleteReleased, autocommit, publish, Tx.ended, catchBlock, rollback, restoreRows_nil]
    | negInf =>
      simp [runCalls, List.replicate, stepCalls, stepTx, hq, hden, createTry, noFaults,
        beginTransaction, getConnection, release, createReleased, deleteReleased, autocommit, publish, Tx.ended, catchBlock, rollback, restoreRows_nil]

/-! ## The claim on concurrent sales -/

theorem parse_five : parseNumAny (.str "5") = JsNum.fin 5 := by
  have h := parseNumAny_locale_small ['5'] (by decide) (by decide) (by decide)
  have hv : digitsValue (removeDots ['5']) = 5 := by decide
  rw [hv] at h
  simpa using h

/-- C11: given a catalog with distinct ids that holds an item with stock 5, and
two `create_sale` calls in flight that each ask for quantity 5 of it, with the
row lock of the store and no fault: at every point of every interleaving the
stock of the item is not negative; every interleaving can be completed, after
which both calls have ended; and whenever both calls have ended, exactly one
has succeeded, with remaining stock 0, the other has failed with `conflict`
naming the item, the stock of the item is 0 and one sale row was added. -/
theorem concurrent_sales_one_succeeds (db : DB) (it : Item) (body1 body2 : VentaBody)
    (t1 t2 : ℚ) (sched : List Bool)
    (hnd : (db.inventario.map Item.id_producto).Nodup) (hit : it ∈ db.inventario)
    (hstock : it.stock_inicial = 5) (hi0 : it.id_producto ≠ 0)
    (hf1 : body1.fecha.falsy = false)
    (hid1 : Number body1.id_producto = JsNum.fin it.id_producto)
    (hq1 : parseNumAny body1.cantidad_vendida = JsNum.fin 5)
    (ht1 : parseNumAny body1.total_venta = JsNum.fin t1)
    (hf2 : body2.fecha.falsy = false)
    (hid2 : Number body2.id_producto = JsNum.fin it.id_producto)
    (hq2 : parseNumAny body2.cantidad_vendida = JsNum.fin 5)
    (ht2 : parseNumAny body2.total_venta = JsNum.fin t2) :
    (∀ x ∈ (runCalls body1 body2 (startCalls db body1 body2) sched).db.inventario,
      x.id_producto = it.id_producto → 0 ≤ x.stock_inicial) ∧
    (∃ r1 r2,
      (runCalls body1 body2 (startCalls db body1 body2) (sched ++ drain)).first.response =
        some r1 ∧
      (runCalls body1 body2 (startCalls db body1 body2) (sched ++ drain)).second.response =
        some r2) ∧
    (∀ r1 r2,
      (runCalls body1 body2 (startCalls db body1 body2) sched).first.response = some r1 →
      (runCalls body1 body2 (startCalls db body1 body2) sched).second.response = some r2 →
      (((∃ n, r1 = Resp.created n 0) ∧ r2 = Resp.conflict it.id_producto) ∨
        (r1 = Resp.conflict it.id_producto ∧ ∃ n, r2 = Resp.created n 0)) ∧
      (runCalls body1 body2 (startCalls db body1 body2) sched).db.inventario =
        db.inventario.map (fun x => if x = it then { it with stock_inicial := 0 } else x) ∧
      ∃ row, (runCalls body1 body2 (startCalls db body1 body2) sched).db.ventas =
          db.ventas ++ [row] ∧
        row.id_producto = it.id_producto ∧ row.cantidad_vendida = 5) := by
  have h1 : Asks body1 it 5 := ⟨hid1, hq1, t1, ht1⟩
  have h2 : Asks body2 it 5 := ⟨hid2, hq2, t2, ht2⟩
  have hs : LastUnits db it 5 := ⟨hnd, hit, by norm_num, by rw [hstock], by rw [hstock]; norm_num⟩
  have hzero : it.stock_inicial - 5 = 0 := by rw [hstock]; norm_num
  have hinv := raceInv_run body1 body2 it 5 db h1 h2 hs sched _
    (raceInv_start body1 body2 it 5 db h1 h2 hs hf1 hf2 hi0)
  refine ⟨raceInv_nonneg it 5 db _ hs hinv, ?_, ?_⟩
  · rw [runCalls_append]
    obtain ⟨⟨r1, e1⟩, ⟨r2, e2⟩⟩ := runCalls_drain body1 body2
      (runCalls body1 body2 (startCalls db body1 body2) sched)
      (runCalls_lockOk body1 body2 sched _ (startCalls_lockOk db body1 body2))
    exact ⟨r1, r2, by simp [Tx.response, e1], by simp [Tx.response, e2]⟩
  · intro r1 r2 hr1 hr2
    have := raceInv_outcome it 5 db _ r1 r2 hs hinv hr1 hr2
    rw [hzero] at this
    exact this

theorem runCalls_cons (body1 body2 : VentaBody) (st : Calls) (k : Bool) (rest : List Bool) :
    runCalls body1 body2 st (k :: rest) =
      runCalls body1 body2 (stepCalls body1 body2 st k) rest := rfl

/-- The interleaving `secondWins` on the sample catalog: the first call waits,
then finds no unit left. -/
theorem secondWins_outcome :
    runCalls (sampleBody "5") (sampleBody "5")
        (startCalls lastFiveDB (sampleBody "5") (sampleBody "5")) secondWins =
      { db := { inventario := [{ lastFive with stock_inicial := 0 }]
                ventas := [ventaRow 1 "2024-01-01" 1 "Angulo" 5 150 none]
                autoInc := 2 }
        first := Tx.ended (Resp.conflict 1)
        second := Tx.ended (Resp.created 1 0) } := by
  have hid : Number (sampleBody "5").id_producto = JsNum.fin 1 := number_one
  have hq : parseNumAny (sampleBody "5").cantidad_vendida = JsNum.fin 5 := parse_five
  have ht : parseNumAny (sampleBody "5").total_venta = JsNum.fin 150 := parse_150
  have hf : (sampleBody "5").fecha.falsy = false := rfl
  have h0 : startCalls lastFiveDB (sampleBody "5") (sampleBody "5") =
      { db := lastFiveDB
        first := { pc := .beginTransaction, lock := none, undo := [], pending := [] }
        second := { pc := .beginTransaction, lock := none, undo := [], pending := [] } } := by
    simp [startCalls, startTx, hid, hq, ht, hf, isNaN_fin, falsy_fin, leZero_fin]
  unfold secondWins
  rw [h0]
  rw [runCalls_cons]
  simp only [stepCalls, stepTx, Bool.false_eq_true, if_false, if_true]
  rw [runCalls_cons]
  simp only [stepCalls, stepTx, Bool.false_eq_true, if_false, if_true]
  rw [runCalls_cons]
  simp [stepCalls, stepTx, hid, hq, lastFiveDB, lastFive, sampleItem, decrementRow]
  rw [runCalls_cons]
  simp [stepCalls, stepTx, hid, hq]
  rw [runCalls_cons]
  simp [stepCalls, stepTx]
  rw [runCalls_cons]
  simp [stepCalls, stepTx, ht]
  rw [runCalls_cons]
  simp [stepCalls, stepTx, Tx.ended]
  rw [runCalls_cons]
  simp [stepCalls, stepTx, hid, hq, decrementRow]
  rw [runCalls_cons]
  simp [stepCalls, stepTx, restoreRows, runCalls, Tx.ended, ventaRow, sampleBody, orNull,
    JsVal.falsy, JsVal.text]
  norm_num

theorem concurrent_sales_one_succeeds_witness :
    (lastFiveDB.inventario.map Item.id_producto).Nodup ∧ lastFive ∈ lastFiveDB.inventario ∧
    lastFive.stock_inicial = 5 ∧ lastFive.id_producto ≠ 0 ∧
    (sampleBody "5").fecha.falsy = false ∧
    Number (sampleBody "5").id_producto = JsNum.fin lastFive.id_producto ∧
    parseNumAny (sampleBody "5").cantidad_vendida = JsNum.fin 5 ∧
    parseNumAny (sampleBody "5").total_venta = JsNum.fin 150 ∧
    (∀ x ∈ (runCalls (sampleBody "5") (sampleBody "5")
        (startCalls lastFiveDB (sampleBody "5") (sampleBody "5")) secondWins).db.inventario,
      x.id_producto = lastFive.id_producto → 0 ≤ x.stock_inicial) ∧
    (∃ r1 r2,
      (runCalls (sampleBody "5") (sampleBody "5")
        (startCalls lastFiveDB (sampleBody "5") (sampleBody "5"))
        (secondWins ++ drain)).first.response = some r1 ∧
      (runCalls (sampleBody "5") (sampleBody "5")
        (startCalls lastFiveDB (sampleBody "5") (sampleBody "5"))
        (secondWins ++ drain)).second.response = some r2) ∧
    (runCalls (sampleBody "5") (sampleBody "5")
        (startCalls lastFiveDB (sampleBody "5") (sampleBody "5")) secondWins).first.response =
      some (Resp.conflict 1) ∧
    (runCalls (sampleBody "5") (sampleBody "5")
        (startCalls lastFiveDB (sampleBody "5") (sampleBody "5")) secondWins).second.response =
      some (Resp.created 1 0) ∧
    (((∃ n, Resp.conflict 1 = Resp.created n 0) ∧
        Resp.created 1 0 = Resp.conflict lastFive.id_producto) ∨
      (Resp.conflict 1 = Resp.conflict lastFive.id_producto ∧
        ∃ n, Resp.created 1 0 = Resp.created n 0)) ∧
    (runCalls (sampleBody "5") (sampleBody "5")
        (startCalls lastFiveDB (sampleBody "5") (sampleBody "5")) secondWins).db.inventario =
      lastFiveDB.inventario.map (fun x =>
        if x = lastFive then { lastFive with stock_inicial := 0 } else x) :=
  have hid : Number (sampleBody "5").id_producto = JsNum.fin lastFive.id_producto := number_one
  have h := concurrent_sales_one_succeeds lastFiveDB lastFive (sampleBody "5") (sampleBody "5")
    150 150 secondWins (by simp [lastFiveDB]) (by simp [lastFiveDB]) rfl
    (by norm_num [lastFive, sampleItem]) rfl hid parse_five parse_150 rfl hid parse_five
    parse_150
  have e1 : (runCalls (sampleBody "5") (sampleBody "5")
      (startCalls lastFiveDB (sampleBody "5") (sampleBody "5")) secondWins).first.response =
      some (Resp.conflict 1) := by rw [secondWins_outcome]; rfl
  have e2 : (runCalls (sampleBody "5") (sampleBody "5")
      (startCalls lastFiveDB (sampleBody "5") (sampleBody "5")) secondWins).second.response =
      some (Resp.created 1 0) := by rw [secondWins_outcome]; rfl
  ⟨by simp [lastFiveDB], by simp [lastFiveDB], rfl, by norm_num [lastFive, sampleItem], rfl,
    hid, parse_five, parse_150, h.1, h.2.1, e1, e2, (h.2.2 _ _ e1 e2).1, (h.2.2 _ _ e1 e2).2.1⟩

end Metalurgicas
